import Mathlib

/-!
# WundergroundDownloader: the ingestion engine of `WundergroundComms`

A shallow embedding of `src/src/WundergroundComms.cpp`: the members of the
class become the fields of a record, every method becomes a function from the
record (and the inputs read from the environment) to its return value, the new
record and the list of externally visible events it produced.

Conventions.
* `QString` is `String`; the empty and the null `QString` are both `""`.
* `QHash<QString, T>` is an association list with one entry per key.
* A `QJsonObject` is the list of its members in iteration order (Qt iterates
  in ascending key order and holds every key once; the functions below are
  defined on every list, and a theorem that needs the order assumes it).
* The text conversions of Qt whose result depends on floating point or on the
  time zone database are taken as parameters (`QtText`).
* Signals, logger calls, network requests and timers are recorded as `Event`s.
-/

/-! ## Qt value types -/

namespace QString

/-- Lexicographic comparison of two sequences of characters by code, the
order of `operator<` on `QString` (for text in the basic plane). -/
def ltCodes : List Char → List Char → Bool
  | [], [] => false
  | [], _ :: _ => true
  | _ :: _, [] => false
  | a :: as, b :: bs =>
    if a.toNat < b.toNat then true
    else if b.toNat < a.toNat then false
    else ltCodes as bs

/-- The comparison `a < b` of two `QString`s. -/
def lt (a b : String) : Bool := ltCodes a.data b.data

/-- The comparison `a <= b` of two `QString`s. -/
def le (a b : String) : Bool := !lt b a

/-- The comparison `a >= b` of two `QString`s. -/
def ge (a b : String) : Bool := !lt a b

/-- The template `qMin(a, b)`: `(b < a) ? b : a`. -/
def qMin (a b : String) : String := if lt b a then b else a

/-- The template `qMax(a, b)`: `(a < b) ? b : a`. -/
def qMax (a b : String) : String := if lt a b then b else a

/-- Two decimal digits, zero padded: what Qt prints for `hh`, `mm`, `MM`, `dd`. -/
def twoDigits (n : Nat) : String :=
  String.mk [Nat.digitChar (n / 10 % 10), Nat.digitChar (n % 10)]

/-- Four decimal digits, zero padded: what Qt prints for `yyyy`. -/
def fourDigits (n : Nat) : String :=
  String.mk [Nat.digitChar (n / 1000 % 10), Nat.digitChar (n / 100 % 10),
    Nat.digitChar (n / 10 % 10), Nat.digitChar (n % 10)]

end QString

/-- A `QTime` read from the wall clock, to the minute. -/
structure QTime where
  hour : Nat
  minute : Nat
deriving DecidableEq, Repr

namespace QTime

/-- Conversion `QTime::toString("hh:mm")`. -/
def toString_hhmm (t : QTime) : String :=
  QString.twoDigits t.hour ++ ":" ++ QString.twoDigits t.minute

/-- Minutes since midnight. -/
def minutes (t : QTime) : Nat := t.hour * 60 + t.minute

/-- A time of day that a clock can show. -/
def isValid (t : QTime) : Prop := t.hour < 24 ∧ t.minute < 60

end QTime

/-- A `QDate`: Qt stores a date as its Julian day number. -/
structure QDate where
  jd : Int
deriving DecidableEq, Repr

namespace QDate

/-- Method `QDate::addDays`. -/
def addDays (d : QDate) (n : Int) : QDate := ⟨d.jd + n⟩

/-- Year, month and day of a Julian day number in the Gregorian calendar
(the conversion Qt uses; all divisions round down, years after year 0). -/
def getDateFromJulianDay (julianDay : Int) : Int × Int × Int :=
  let a := julianDay + 32044
  let b := (4 * a + 3) / 146097
  let c := a - 146097 * b / 4
  let d := (4 * c + 3) / 1461
  let e := c - 1461 * d / 4
  let m := (5 * e + 2) / 153
  let day := e - (153 * m + 2) / 5 + 1
  let month := m + 3 - 12 * (m / 10)
  let year := 100 * b + d - 4800 + m / 10
  (year, month, day)

/-- Conversion `QDate::toString("yyyyMMdd")`. -/
def toString_yyyyMMdd (d : QDate) : String :=
  let ymd := getDateFromJulianDay d.jd
  QString.fourDigits ymd.1.toNat ++ QString.twoDigits ymd.2.1.toNat
    ++ QString.twoDigits ymd.2.2.toNat

end QDate

/-- A `QJsonValue`; a number is a finite double, which is a rational. -/
inductive QJsonValue where
  | null
  | bool (b : Bool)
  | double (d : ℚ)
  | string (s : String)
  | array (a : List QJsonValue)
  | object (o : List (String × QJsonValue))
  | undefined

/-- A `QJsonObject`: its members in iteration order. -/
abbrev QJsonObject := List (String × QJsonValue)

namespace QJsonValue

/-- Method `QJsonValue::toString()`: the text of a string, else the null string. -/
def toString : QJsonValue → String
  | string s => s
  | _ => ""

/-- Method `QJsonValue::toDouble()`: the number, else 0. -/
def toDouble : QJsonValue → ℚ
  | double d => d
  | _ => 0

/-- Method `QJsonValue::toArray()`: the array, else the empty array. -/
def toArray : QJsonValue → List QJsonValue
  | array a => a
  | _ => []

/-- Method `QJsonValue::toObject()`: the object, else the empty object. -/
def toObject : QJsonValue → QJsonObject
  | object o => o
  | _ => []

end QJsonValue

namespace QJsonObject

/-- Method `QJsonObject::keys()`. -/
def keys (o : QJsonObject) : List String := o.map Prod.fst

/-- The read access `object[key]`: the member, or `Undefined`. -/
def value (o : QJsonObject) (key : String) : QJsonValue :=
  (o.lookup key).getD QJsonValue.undefined

end QJsonObject

/-- A `QHash<QString, T>`: one entry per key. -/
abbrev QHash (β : Type) := List (String × β)

namespace QHash

/-- Method `QHash::contains`. -/
def contains {β : Type} (h : QHash β) (key : String) : Bool := (h.lookup key).isSome

/-- The read access `hash[key]`: the value, or a default constructed one. -/
def value {β : Type} (h : QHash β) (key : String) (dflt : β) : β := (h.lookup key).getD dflt

/-- The assignment `hash[key] = v`: replaces the entry of `key` or adds one. -/
def insert {β : Type} (h : QHash β) (key : String) (v : β) : QHash β :=
  (key, v) :: h.filter (fun p => !(p.1 == key))

/-- Method `QHash::values()`. -/
def values {β : Type} (h : QHash β) : List β := h.map Prod.snd

end QHash

/-- A `QSet<QString>`: a list without repetition. -/
abbrev QSet := List String

namespace QSet

/-- The operator `set += x`. -/
def insert (s : QSet) (x : String) : QSet := if x ∈ s then s else x :: s

end QSet

/-- What the text conversions of Qt return that this development does not
compute: they depend on binary floating point and on the local time zone. -/
structure QtText where
  /-- The text `QString::number(value)` for the `float` nearest to a JSON number. -/
  number : ℚ → String
  /-- The text `QDateTime::fromString(s, "yyyy-MM-dd hh:mm:ss").toString("hh:mm:ss")`. -/
  toTime : String → String
  /-- The text `QDateTime::fromString(s, "yyyy-MM-dd hh:mm:ss").toString("yyyy-MM-dd")`. -/
  toDate : String → String

/-! ## Configuration (`Config_empty.h`) -/

/-- The constant `CHECK_START_TIME`. -/
def CHECK_START_TIME : String := "06:00"

/-- The constant `CHECK_END_TIME`. -/
def CHECK_END_TIME : String := "22:00"

/-- The constant `CHECK_FOR_UPDATES_DELAY`, in milliseconds. -/
def CHECK_FOR_UPDATES_DELAY : Nat := 3600 * 1000

/-! ## The engine state and its events -/

/-- The table filled by `Initialize_WUToDB`: provider key, database column;
the empty column marks a provider key that is ignored. -/
def m_WUToDB : QHash String :=
  [("dewptAvg", "dew_point_avg_c"),
   ("dewptHigh", "dew_point_high_c"),
   ("dewptLow", "dew_point_low_c"),
   ("epoch", ""),
   ("heatindexAvg", "heat_index_avg_c"),
   ("heatindexHigh", "heat_index_high_c"),
   ("heatindexLow", "heat_index_low_c"),
   ("humidityAvg", "humidity_avg_percent"),
   ("humidityHigh", "humidity_high_percent"),
   ("humidityLow", "humidity_low_percent"),
   ("lat", "latitude"),
   ("lon", "longitude"),
   ("obsTimeLocal", "date_time"),
   ("obsTimeUtc", ""),
   ("precipRate", "precipitation_rate_mm"),
   ("precipTotal", "precipitation_total_mm"),
   ("pressureMax", "pressure_max_hpa"),
   ("pressureMin", "pressure_min_hpa"),
   ("pressureTrend", "pressure_trend_hpa"),
   ("qcStatus", ""),
   ("solarRadiationHigh", "solar_radiation_high"),
   ("stationID", "station_id"),
   ("tempAvg", "temperature_avg_c"),
   ("tempHigh", "temperature_high_c"),
   ("tempLow", "temperature_low_c"),
   ("tz", "timezone"),
   ("uvHigh", "uv_high"),
   ("windchillAvg", "wind_chill_avg_c"),
   ("windchillHigh", "wind_chill_high_c"),
   ("windchillLow", "wind_chill_low_c"),
   ("winddirAvg", "wind_direction_avg_degree"),
   ("windgustAvg", "wind_gust_avg_kmh"),
   ("windgustHigh", "wind_gust_high_kmh"),
   ("windgustLow", "wind_gust_low_kmh"),
   ("windspeedAvg", "windspeed_avg_kmh"),
   ("windspeedHigh", "windspeed_high_kmh"),
   ("windspeedLow", "windspeed_low_kmh")]

/-- The column list of `SaveToDatabase` and `ReadDatabase`:
`m_WUToDB.values()` without the empty names, sorted. -/
def columns : List String :=
  List.insertionSort (fun a b => QString.le a b = true)
    ((QHash.values m_WUToDB).filter (fun c => !(c == "")))

/-- The texts handed to the signal `StatusUpdate`, with the arguments that are
substituted into them. -/
inductive Status where
  /-- The text "Downloading data paused; resuming at %1." -/
  | paused (resume_at : String)
  /-- The text "Obtained update for %1 from WU server (%2 observations, %3 to %4)". -/
  | obtained (imported_date : String) (num_observations : Nat) (min_time max_time : String)
  /-- The text "Started updates from Weather Underground on %1", with the
  text of `m_StartDateTime`. -/
  | started (start_text : String)
  /-- The text "Stopped updates from Weather Underground on %1", with the
  text of the current date and time. -/
  | stopped (now_text : String)
  /-- The text "Database read; %1 stations, %2 records in total." -/
  | databaseRead (stations records : Nat)
  /-- The text "Observations range from %1 to %2.", followed by
  "<br/>Incomplete data for dates %1." and "<br/>No data for dates %1." for
  the lists that are not empty. -/
  | range (min_date max_date : String) (incomplete_data no_data : List String)
deriving DecidableEq, Repr

namespace Status

/-- The text of a status message. -/
def text : Status → String
  | paused resume_at => "Downloading data paused; resuming at " ++ resume_at ++ "."
  | obtained imported_date num_observations min_time max_time =>
    "Obtained update for " ++ imported_date ++ " from WU server ("
      ++ toString num_observations ++ " observations, " ++ min_time ++ " to " ++ max_time ++ ")"
  | started start_text => "Started updates from Weather Underground on " ++ start_text
  | stopped now_text => "Stopped updates from Weather Underground on " ++ now_text
  | databaseRead stations records =>
    "Database read; " ++ toString stations ++ " stations, " ++ toString records
      ++ " records in total."
  | range min_date max_date incomplete_data no_data =>
    "Observations range from " ++ min_date ++ " to " ++ max_date ++ "."
      ++ (if incomplete_data = [] then ""
          else "<br/>Incomplete data for dates " ++ ", ".intercalate incomplete_data ++ ".")
      ++ (if no_data = [] then ""
          else "<br/>No data for dates " ++ ", ".intercalate no_data ++ ".")

end Status

/-- What a method does that is visible outside the object. -/
inductive Event where
  /-- Entry of `GetDate(mcrDate)`. -/
  | CALL_GetDate (mcrDate : String)
  /-- Entry of `SaveToDatabase(mcrObservation)`. -/
  | CALL_SaveToDatabase (mcrObservation : QHash String)
  /-- A call `MessageLogger::Error(CALL_METHOD, reason)`. -/
  | Error (reason : String)
  /-- The signal `StatusUpdate`. -/
  | StatusUpdate (message : Status)
  /-- The signal `DataReceived`. -/
  | DataReceived (date : String)
  /-- The request `m_NetworkAccessManager -> get(request)` for a URL. -/
  | get (url : String)
  /-- The call `QTimer::singleShot(delay, this, &Periodic_GetUpdates)`. -/
  | singleShot (delay : Nat)
deriving DecidableEq, Repr

/-- The object `WundergroundComms` together with the table `wu_data` of the
database it is connected to. -/
structure WundergroundComms where
  m_DatabaseFilename : String
  m_DatabaseConnected : Bool
  m_PWSName : String
  m_Token : String
  m_IsRunning : Bool
  /-- The member `m_StartDateTime`, in seconds since the epoch. -/
  m_StartDateTime : Int := 0
  m_StationToDateTimes : QHash QSet
  m_WeatherData : List (QHash String)
  /-- The function-static `old_date` of `Periodic_GetUpdates`; `none` until the
  declaration is reached for the first time. -/
  old_date : Option String
  /-- The rows of the table `wu_data`, one list of (column, bound value) per row. -/
  wu_data : List (QHash String)
  /-- For each `INSERT` still to be executed, whether `HasSQLError` will report
  an error for it; none is reported once the list is used up. -/
  sqlErrors : List Bool
deriving DecidableEq, Repr

/-- What a method call yields: the returned value, the object afterwards and
the events in the order they happened. -/
structure Outcome (α : Type) where
  ret : α
  state : WundergroundComms
  events : List Event

namespace WundergroundComms

/-- The test `m_StationToDateTimes.contains(station_id) &&
m_StationToDateTimes[station_id].contains(date_time)`. -/
def isKnown (index : QHash QSet) (station_id date_time : String) : Bool :=
  QHash.contains index station_id && (QHash.value index station_id []).contains date_time

/-- The statement `m_StationToDateTimes[station_id] += date_time`. -/
def markKnown (index : QHash QSet) (station_id date_time : String) : QHash QSet :=
  QHash.insert index station_id (QSet.insert (QHash.value index station_id []) date_time)

/-- Method `SaveToDatabase`. `DatabaseHelper::HasSQLError` reports the error of
the driver through the logger before it returns `true`; that report, whose
text names the source file, the line, the statement and the message of the
driver, is not among the events (here and in `CreateDatabase` and
`ReadDatabase`). -/
def SaveToDatabase (s : WundergroundComms) (mcrObservation : QHash String) :
    Outcome Bool :=
  if !s.m_DatabaseConnected then
    ⟨false, s, [Event.CALL_SaveToDatabase mcrObservation,
      Event.Error "Cannot save observation to database; it has not been connected yet."]⟩
  else
    let row := columns.map (fun column => (column, QHash.value mcrObservation column ""))
    if s.sqlErrors.headD false then
      ⟨false, { s with sqlErrors := s.sqlErrors.tail },
        [Event.CALL_SaveToDatabase mcrObservation,
         Event.Error "SQL error adding observation to \"wu_data\""]⟩
    else
      ⟨true, { s with wu_data := s.wu_data ++ [row], sqlErrors := s.sqlErrors.tail },
        [Event.CALL_SaveToDatabase mcrObservation]⟩

/-- The loop over the keys of the "metric" object in `Parse_SingleObservation`:
the record and the logger calls after the given keys. -/
def metricLoop (qt : QtText) (json_metric : QJsonObject) :
    List String → QHash String → QHash String × List Event
  | [], observation => (observation, [])
  | metric_key :: rest, observation =>
    if QHash.contains m_WUToDB metric_key then
      if QHash.value m_WUToDB metric_key "" = "" then
        metricLoop qt json_metric rest observation
      else
        metricLoop qt json_metric rest
          (QHash.insert observation (QHash.value m_WUToDB metric_key "")
            (qt.number (QJsonObject.value json_metric metric_key).toDouble))
    else
      let r := metricLoop qt json_metric rest observation
      (r.1, Event.Error ("Unknown key \"" ++ metric_key ++ "\" in observation/metric") :: r.2)

/-- The loop over the keys of the observation in `Parse_SingleObservation`. -/
def keyLoop (qt : QtText) (mcrObservation : QJsonObject) :
    List String → QHash String → QHash String × List Event
  | [], observation => (observation, [])
  | key :: rest, observation =>
    if key = "metric" then
      let json_metric := (QJsonObject.value mcrObservation key).toObject
      let m := metricLoop qt json_metric (QJsonObject.keys json_metric) observation
      let r := keyLoop qt mcrObservation rest m.1
      (r.1, m.2 ++ r.2)
    else if QHash.contains m_WUToDB key then
      if QHash.value m_WUToDB key "" = "" then
        keyLoop qt mcrObservation rest observation
      else if key = "stationID" ∨ key = "tz" ∨ key = "obsTimeLocal" then
        keyLoop qt mcrObservation rest
          (QHash.insert observation (QHash.value m_WUToDB key "")
            (QJsonObject.value mcrObservation key).toString)
      else
        keyLoop qt mcrObservation rest
          (QHash.insert observation (QHash.value m_WUToDB key "")
            (qt.number (QJsonObject.value mcrObservation key).toDouble))
    else
      let r := keyLoop qt mcrObservation rest observation
      (r.1, Event.Error ("Unknown key \"" ++ key ++ "\" in observation") :: r.2)

/-- The first part of `Parse_SingleObservation`: the record `observation`
built from the JSON object, and the logger calls made on the way. -/
def buildObservation (qt : QtText) (mcrObservation : QJsonObject) :
    QHash String × List Event :=
  keyLoop qt mcrObservation (QJsonObject.keys mcrObservation) []

/-- Method `Parse_SingleObservation`. -/
def Parse_SingleObservation (qt : QtText) (s : WundergroundComms)
    (mcrObservation : QJsonObject) : Outcome Bool :=
  let built := buildObservation qt mcrObservation
  let observation := built.1
  if !QHash.contains observation "station_id" || !QHash.contains observation "date_time" then
    ⟨false, s, built.2 ++ [Event.Error "Observation is missing station ID and date/time"]⟩
  else
    let station_id := QHash.value observation "station_id" ""
    let date_time := QHash.value observation "date_time" ""
    if isKnown s.m_StationToDateTimes station_id date_time then
      ⟨true, s, built.2⟩
    else
      let s1 := { s with
        m_WeatherData := s.m_WeatherData ++ [observation],
        m_StationToDateTimes := markKnown s.m_StationToDateTimes station_id date_time }
      let saved := SaveToDatabase s1 observation
      ⟨saved.ret, saved.state, built.2 ++ saved.events⟩

/-- The local variables `num_observations`, `imported_date`, `min_time` and
`max_time` of `Parse_Observations`. -/
structure Summary where
  num_observations : Nat
  imported_date : String
  min_time : String
  max_time : String
deriving DecidableEq, Repr

/-- The values of the local variables before the loops of `Parse_Observations`. -/
def Summary.init : Summary := ⟨0, "", "", ""⟩

/-- The update of the local variables after one observation was parsed. -/
def Summary.update (qt : QtText) (acc : Summary) (single_observation : QJsonObject) :
    Summary :=
  let date_time_value := (QJsonObject.value single_observation "obsTimeLocal").toString
  let this_time := qt.toTime date_time_value
  { num_observations := acc.num_observations + 1,
    imported_date := qt.toDate date_time_value,
    min_time := if acc.min_time = "" then this_time else QString.qMin acc.min_time this_time,
    max_time := if acc.max_time = "" then this_time else QString.qMax acc.max_time this_time }

/-- The loop over the array "observations" in `Parse_Observations`; it returns
`false` where the method returns `false` from inside the loop. -/
def observationLoop (qt : QtText) :
    WundergroundComms → List QJsonValue → Summary → Outcome Bool × Summary
  | s, [], acc => (⟨true, s, []⟩, acc)
  | s, v :: rest, acc =>
    let single_observation := v.toObject
    let parsed := Parse_SingleObservation qt s single_observation
    if parsed.ret then
      let r := observationLoop qt parsed.state rest (Summary.update qt acc single_observation)
      (⟨r.1.ret, r.1.state, parsed.events ++ r.1.events⟩, r.2)
    else
      (⟨false, parsed.state, parsed.events⟩, acc)

/-- The loop over the keys of the response in `Parse_Observations`. -/
def responseLoop (qt : QtText) (mcrObservations : QJsonObject) :
    WundergroundComms → List String → Summary → Outcome Bool × Summary
  | s, [], acc => (⟨true, s, []⟩, acc)
  | s, key :: rest, acc =>
    if key = "observations" then
      let json_observations := (QJsonObject.value mcrObservations key).toArray
      let l := observationLoop qt s json_observations acc
      if l.1.ret then
        let r := responseLoop qt mcrObservations l.1.state rest l.2
        (⟨r.1.ret, r.1.state, l.1.events ++ r.1.events⟩, r.2)
      else
        (⟨false, l.1.state, l.1.events⟩, l.2)
    else
      let r := responseLoop qt mcrObservations s rest acc
      (⟨r.1.ret, r.1.state,
        Event.Error ("Unknown key \"" ++ key ++ "\" in response [ignored]") :: r.1.events⟩, r.2)

/-- Method `Parse_Observations`. -/
def Parse_Observations (qt : QtText) (s : WundergroundComms) (mcrObservations : QJsonObject) :
    Outcome Bool :=
  let l := responseLoop qt mcrObservations s (QJsonObject.keys mcrObservations) Summary.init
  if l.1.ret then
    ⟨true, l.1.state, l.1.events ++
      [Event.DataReceived l.2.imported_date,
       Event.StatusUpdate (Status.obtained l.2.imported_date l.2.num_observations
         l.2.min_time l.2.max_time)]⟩
  else
    ⟨false, l.1.state, l.1.events⟩

/-- Method `GetDate`: the events of a call (the object does not change). -/
def GetDate (s : WundergroundComms) (mcrDate : String) : List Event :=
  Event.CALL_GetDate mcrDate ::
    (if s.m_PWSName = "" then [Event.Error "PWS name has not been set."]
     else if s.m_Token = "" then [Event.Error "Token has not been set."]
     else if !s.m_DatabaseConnected then [Event.Error "Database is not connected."]
     else [Event.get ("https://api.weather.com/v2/pws/history/all?stationId=" ++ s.m_PWSName
       ++ "&format=json&units=m&numericPrecision=decimal&date=" ++ mcrDate
       ++ "&apiKey=" ++ s.m_Token)])

/-- Method `Periodic_GetUpdates`, one run of the slot at wall clock time `now`
on the date `today`. Every path through the body of `while (m_IsRunning)`
ends in `break`, so the body runs at most once. -/
def Periodic_GetUpdates (s : WundergroundComms) (now : QTime) (today : QDate) :
    WundergroundComms × List Event :=
  if s.m_IsRunning then
    let now_text := QTime.toString_hhmm now
    if QString.ge now_text CHECK_END_TIME || QString.le now_text CHECK_START_TIME then
      (s, [Event.StatusUpdate (Status.paused CHECK_START_TIME),
           Event.singleShot CHECK_FOR_UPDATES_DELAY])
    else
      let old_date := s.old_date.getD (QDate.toString_yyyyMMdd (today.addDays (-1)))
      let today_text := QDate.toString_yyyyMMdd today
      if today_text ≠ old_date then
        ({ s with old_date := some today_text },
          GetDate s old_date ++ [Event.singleShot CHECK_FOR_UPDATES_DELAY])
      else
        ({ s with old_date := some old_date },
          GetDate s today_text ++ [Event.singleShot CHECK_FOR_UPDATES_DELAY])
  else
    (s, [Event.singleShot CHECK_FOR_UPDATES_DELAY])

end WundergroundComms

open WundergroundComms

/-! ## Vocabulary of the properties -/

/-- The records handed to `SaveToDatabase`, in call order. -/
def saveCalls (events : List Event) : List (QHash String) :=
  events.filterMap (fun e => match e with
    | Event.CALL_SaveToDatabase r => some r
    | _ => none)

/-- The dates `GetDate` was called with, in call order. -/
def getDateCalls (events : List Event) : List String :=
  events.filterMap (fun e => match e with
    | Event.CALL_GetDate d => some d
    | _ => none)

/-- The observation counts of the "Obtained update" status messages. -/
def reportedCounts (events : List Event) : List Nat :=
  events.filterMap (fun e => match e with
    | Event.StatusUpdate (Status.obtained _ n _ _) => some n
    | _ => none)

/-- The status messages that were emitted. -/
def statusUpdates (events : List Event) : List Status :=
  events.filterMap (fun e => match e with
    | Event.StatusUpdate m => some m
    | _ => none)

/-- The canonical record `Parse_SingleObservation` builds from an observation. -/
def recordOf (qt : QtText) (o : QJsonObject) : QHash String :=
  (WundergroundComms.buildObservation qt o).1

/-- The natural key (station_id, date_time) of a canonical record. -/
def keyOf (r : QHash String) : String × String :=
  (QHash.value r "station_id" "", QHash.value r "date_time" "")

/-- The canonical record of the observation has both identity columns. -/
def hasIdentity (qt : QtText) (o : QJsonObject) : Bool :=
  QHash.contains (recordOf qt o) "station_id" && QHash.contains (recordOf qt o) "date_time"

/-- The index holds the natural key of a canonical record. -/
def knows (s : WundergroundComms) (r : QHash String) : Bool :=
  WundergroundComms.isKnown s.m_StationToDateTimes (keyOf r).1 (keyOf r).2

/-- The elements of the arrays that `Parse_Observations` loops over while it
visits the given keys of the response. -/
def observationsAt (resp : QJsonObject) : List String → List QJsonValue
  | [] => []
  | key :: rest =>
    if key = "observations" then
      (QJsonObject.value resp key).toArray ++ observationsAt resp rest
    else observationsAt resp rest

/-- The observations of a response payload. -/
def observationsOf (resp : QJsonObject) : List QJsonValue :=
  observationsAt resp (QJsonObject.keys resp)

/-- The response payload that carries exactly the given observations. -/
def payloadOf (observations : List QJsonValue) : QJsonObject :=
  [("observations", QJsonValue.array observations)]

/-- Handling a sequence of response payloads one after the other: the final
state and all events. -/
def handleAll (qt : QtText) : WundergroundComms → List QJsonObject →
    WundergroundComms × List Event
  | s, [] => (s, [])
  | s, resp :: rest =>
    let r := WundergroundComms.Parse_Observations qt s resp
    let t := handleAll qt r.state rest
    (t.1, r.events ++ t.2)

/-- The observation has no member `key`, neither at top level nor inside its
"metric" object. -/
def lacksKey (o : QJsonObject) (key : String) : Prop :=
  key ∉ QJsonObject.keys o ∧
    key ∉ QJsonObject.keys (QJsonObject.value o "metric").toObject

/-- The keys of the object ascend strictly, as in every `QJsonObject`. -/
def QJsonObject.isSorted (o : QJsonObject) : Prop :=
  (QJsonObject.keys o).Pairwise (fun a b => QString.lt a b = true)

/-- The first ten characters of a text, `left(10)`: the date of a time stamp. -/
def left10 (t : String) : String := String.mk (t.data.take 10)

/-- The list with one more element put in front of position `i`. -/
def insertAt {α : Type} (i : Nat) (x : α) (l : List α) : List α :=
  l.take i ++ x :: l.drop i

/-- The observation with one more member put into its "metric" object. -/
def addMetricKey (j : Nat) (kv : String × QJsonValue) (o : QJsonObject) : QJsonObject :=
  o.map (fun p =>
    if p.1 = "metric" then (p.1, QJsonValue.object (insertAt j kv p.2.toObject)) else p)

/-- Every insert succeeds: the database is connected and no SQL error is pending. -/
def insertsSucceed (s : WundergroundComms) : Prop :=
  s.m_DatabaseConnected = true ∧ ∀ e ∈ s.sqlErrors, e = false

/-- Every event of the list is a logger call. -/
def onlyErrors (events : List Event) : Prop := ∀ e ∈ events, ∃ m, e = Event.Error m

/-- The natural keys of the records are pairwise distinct. -/
def keysDistinct (records : List (QHash String)) : Prop := (records.map keyOf).Nodup

/-- The index holds the natural key of every record in `m_WeatherData`. -/
def indexCovers (s : WundergroundComms) : Prop := ∀ r ∈ s.m_WeatherData, knows s r = true

/-- What one pass of the loop over the "metric" keys does to the record. -/
def metricStep (qt : QtText) (json_metric : QJsonObject) (observation : QHash String)
    (metric_key : String) : QHash String :=
  if QHash.contains m_WUToDB metric_key then
    if QHash.value m_WUToDB metric_key "" = "" then observation
    else QHash.insert observation (QHash.value m_WUToDB metric_key "")
      (qt.number (QJsonObject.value json_metric metric_key).toDouble)
  else observation

/-- What one pass of the loop over the keys of the observation does to the record. -/
def keyStep (qt : QtText) (mcrObservation : QJsonObject) (observation : QHash String)
    (key : String) : QHash String :=
  if key = "metric" then
    (QJsonObject.keys (QJsonObject.value mcrObservation key).toObject).foldl
      (metricStep qt (QJsonObject.value mcrObservation key).toObject) observation
  else if QHash.contains m_WUToDB key then
    if QHash.value m_WUToDB key "" = "" then observation
    else if key = "stationID" ∨ key = "tz" ∨ key = "obsTimeLocal" then
      QHash.insert observation (QHash.value m_WUToDB key "")
        (QJsonObject.value mcrObservation key).toString
    else
      QHash.insert observation (QHash.value m_WUToDB key "")
        (qt.number (QJsonObject.value mcrObservation key).toDouble)
  else observation

/-- The observation is new: it has its identity and the index does not hold its key. -/
def isNew (qt : QtText) (s : WundergroundComms) (o : QJsonObject) : Bool :=
  hasIdentity qt o && !knows s (recordOf qt o)

/-- The state after the loop over an array of observations. -/
def ingest (qt : QtText) : WundergroundComms → List QJsonValue → WundergroundComms
  | s, [] => s
  | s, v :: rest =>
    if (Parse_SingleObservation qt s v.toObject).ret then
      ingest qt (Parse_SingleObservation qt s v.toObject).state rest
    else (Parse_SingleObservation qt s v.toObject).state

/-- Two states hold the same store contents: the same rows in the table and in
memory, in any order, and the same keys in the index. -/
def sameStore (s t : WundergroundComms) : Prop :=
  s.wu_data.Perm t.wu_data ∧ s.m_WeatherData.Perm t.m_WeatherData ∧
    ∀ a b, isKnown s.m_StationToDateTimes a b = isKnown t.m_StationToDateTimes a b

/-- The observation is a `QJsonObject` with a member "obsTimeLocal" whose
text starts with the date `D`. -/
def observedOn (D : String) (v : QJsonValue) : Prop :=
  v.toObject.isSorted ∧ "obsTimeLocal" ∈ QJsonObject.keys v.toObject ∧
    left10 (QJsonObject.value v.toObject "obsTimeLocal").toString = D

/-! ## Start-up, configuration and the scan of the dates -/

namespace QDate

/-- The rule `QDate::isLeapYear` for years after year 0. -/
def isLeapYear (year : Nat) : Bool :=
  (year % 4 == 0 && !(year % 100 == 0)) || year % 400 == 0

/-- The number of days of a month, 0 for a month that does not exist. -/
def daysInMonth (year month : Nat) : Nat :=
  if month = 2 then (if isLeapYear year then 29 else 28)
  else if month = 4 ∨ month = 6 ∨ month = 9 ∨ month = 11 then 30
  else if 1 ≤ month ∧ month ≤ 12 then 31
  else 0

/-- The Julian day number of a date of the Gregorian calendar (the conversion
Qt uses, for years after year 0). -/
def julianDayFromDate (year month day : Int) : Int :=
  let a := (14 - month) / 12
  let y := year + 4800 - a
  let m := month + 12 * a - 3
  day + (153 * m + 2) / 5 + 365 * y + y / 4 - y / 100 + y / 400 - 32045

/-- The value of a decimal digit, if the character is one. -/
def digit (c : Char) : Option Nat :=
  if 48 ≤ c.toNat ∧ c.toNat ≤ 57 then some (c.toNat - 48) else none

/-- Conversion `QDate::fromString(text, "yyyy-MM-dd")`: four digits, two digits
and two digits that name a date that exists; `none` is the invalid `QDate`. -/
def fromString_yyyy_MM_dd (text : String) : Option QDate :=
  match text.data with
  | [y1, y2, y3, y4, s1, m1, m2, s2, d1, d2] =>
    match digit y1, digit y2, digit y3, digit y4, digit m1, digit m2, digit d1, digit d2 with
    | some a, some b, some c, some d, some e, some f, some g, some h =>
      let year := 1000 * a + 100 * b + 10 * c + d
      let month := 10 * e + f
      let day := 10 * g + h
      if s1 = '-' ∧ s2 = '-' ∧ 1 ≤ year ∧ 1 ≤ day ∧ day ≤ daysInMonth year month then
        some ⟨julianDayFromDate year month day⟩
      else none
    | _, _, _, _, _, _, _, _ => none
  | _ => none

/-- Conversion `QDate::toString("yyyy-MM-dd")`. -/
def toString_yyyy_MM_dd (d : QDate) : String :=
  let ymd := getDateFromJulianDay d.jd
  QString.fourDigits ymd.1.toNat ++ "-" ++ QString.twoDigits ymd.2.1.toNat
    ++ "-" ++ QString.twoDigits ymd.2.2.toNat

end QDate

/-- What the SQL driver of Qt returns for a stored value that this development
does not compute: the conversions depend on the column typing of SQLite, on
binary floating point and on the local time zone. -/
structure QtSql where
  /-- The text `query.value(i).toDateTime().toString("yyyy-MM-dd hh:mm:ss")`
  for the value that was bound as the given text. -/
  dateTimeText : String → String
  /-- The text `QString::number(query.value(i).toFloat(), 'f', 1)` for the
  value that was bound as the given text. -/
  floatText : String → String

/-- What the environment answers while `OpenDatabase` runs. -/
structure OpenEnv where
  /-- The answer of `QFile::exists(m_DatabaseFilename)`. -/
  fileExists : Bool
  /-- The answer of `db.open()`. -/
  opened : Bool
  /-- Whether `HasSQLError` reports an error after `CREATE TABLE`. -/
  createError : Bool
  /-- Whether `HasSQLError` reports an error after `SELECT`. -/
  selectError : Bool
deriving DecidableEq, Repr

/-- A finished `QNetworkReply`. -/
structure QNetworkReply where
  /-- The code `error()`; 0 is `QNetworkReply::NoError`. -/
  error : Nat
  /-- Whether `readAll()` is empty. -/
  contentIsEmpty : Bool
  /-- The document `QJsonDocument::fromJson(content)`; `none` is the null
  document of content that is not JSON. -/
  document : Option QJsonValue

/-- The class `[0-9a-z]` of the token format. -/
def isTokenChar (c : Char) : Bool :=
  (48 ≤ c.toNat && c.toNat ≤ 57) || (97 ≤ c.toNat && c.toNat ≤ 122)

/-- Whether `format_token.match(mcrToken).hasMatch()` for the pattern
"^[0-9a-z]{32}$". The pattern is not in multi-line mode, so "^" holds at the
start of the text only; "$" holds at the end of the text and also in front of a
line feed that ends the text (the rule of PCRE, which `QRegularExpression`
uses, when the option that restricts "$" to the very end is not set). -/
def format_token_hasMatch (mcrToken : String) : Bool :=
  (mcrToken.data.take 32).length = 32 && (mcrToken.data.take 32).all isTokenChar &&
    (mcrToken.data.drop 32 = [] || mcrToken.data.drop 32 = ['\n'])

namespace WundergroundComms

/-- The constructor: the object it leaves, and its events. The database table
and the SQL errors to come are those of the environment. The constructor ends
with a call of `Periodic_GetUpdates`, at the given time and date. -/
def Constructor (now : Int) (time : QTime) (today : QDate) (wu_data : List (QHash String))
    (sqlErrors : List Bool) : WundergroundComms × List Event :=
  Periodic_GetUpdates
    { m_DatabaseFilename := "",
      m_DatabaseConnected := false,
      m_PWSName := "",
      m_Token := "",
      m_IsRunning := false,
      m_StartDateTime := now,
      m_StationToDateTimes := [],
      m_WeatherData := [],
      old_date := none,
      wu_data := wu_data,
      sqlErrors := sqlErrors } time today

/-- Method `SetDatabaseFile`. -/
def SetDatabaseFile (s : WundergroundComms) (mcrFilename : String) : Outcome Unit :=
  if mcrFilename = "" then
    ⟨(), s, [Event.Error "Empty database filename provided."]⟩
  else if s.m_DatabaseConnected then
    ⟨(), s, [Event.Error "Cannot set database filename; database is already connected."]⟩
  else
    ⟨(), { s with m_DatabaseFilename := mcrFilename }, []⟩

/-- Method `CreateDatabase`; a new table has no rows. -/
def CreateDatabase (s : WundergroundComms) (createError : Bool) : Outcome Bool :=
  if s.m_DatabaseConnected then
    ⟨false, s, [Event.Error "Cannot initialize database; it is already connected."]⟩
  else if createError then
    ⟨false, s, [Event.Error "SQL error creating table \"wu_data\""]⟩
  else
    ⟨true, { s with wu_data := [] }, []⟩

/-- The record `line` that `ReadDatabase` builds from a row of the table. -/
def readLine (sql : QtSql) (row : QHash String) : QHash String :=
  columns.foldl (fun line column =>
    if column = "station_id" ∨ column = "timezone" then
      QHash.insert line column (QHash.value row column "")
    else if column = "date_time" then
      QHash.insert line column (sql.dateTimeText (QHash.value row column ""))
    else
      QHash.insert line column (sql.floatText (QHash.value row column ""))) []

/-- The loop `while (query.next())` of `ReadDatabase` over the rows. -/
def readRows (sql : QtSql) : WundergroundComms → List (QHash String) → WundergroundComms
  | s, [] => s
  | s, row :: rest =>
    let line := readLine sql row
    readRows sql { s with
      m_WeatherData := s.m_WeatherData ++ [line],
      m_StationToDateTimes := markKnown s.m_StationToDateTimes
        (QHash.value line "station_id" "") (QHash.value line "date_time" "") } rest

/-- Method `ReadDatabase`. -/
def ReadDatabase (sql : QtSql) (s : WundergroundComms) (selectError : Bool) : Outcome Bool :=
  if s.m_WeatherData ≠ [] then
    ⟨false, s, [Event.Error "Weather data have already been read."]⟩
  else if !s.m_DatabaseConnected then
    ⟨false, s, [Event.Error "Cannot read database; it has not been connected yet."]⟩
  else if selectError then
    ⟨false, s, [Event.Error "SQL error reading table \"wu_data\""]⟩
  else
    let s1 := readRows sql s s.wu_data
    ⟨true, s1, [Event.StatusUpdate
      (Status.databaseRead s1.m_StationToDateTimes.length s1.m_WeatherData.length)]⟩

/-- The access `m_WeatherData[observation]["date_time"]` in `OpenDatabase`: on
the member it adds an empty date_time to a record that has none. -/
def touchDateTime (r : QHash String) : QHash String :=
  if QHash.contains r "date_time" then r else QHash.insert r "date_time" ""

/-- The first loop of the scan in `OpenDatabase`: `observation_count[date]++`
for the date of every record. -/
def countDates : List (QHash String) → QHash Nat → QHash Nat
  | [], observation_count => observation_count
  | r :: rest, observation_count =>
    let date := left10 (QHash.value r "date_time" "")
    countDates rest
      (QHash.insert observation_count date (QHash.value observation_count date 0 + 1))

/-- The loop `while (this_date <= end_date)` of the scan in `OpenDatabase`,
for the given number of passes: the lists `no_data` and `incomplete_data`. -/
def scanLoop (observation_count : QHash Nat) (min_date max_date : String) :
    Nat → QDate → List String × List String
  | 0, _ => ([], [])
  | passes + 1, this_date =>
    let this_date_text := this_date.toString_yyyy_MM_dd
    let r := scanLoop observation_count min_date max_date passes (this_date.addDays 1)
    if !QHash.contains observation_count this_date_text then
      (this_date_text :: r.1, r.2)
    else if QHash.value observation_count this_date_text 0 < 24 * 12 ∧
        this_date_text ≠ min_date ∧ this_date_text ≠ max_date then
      (r.1, this_date_text :: r.2)
    else r

/-- The scan of `OpenDatabase` for the date range and the incomplete days:
the events, or `none` where the loop over the dates never ends. A `QDate` that
is not valid is below every date and stays what it is under `addDays`: with
such a first date the loop does not end, with such a last date and a valid
first date it is not entered. Between two valid dates the loop makes one pass
per day from the first to the last. -/
def completenessScan (m_WeatherData : List (QHash String)) : Option (List Event) :=
  let observation_count := countDates m_WeatherData []
  let sorted_dates := List.insertionSort (fun a b => QString.le a b = true)
    (observation_count.map Prod.fst)
  match sorted_dates with
  | [] => some []
  | min_date :: rest =>
    let max_date := rest.getLastD min_date
    match QDate.fromString_yyyy_MM_dd min_date with
    | none => none
    | some this_date =>
      let passes := match QDate.fromString_yyyy_MM_dd max_date with
        | none => 0
        | some end_date => (end_date.jd - this_date.jd + 1).toNat
      let r := scanLoop observation_count min_date max_date passes this_date
      some [Event.StatusUpdate (Status.range min_date max_date r.2 r.1)]

/-- Method `OpenDatabase`; `none` where the call does not return. -/
def OpenDatabase (sql : QtSql) (s : WundergroundComms) (env : OpenEnv) :
    Option (Outcome Bool) :=
  if s.m_DatabaseConnected then
    some ⟨false, s, [Event.Error "Cannot open an already open database."]⟩
  else if s.m_DatabaseFilename = "" then
    some ⟨false, s, [Event.Error "No database name specified."]⟩
  else if !env.opened then
    some ⟨false, s, [Event.Error ("Could not open " ++ s.m_DatabaseFilename)]⟩
  else
    let created : Outcome Bool :=
      if !env.fileExists then CreateDatabase s env.createError else ⟨true, s, []⟩
    if !created.ret then
      some ⟨false, created.state, created.events ++
        [Event.Error ("Could not set up database in " ++ s.m_DatabaseFilename)]⟩
    else
      let read := ReadDatabase sql { created.state with m_DatabaseConnected := true }
        env.selectError
      match completenessScan read.state.m_WeatherData with
      | none => none
      | some scan =>
        some ⟨read.ret,
          { read.state with m_WeatherData := read.state.m_WeatherData.map touchDateTime },
          created.events ++ read.events ++ scan⟩

/-- Method `SetPWSName`. -/
def SetPWSName (s : WundergroundComms) (mcrPWSName : String) : Outcome Bool :=
  if mcrPWSName = "" then
    ⟨false, s, [Event.Error "PWS station name cannot be empty."]⟩
  else if s.m_PWSName ≠ "" then
    ⟨false, s, [Event.Error "PWS station name has already been set."]⟩
  else
    ⟨true, { s with m_PWSName := mcrPWSName }, []⟩

/-- Method `SetToken`. -/
def SetToken (s : WundergroundComms) (mcrToken : String) : Outcome Bool :=
  if mcrToken = "" then
    ⟨false, s, [Event.Error "Empty token provided."]⟩
  else if s.m_Token ≠ "" then
    ⟨false, s, [Event.Error "Weather Underground token has already been set."]⟩
  else if !format_token_hasMatch mcrToken then
    ⟨false, s, [Event.Error ("Token does not have a valid format: \"" ++ mcrToken ++ "\"")]⟩
  else
    ⟨true, { s with m_Token := mcrToken }, []⟩

/-- Method `StartUpdates`, at the time `now` whose text in the format
"dd MMM yyyy, hh:mm:ss" is `now_text`. -/
def StartUpdates (s : WundergroundComms) (now : Int) (now_text : String) : Outcome Unit :=
  if s.m_IsRunning then
    ⟨(), s, [Event.Error "Updates are already running."]⟩
  else if s.m_PWSName = "" then
    ⟨(), s, [Event.Error "PWS name has not been set."]⟩
  else if s.m_Token = "" then
    ⟨(), s, [Event.Error "Token has not been set."]⟩
  else if !s.m_DatabaseConnected then
    ⟨(), s, [Event.Error "Database is not connected."]⟩
  else
    ⟨(), { s with m_IsRunning := true, m_StartDateTime := now },
      [Event.StatusUpdate (Status.started now_text)]⟩

/-- Method `StopUpdates`, at a time whose text in the format
"dd MMM yyyy hh:mm:ss" is `now_text`. -/
def StopUpdates (s : WundergroundComms) (now_text : String) : Outcome Unit :=
  if !s.m_IsRunning then
    ⟨(), s, [Event.Error "Updates not running."]⟩
  else
    ⟨(), { s with m_IsRunning := false }, [Event.StatusUpdate (Status.stopped now_text)]⟩

/-- Method `HandleResponse`. -/
def HandleResponse (qt : QtText) (s : WundergroundComms) (mpResponse : QNetworkReply) :
    Outcome Bool :=
  if mpResponse.error ≠ 0 then
    ⟨false, s, [Event.Error ("An error has occurred processing the network request ("
      ++ toString mpResponse.error ++ ").")]⟩
  else if mpResponse.contentIsEmpty then
    ⟨false, s, [Event.Error "No response content received"]⟩
  else
    match mpResponse.document with
    | none => ⟨false, s, [Event.Error "No JSON response received"]⟩
    | some doc_response => Parse_Observations qt s doc_response.toObject

end WundergroundComms

/-! ## Vocabulary of the properties of start-up and configuration -/

/-- The URLs requested from the network, in request order. -/
def getRequests (events : List Event) : List String :=
  events.filterMap (fun e => match e with
    | Event.get url => some url
    | _ => none)

/-- The URL `GetDate` requests for a station, a date and a token. -/
def historyUrl (name date token : String) : String :=
  "https://api.weather.com/v2/pws/history/all?stationId=" ++ name
    ++ "&format=json&units=m&numericPrecision=decimal&date=" ++ date ++ "&apiKey=" ++ token

/-- The text consists of exactly 32 characters, each a digit or a lowercase
letter from a to z. -/
def isToken32 (t : String) : Bool :=
  t.data.length = 32 && t.data.all isTokenChar

/-- The states that the object can be in: the state the constructor leaves,
and every state that a call of a public method, a run of the timer slot or
the handling of a network reply leads to. -/
inductive Reachable : WundergroundComms → Prop
  | constructed (now : Int) (time : QTime) (today : QDate) (wu_data : List (QHash String))
      (sqlErrors : List Bool) : Reachable (Constructor now time today wu_data sqlErrors).1
  | setPWSName {s : WundergroundComms} (name : String) :
      Reachable s → Reachable (SetPWSName s name).state
  | setToken {s : WundergroundComms} (token : String) :
      Reachable s → Reachable (SetToken s token).state
  | setDatabaseFile {s : WundergroundComms} (filename : String) :
      Reachable s → Reachable (SetDatabaseFile s filename).state
  | openDatabase {s : WundergroundComms} (sql : QtSql) (env : OpenEnv) (r : Outcome Bool) :
      Reachable s → OpenDatabase sql s env = some r → Reachable r.state
  | startUpdates {s : WundergroundComms} (now : Int) (now_text : String) :
      Reachable s → Reachable (StartUpdates s now now_text).state
  | stopUpdates {s : WundergroundComms} (now_text : String) :
      Reachable s → Reachable (StopUpdates s now_text).state
  | tick {s : WundergroundComms} (now : QTime) (today : QDate) :
      Reachable s → Reachable (Periodic_GetUpdates s now today).1
  | handleResponse {s : WundergroundComms} (qt : QtText) (reply : QNetworkReply) :
      Reachable s → Reachable (HandleResponse qt s reply).state

/-- While updates run, the station name and the token are set, the token has
passed the format test of `SetToken`, and the database is connected. -/
def runningIsConfigured (s : WundergroundComms) : Prop :=
  (s.m_IsRunning = true →
    s.m_PWSName ≠ "" ∧ s.m_Token ≠ "" ∧ s.m_DatabaseConnected = true) ∧
  (s.m_Token ≠ "" → format_token_hasMatch s.m_Token = true)

/-- The date of a record: the first ten characters of its date_time. -/
def dateOfRecord (r : QHash String) : String := left10 (QHash.value r "date_time" "")

/-- The number of records of a date. -/
def recordsOn (records : List (QHash String)) (date : String) : Nat :=
  (records.filter (fun r => dateOfRecord r = date)).length

/-- The dates of the records, every date once, in ascending order of their
text: the list `sorted_dates` of `OpenDatabase`. -/
def sortedDates (records : List (QHash String)) : List String :=
  List.insertionSort (fun a b => QString.le a b = true)
    ((countDates records []).map Prod.fst)

/-- The text is a decimal number with exactly one digit after the decimal
point. -/
def hasOneDecimal (t : String) : Bool :=
  match t.data.reverse with
  | d :: '.' :: rest => (QDate.digit d).isSome && !rest.isEmpty && !rest.contains '.'
  | _ => false

/-- The station name and the two credentials of the configuration, with the
flags for the connection and for running updates. -/
def configOf (s : WundergroundComms) : String × String × Bool × Bool :=
  (s.m_PWSName, s.m_Token, s.m_IsRunning, s.m_DatabaseConnected)

/-- The dates listed under "No data" in the status messages. -/
def noDataDates : List Event → List String
  | [] => []
  | Event.StatusUpdate (Status.range _ _ _ no_data) :: rest => no_data ++ noDataDates rest
  | _ :: rest => noDataDates rest

/-- The dates listed under "Incomplete data" in the status messages. -/
def incompleteDates : List Event → List String
  | [] => []
  | Event.StatusUpdate (Status.range _ _ incomplete_data _) :: rest =>
    incomplete_data ++ incompleteDates rest
  | _ :: rest => incompleteDates rest

/-! ## The uptime, the columns of the table and the helpers for texts -/

namespace QString

/-- Method `QString::right(n)`: the last `n` characters, or the whole text
where it has fewer. -/
def right (s : String) (n : Nat) : String := String.mk (s.data.drop (s.data.length - n))

/-- The overload `QString::number(qlonglong)` (and `QString::number(int)`):
the decimal text of a whole number, with a minus sign below zero. -/
def number (n : Int) : String := toString n

/-- The scan of `QString::replace(before, after)` for a `before` that is not
empty: the text is read from left to right, every occurrence of `before` that
starts at the current position is replaced and the scan goes on behind it, so
that occurrences do not overlap and the text put in is not read again. The
number says how many characters of an occurrence are still to be skipped. -/
def replaceFrom (before after : List Char) : Nat → List Char → List Char
  | _, [] => []
  | skip + 1, _ :: rest => replaceFrom before after skip rest
  | 0, c :: rest =>
    if before.isPrefixOf (c :: rest) then
      after ++ replaceFrom before after (before.length - 1) rest
    else c :: replaceFrom before after 0 rest

/-- Method `QString::replace(before, after)`, case sensitive. -/
def replace (s before after : String) : String :=
  String.mk (replaceFrom before.data after.data 0 s.data)

end QString

namespace WundergroundComms

/-- The columns of the statement `CREATE TABLE wu_data (...)` that
`CreateDatabase` executes, each with its declared type. -/
def CreateDatabase_columns : List (String × String) :=
  [("station_id", "text"),
   ("timezone", "text"),
   ("date_time", "datetime"),
   ("latitude", "float"),
   ("longitude", "float"),
   ("solar_radiation_high", "float"),
   ("uv_high", "float"),
   ("wind_direction_avg_degree", "float"),
   ("humidity_high_percent", "float"),
   ("humidity_low_percent", "float"),
   ("humidity_avg_percent", "float"),
   ("temperature_high_c", "float"),
   ("temperature_low_c", "float"),
   ("temperature_avg_c", "float"),
   ("windspeed_high_kmh", "float"),
   ("windspeed_low_kmh", "float"),
   ("windspeed_avg_kmh", "float"),
   ("wind_gust_high_kmh", "float"),
   ("wind_gust_low_kmh", "float"),
   ("wind_gust_avg_kmh", "float"),
   ("dew_point_high_c", "float"),
   ("dew_point_low_c", "float"),
   ("dew_point_avg_c", "float"),
   ("wind_chill_high_c", "float"),
   ("wind_chill_low_c", "float"),
   ("wind_chill_avg_c", "float"),
   ("heat_index_high_c", "float"),
   ("heat_index_low_c", "float"),
   ("heat_index_avg_c", "float"),
   ("pressure_max_hpa", "float"),
   ("pressure_min_hpa", "float"),
   ("pressure_trend_hpa", "float"),
   ("precipitation_rate_mm", "float"),
   ("precipitation_total_mm", "float")]

/-- Method `GetUptime`, called at the time `now` in seconds since the epoch:
`secs` is `m_StartDateTime.secsTo(QDateTime::currentDateTime())`. The division
and the remainder of C++ round towards zero. -/
def GetUptime (s : WundergroundComms) (now : Int) : String :=
  let secs := now - s.m_StartDateTime
  QString.number (secs.tdiv 3600) ++ ":" ++
    QString.right ("0" ++ QString.number ((secs.tdiv 60).tmod 60)) 2 ++ ":" ++
    QString.right ("0" ++ QString.number (secs.tmod 60)) 2

end WundergroundComms

namespace StringHelper

/-- Function `StringHelper::PercentEncode`. -/
def PercentEncode (mString : String) : String :=
  let s1 := QString.replace mString "%" "%25"
  let s2 := QString.replace s1 "\n" "%0a"
  let s3 := QString.replace s2 "\r" "%0d"
  let s4 := QString.replace s3 "<" "%3c"
  let s5 := QString.replace s4 ">" "%3e"
  let s6 := QString.replace s5 "\"" "%22"
  QString.replace s6 "&" "%26"

/-- Function `StringHelper::PercentDecode`. -/
def PercentDecode (mString : String) : String :=
  let s1 := QString.replace mString "%0a" "\n"
  let s2 := QString.replace s1 "%0d" "\r"
  let s3 := QString.replace s2 "%3c" "<"
  let s4 := QString.replace s3 "%3e" ">"
  let s5 := QString.replace s4 "%22" "\""
  let s6 := QString.replace s5 "%26" "&"
  QString.replace s6 "%25" "%"

/-- The `switch (mcN)` of `ToNth` for the numbers up to twelve: the word it
returns, `none` where no `case` applies. -/
def ToNth_word (mcN : Int) : Option String :=
  if mcN = 1 then some "first"
  else if mcN = 2 then some "second"
  else if mcN = 3 then some "third"
  else if mcN = 4 then some "fourth"
  else if mcN = 5 then some "fifth"
  else if mcN = 6 then some "sixth"
  else if mcN = 7 then some "seventh"
  else if mcN = 8 then some "eighth"
  else if mcN = 9 then some "ninth"
  else if mcN = 10 then some "tenth"
  else if mcN = 11 then some "eleventh"
  else if mcN = 12 then some "twelfth"
  else none

/-- The `switch (mcN % 10)` of `ToNth` for the bigger numbers. -/
def ToNth_suffixed (mcN : Int) : String :=
  if mcN.tmod 10 = 1 then QString.number mcN ++ "st"
  else if mcN.tmod 10 = 2 then QString.number mcN ++ "nd"
  else if mcN.tmod 10 = 3 then QString.number mcN ++ "rd"
  else QString.number mcN ++ "th"

/-- Function `StringHelper::ToNth`: the text it returns (for a number that is
not positive it calls the logger and returns the null `QString`). -/
def ToNth (mcN : Int) : String :=
  if mcN ≤ 0 then ""
  else
    match (if mcN ≤ 12 then ToNth_word mcN else none) with
    | some word => word
    | none => ToNth_suffixed mcN

end StringHelper

/-! ## Vocabulary of the properties of reloading, reporting and the helpers -/

/-- The row `SaveToDatabase` inserts for a record: the value bound to every column. -/
def rowOf (r : QHash String) : QHash String :=
  columns.map (fun column => (column, QHash.value r column ""))

/-- The text of the member "obsTimeLocal" of an observation. -/
def obsTimeLocalOf (v : QJsonValue) : String :=
  (QJsonObject.value v.toObject "obsTimeLocal").toString

/-- The time of day `this_time` that `Parse_Observations` takes from an observation. -/
def timeOf (qt : QtText) (v : QJsonValue) : String := qt.toTime (obsTimeLocalOf v)

/-- The time ranges (`min_time`, `max_time`) of the "Obtained update" status messages. -/
def reportedRanges (events : List Event) : List (String × String) :=
  events.filterMap (fun e => match e with
    | Event.StatusUpdate (Status.obtained _ _ lo hi) => some (lo, hi)
    | _ => none)

/-- The reason of the logger call for an unknown key of an observation. -/
def unknownKeyReason (key : String) : String := "Unknown key \"" ++ key ++ "\" in observation"

namespace MessageLogger

/-- The two-argument `MessageLogger::Error(mcMethod, mcReason)`: the static set
`m_NoRepeatTags` afterwards and the reasons of the reports it writes with
`qDebug` (the method and the call stack that are written with the reason are
left out). The set is neither read nor changed. -/
def Error (m_NoRepeatTags : QSet) (mcReason : String) : QSet × List String :=
  (m_NoRepeatTags, [mcReason])

/-- The three-argument `MessageLogger::Error(mcMethod, mcNoRepeatTag, mcReason)`,
which avoids repetitions: nothing is written for a tag that is in
`m_NoRepeatTags`, otherwise the tag is added and the two-argument method is used. -/
def Error_tagged (m_NoRepeatTags : QSet) (mcNoRepeatTag mcReason : String) :
    QSet × List String :=
  if mcNoRepeatTag ∈ m_NoRepeatTags then (m_NoRepeatTags, [])
  else Error (QSet.insert m_NoRepeatTags mcNoRepeatTag) mcReason

end MessageLogger

/-- The reasons of the reports the logger writes while the events happen,
starting with the given `m_NoRepeatTags`: every logger call of the engine is a
call of the two-argument `MessageLogger::Error`. -/
def console : QSet → List Event → List String
  | _, [] => []
  | m_NoRepeatTags, Event.Error reason :: rest =>
    (MessageLogger.Error m_NoRepeatTags reason).2 ++
      console (MessageLogger.Error m_NoRepeatTags reason).1 rest
  | m_NoRepeatTags, _ :: rest => console m_NoRepeatTags rest

/-- How many reports of the unknown key `key` of an observation the logger
writes while the events happen, starting with an empty `m_NoRepeatTags`. -/
def unknownKeyReports (key : String) (events : List Event) : Nat :=
  (console [] events).count (unknownKeyReason key)

/-- The encoding of one character by `PercentEncode`. -/
def percentCode (c : Char) : List Char :=
  if c = '%' then "%25".data
  else if c = '\n' then "%0a".data
  else if c = '\r' then "%0d".data
  else if c = '<' then "%3c".data
  else if c = '>' then "%3e".data
  else if c = '"' then "%22".data
  else if c = '&' then "%26".data
  else [c]

/-- The text in which every character is replaced by its block. -/
def blocks (f : Char → List Char) : List Char → List Char
  | [] => []
  | c :: rest => f c ++ blocks f rest

/-- The code and the character of the replacements of `PercentDecode`, in
the order of the function. -/
def decodeRule : Nat → List Char × List Char
  | 0 => ("%0a".data, "\n".data)
  | 1 => ("%0d".data, "\r".data)
  | 2 => ("%3c".data, "<".data)
  | 3 => ("%3e".data, ">".data)
  | 4 => ("%22".data, "\"".data)
  | 5 => ("%26".data, "&".data)
  | _ => ("%25".data, "%".data)

/-- The block of a character after the first `k` replacements of `PercentDecode`. -/
def decodeStage : Nat → Char → List Char
  | 0, c => percentCode c
  | k + 1, c =>
    if decodeStage k c = (decodeRule k).1 then (decodeRule k).2 else decodeStage k c

/-- The text hh:mm:ss of a time of day. -/
def clockText (h m s : Nat) : String :=
  QString.twoDigits h ++ ":" ++ QString.twoDigits m ++ ":" ++ QString.twoDigits s

/-- The events of a sequence of calls of `Parse_SingleObservation`, each on
the object the call before has left. -/
def parseEach (qt : QtText) : WundergroundComms → List QJsonObject → List Event
  | _, [] => []
  | s, o :: rest =>
    (Parse_SingleObservation qt s o).events ++
      parseEach qt (Parse_SingleObservation qt s o).state rest

/-! ## The time stamps that `ReadDatabase` reads back, and further vocabulary -/

/-- A `QDateTime` in local time, by the fields of its date and of its time of
day. The local time zone is taken to be one in which every time of day exists
on every date (no gap of a daylight-saving transition), so that a date and
time is valid if its date and its time are. -/
structure QDateTime where
  year : Nat
  month : Nat
  day : Nat
  hour : Nat
  minute : Nat
  second : Nat
deriving DecidableEq, Repr

namespace QDateTime

/-- The number that two decimal digits write, if both characters are digits. -/
def number2 (a b : Char) : Option Nat :=
  match QDate.digit a, QDate.digit b with
  | some x, some y => some (10 * x + y)
  | _, _ => none

/-- The number that four decimal digits write, if all characters are digits. -/
def number4 (a b c d : Char) : Option Nat :=
  match number2 a b, number2 c d with
  | some x, some y => some (100 * x + y)
  | _, _ => none

/-- Reading a text of the form yyyy-MM-dd hh:mm:ss as a date and time, which
`QDateTime::fromString` does alike with the format "yyyy-MM-dd hh:mm:ss" and
with `Qt::ISODate`: the digits and the separators stand in their places and
name a date that exists and a time of day. For every other text the result is
`none` here. -/
def fromString (text : String) : Option QDateTime :=
  match text.data with
  | y1 :: y2 :: y3 :: y4 :: p1 :: rest1 =>
    match rest1 with
    | M1 :: M2 :: p2 :: d1 :: d2 :: rest2 =>
      match rest2 with
      | p3 :: h1 :: h2 :: p4 :: rest3 =>
        match rest3 with
        | [m1, m2, p5, s1, s2] =>
          match number4 y1 y2 y3 y4, number2 M1 M2, number2 d1 d2, number2 h1 h2,
              number2 m1 m2, number2 s1 s2 with
          | some year, some month, some day, some hour, some minute, some second =>
            if p1 = '-' ∧ p2 = '-' ∧ p3 = ' ' ∧ p4 = ':' ∧ p5 = ':' ∧ 1 ≤ year ∧ 1 ≤ day ∧
                day ≤ QDate.daysInMonth year month ∧ hour < 24 ∧ minute < 60 ∧
                second < 60 then
              some ⟨year, month, day, hour, minute, second⟩
            else none
          | _, _, _, _, _, _ => none
        | _ => none
      | _ => none
    | _ => none
  | _ => none

/-- Conversion `QDateTime::toString("yyyy-MM-dd hh:mm:ss")` of a valid date and time. -/
def toString_yyyy_MM_dd_hh_mm_ss (t : QDateTime) : String :=
  QString.fourDigits t.year ++ "-" ++ QString.twoDigits t.month ++ "-" ++
    QString.twoDigits t.day ++ " " ++ QString.twoDigits t.hour ++ ":" ++
    QString.twoDigits t.minute ++ ":" ++ QString.twoDigits t.second

end QDateTime

/-- The text `query.value(i).toDateTime().toString("yyyy-MM-dd hh:mm:ss")` of
`ReadDatabase` for a value that was stored as the given text. The column is
declared `datetime`, for which the driver returns the stored text;
`toDateTime` reads it as `Qt::ISODate`, and a text of the form
yyyy-MM-dd hh:mm:ss that names a date and time is printed from its fields. For
every other stored value the text is the one given by `other`. -/
def QSqlQuery_dateTimeText (other : String → String) (stored : String) : String :=
  match QDateTime.fromString stored with
  | some t => t.toString_yyyy_MM_dd_hh_mm_ss
  | none => other stored

/-- The SQL driver that reads time stamps as `QSqlQuery_dateTimeText` says. -/
def sqlDriver (other floatText : String → String) : QtSql :=
  ⟨QSqlQuery_dateTimeText other, floatText⟩

/-- The text `value` is what `Parse_SingleObservation` computes for the column
`c` from a member of the observation that is present: the text of a top-level
member "stationID", "tz" or "obsTimeLocal", or `QString::number` of
`toDouble()` of another member, at top level or inside "metric", whose key the
field map maps to `c`. -/
def filledFrom (qt : QtText) (o : QJsonObject) (c value : String) : Prop :=
  (∃ k ∈ QJsonObject.keys o, k ≠ "metric" ∧ m_WUToDB.lookup k = some c ∧
    value = if k = "stationID" ∨ k = "tz" ∨ k = "obsTimeLocal" then
        (QJsonObject.value o k).toString
      else qt.number (QJsonObject.value o k).toDouble) ∨
  ("metric" ∈ QJsonObject.keys o ∧
    ∃ mk ∈ QJsonObject.keys (QJsonObject.value o "metric").toObject,
      m_WUToDB.lookup mk = some c ∧
      value = qt.number (QJsonObject.value (QJsonObject.value o "metric").toObject mk).toDouble)

/-! ## Sample data -/

/-- A sample behaviour of the Qt text conversions on well-formed input. -/
def sampleQt : QtText :=
  ⟨fun _ => "0", fun t => String.mk (t.data.drop 11), left10⟩

/-- A configured, running engine on an empty database. -/
def sampleEngine : WundergroundComms :=
  { m_DatabaseFilename := "Wunderground.sql",
    m_DatabaseConnected := true,
    m_PWSName := "XY123",
    m_Token := "a0a0a0a0a0a0a0a0a0a0a0a0a0a0a0a0",
    m_IsRunning := true,
    m_StationToDateTimes := [],
    m_WeatherData := [],
    old_date := none,
    wu_data := [],
    sqlErrors := [] }

/-- An observation of station XY123 on 2025-05-01. -/
def sampleObservation : QJsonObject :=
  [("metric", QJsonValue.object [("tempAvg", QJsonValue.double 28)]),
   ("obsTimeLocal", QJsonValue.string "2025-05-01 18:39:49"),
   ("stationID", QJsonValue.string "XY123")]

/-- An observation of station XY123 on 2025-05-02. -/
def sampleObservationNextDay : QJsonObject :=
  [("obsTimeLocal", QJsonValue.string "2025-05-02 07:04:49"),
   ("stationID", QJsonValue.string "XY123")]

/-- An observation without the member "stationID". -/
def sampleDefective : QJsonObject :=
  [("obsTimeLocal", QJsonValue.string "2025-05-01 18:44:49")]

/-- The sample engine whose next `INSERT` fails with an SQL error. -/
def sampleEngineFailing : WundergroundComms := { sampleEngine with sqlErrors := [true] }

/-- An engine that has stored `sampleObservation` before. -/
def sampleEngineLoaded : WundergroundComms :=
  { sampleEngine with
    m_StationToDateTimes := [("XY123", ["2025-05-01 18:39:49"])],
    m_WeatherData := [[("station_id", "XY123"), ("date_time", "2025-05-01 18:39:49"),
      ("temperature_avg_c", "0")]] }

/-- The observation of `sampleObservation` with other values in every other field. -/
def sampleObservationRevised : QJsonObject :=
  [("humidityAvg", QJsonValue.double 24),
   ("metric", QJsonValue.object [("tempAvg", QJsonValue.double 31)]),
   ("obsTimeLocal", QJsonValue.string "2025-05-01 18:39:49"),
   ("stationID", QJsonValue.string "XY123"),
   ("tz", QJsonValue.string "Europe/Berlin")]

/-- A sample behaviour of the SQL driver for stored values. -/
def sampleSql : QtSql := ⟨fun t => t, fun t => if t = "" then "0.0" else t⟩

/-- A record of station XY123 with the given time stamp. -/
def sampleRecordOn (date_time : String) : QHash String :=
  [("station_id", "XY123"), ("date_time", date_time)]

/-- The records of four days: 288 for 2025-05-01, 150 for 2025-05-02, none
for 2025-05-03 and 288 for 2025-05-04. -/
def sampleFourDays : List (QHash String) :=
  List.replicate 288 (sampleRecordOn "2025-05-01 12:00:00") ++
  List.replicate 150 (sampleRecordOn "2025-05-02 12:00:00") ++
  List.replicate 288 (sampleRecordOn "2025-05-04 12:00:00")

/-- A sample behaviour of the Qt text conversions that prints the number 112
as `QString::number` does, without a decimal point. -/
def sampleQtWhole : QtText :=
  ⟨fun q => if q = 112 then "112" else "0", fun t => String.mk (t.data.drop 11), left10⟩

/-- An observation with the numeric field "winddirAvg" at 112. -/
def sampleObservationWind : QJsonObject :=
  [("obsTimeLocal", QJsonValue.string "2025-05-01 18:39:49"),
   ("stationID", QJsonValue.string "XY123"),
   ("winddirAvg", QJsonValue.double 112)]

/-- An observation whose "stationID" is the empty text. -/
def sampleObservationNoName : QJsonObject :=
  [("obsTimeLocal", QJsonValue.string "2025-05-01 18:39:49"),
   ("stationID", QJsonValue.string "")]

/-- The sample engine after a tick on 2025-04-28, a stop of the updates on
that day and a new start on 2025-05-01. -/
def sampleEngineRestarted : WundergroundComms :=
  (StartUpdates (StopUpdates (Periodic_GetUpdates sampleEngine ⟨8, 0⟩ ⟨2460794⟩).1
    "28 Apr 2025 09:00:00").state 1746079200 "01 May 2025, 08:00:00").state

/-- A token text of 32 admissible characters followed by a line feed. -/
def sampleTokenLineFeed : String := "a0a0a0a0a0a0a0a0a0a0a0a0a0a0a0a0\n"

/-- The state the constructor leaves on 2025-05-01 at 08:00, for an empty table. -/
def sampleConstructed : WundergroundComms :=
  (Constructor 1746079200 ⟨8, 0⟩ ⟨2460797⟩ [] []).1

/-- The engine after the constructor, `SetPWSName`, `SetToken` with the text
that ends in a line feed, and `SetDatabaseFile`. -/
def sampleConfiguredLineFeed : WundergroundComms :=
  (SetDatabaseFile (SetToken (SetPWSName sampleConstructed "XY123").state
    sampleTokenLineFeed).state "Wunderground.sql").state

/-- The engine of `sampleConfiguredLineFeed` after `OpenDatabase` (no file
yet, every step succeeds) and `StartUpdates`. -/
def sampleStartedLineFeed : WundergroundComms :=
  (StartUpdates
    { sampleConfiguredLineFeed with m_DatabaseConnected := true }
    1746079200 "01 May 2025, 08:00:00").state

/-- An observation of station XY123 five minutes after `sampleObservation`,
with a field "firmware" that the field map does not know. -/
def sampleObservationLater : QJsonObject :=
  [("firmware", QJsonValue.string "1.2"),
   ("obsTimeLocal", QJsonValue.string "2025-05-01 18:44:49"),
   ("stationID", QJsonValue.string "XY123")]

/-- An observation of station XY123 ten minutes after `sampleObservation`,
with the same unknown field "firmware". -/
def sampleObservationLatest : QJsonObject :=
  [("firmware", QJsonValue.string "1.2"),
   ("obsTimeLocal", QJsonValue.string "2025-05-01 18:49:49"),
   ("stationID", QJsonValue.string "XY123")]

/-- A response with three observations of 2025-05-01, the latest one first. -/
def sampleThree : QJsonObject :=
  [("observations", QJsonValue.array [QJsonValue.object sampleObservationLatest,
    QJsonValue.object sampleObservation, QJsonValue.object sampleObservationLater])]

/-- A fresh engine on the table that `sampleEngine` leaves after `sampleThree`. -/
def sampleEngineFresh : WundergroundComms :=
  { sampleEngine with wu_data := (Parse_Observations sampleQt sampleEngine sampleThree).state.wu_data }

/-- The driver that reads a stored text that is no date and time as the empty
text (the text of an invalid `QDateTime`), and a number as it was stored. -/
def sampleDriver : QtSql := sqlDriver (fun _ => "") (fun t => t)

/-- An observation of station XY123 whose "obsTimeLocal" is the empty text. -/
def sampleObservationNoTime : QJsonObject :=
  [("obsTimeLocal", QJsonValue.string ""),
   ("stationID", QJsonValue.string "XY123")]

/-- A new process, configured and not yet connected, on the table that the
sample engine leaves after `sampleObservation` and `sampleObservationNoTime`. -/
def sampleEngineUnreadable : WundergroundComms :=
  { sampleEngine with
    m_DatabaseConnected := false,
    m_IsRunning := false,
    wu_data := (Parse_Observations sampleQt sampleEngine
      (payloadOf [QJsonValue.object sampleObservation,
        QJsonValue.object sampleObservationNoTime])).state.wu_data }

/-- An observation whose numeric field "winddirAvg" is present and holds `null`. -/
def sampleObservationNull : QJsonObject :=
  [("obsTimeLocal", QJsonValue.string "2025-05-01 18:39:49"),
   ("stationID", QJsonValue.string "XY123"),
   ("winddirAvg", QJsonValue.null)]

/-! ## Lemmas -/

theorem QHash.lookup_filter_ne {β : Type} (h : QHash β) (k k' : String) (hne : k' ≠ k) :
    (h.filter (fun p => !(p.1 == k))).lookup k' = h.lookup k' := by
  induction h with
  | nil => rfl
  | cons p t ih =>
    obtain ⟨a, b⟩ := p
    by_cases hak : a = k
    · subst hak
      have : (k' == a) = false := by simpa using hne
      simp [List.filter, List.lookup, this, ih]
    · have h1 : (!(a == k)) = true := by simpa using hak
      simp only [List.filter, h1, List.lookup]
      rw [ih]

theorem QHash.lookup_insert {β : Type} (h : QHash β) (k k' : String) (v : β) :
    (QHash.insert h k v).lookup k' = if k' = k then some v else h.lookup k' := by
  unfold QHash.insert
  by_cases hk : k' = k
  · subst hk; simp [List.lookup]
  · have : (k' == k) = false := by simpa using hk
    simp only [List.lookup, this, hk, if_false]
    exact QHash.lookup_filter_ne h k k' hk

theorem QHash.contains_insert {β : Type} (h : QHash β) (k k' : String) (v : β) :
    QHash.contains (QHash.insert h k v) k' = (decide (k' = k) || QHash.contains h k') := by
  unfold QHash.contains
  rw [QHash.lookup_insert]
  by_cases hk : k' = k <;> simp [hk]

theorem QHash.value_insert {β : Type} (h : QHash β) (k k' : String) (v d : β) :
    QHash.value (QHash.insert h k v) k' d = if k' = k then v else QHash.value h k' d := by
  unfold QHash.value
  rw [QHash.lookup_insert]
  by_cases hk : k' = k <;> simp [hk]

theorem QHash.value_of_not_contains {β : Type} (h : QHash β) (k : String) (d : β)
    (hc : QHash.contains h k = false) : QHash.value h k d = d := by
  unfold QHash.contains at hc
  unfold QHash.value
  cases hl : h.lookup k with
  | none => rfl
  | some x => rw [hl] at hc; simp at hc

theorem isKnown_markKnown (index : QHash QSet) (st dt st' dt' : String) :
    isKnown (markKnown index st dt) st' dt' =
      (isKnown index st' dt' || (decide (st' = st) && decide (dt' = dt))) := by
  unfold isKnown markKnown
  rw [QHash.contains_insert, QHash.value_insert]
  by_cases hs : st' = st
  · subst hs
    simp only [decide_True, Bool.true_or, if_true, Bool.true_and]
    unfold QSet.insert
    by_cases hc : QHash.contains index st' = true
    · by_cases hm : dt ∈ QHash.value index st' []
      · by_cases hd : dt' = dt
        · subst hd; simp [hc, hm]
        · simp [hc, hm, hd]
      · by_cases hd : dt' = dt
        · subst hd; simp [hc, hm]
        · simp [hc, hm, hd]
    · have hc' : QHash.contains index st' = false := by simpa using hc
      have hv := QHash.value_of_not_contains index st' [] hc'
      by_cases hd : dt' = dt
      · subst hd; simp [hc', hv]
      · simp [hc', hv, hd]
  · simp [hs]

theorem onlyErrors_nil : onlyErrors [] := by intro e he; cases he

theorem onlyErrors_cons (m : String) (l : List Event) (h : onlyErrors l) :
    onlyErrors (Event.Error m :: l) := by
  intro e he
  rcases List.mem_cons.mp he with rfl | he
  · exact ⟨m, rfl⟩
  · exact h e he

theorem onlyErrors_append (l1 l2 : List Event) (h1 : onlyErrors l1) (h2 : onlyErrors l2) :
    onlyErrors (l1 ++ l2) := by
  intro e he
  rcases List.mem_append.mp he with he | he
  · exact h1 e he
  · exact h2 e he

theorem saveCalls_onlyErrors (l : List Event) (h : onlyErrors l) : saveCalls l = [] := by
  induction l with
  | nil => rfl
  | cons e t ih =>
    obtain ⟨m, rfl⟩ := h e (List.mem_cons_self _ _)
    have := ih (fun e he => h e (List.mem_cons_of_mem _ he))
    simpa [saveCalls, List.filterMap_cons] using this

theorem reportedCounts_onlyErrors (l : List Event) (h : onlyErrors l) :
    reportedCounts l = [] := by
  induction l with
  | nil => rfl
  | cons e t ih =>
    obtain ⟨m, rfl⟩ := h e (List.mem_cons_self _ _)
    have := ih (fun e he => h e (List.mem_cons_of_mem _ he))
    simpa [reportedCounts, List.filterMap_cons] using this

theorem saveCalls_append (l1 l2 : List Event) :
    saveCalls (l1 ++ l2) = saveCalls l1 ++ saveCalls l2 := by
  simp [saveCalls, List.filterMap_append]

theorem reportedCounts_append (l1 l2 : List Event) :
    reportedCounts (l1 ++ l2) = reportedCounts l1 ++ reportedCounts l2 := by
  simp [reportedCounts, List.filterMap_append]

theorem metricLoop_onlyErrors (qt : QtText) (m : QJsonObject) (ks : List String)
    (acc : QHash String) : onlyErrors (metricLoop qt m ks acc).2 := by
  induction ks generalizing acc with
  | nil => exact onlyErrors_nil
  | cons k t ih =>
    unfold metricLoop
    split
    · split
      · exact ih _
      · exact ih _
    · exact onlyErrors_cons _ _ (ih _)

theorem keyLoop_onlyErrors (qt : QtText) (o : QJsonObject) (ks : List String)
    (acc : QHash String) : onlyErrors (keyLoop qt o ks acc).2 := by
  induction ks generalizing acc with
  | nil => exact onlyErrors_nil
  | cons k t ih =>
    unfold keyLoop
    split
    · exact onlyErrors_append _ _ (metricLoop_onlyErrors _ _ _ _) (ih _)
    · split
      · split
        · exact ih _
        · split
          · exact ih _
          · exact ih _
      · exact onlyErrors_cons _ _ (ih _)

theorem buildObservation_onlyErrors (qt : QtText) (o : QJsonObject) :
    onlyErrors (buildObservation qt o).2 :=
  keyLoop_onlyErrors qt o _ _

/-! ### `SaveToDatabase` -/

theorem SaveToDatabase_frame (s : WundergroundComms) (r : QHash String) :
    (SaveToDatabase s r).state.m_WeatherData = s.m_WeatherData ∧
    (SaveToDatabase s r).state.m_StationToDateTimes = s.m_StationToDateTimes ∧
    (SaveToDatabase s r).state.m_DatabaseConnected = s.m_DatabaseConnected := by
  unfold SaveToDatabase
  split
  · exact ⟨rfl, rfl, rfl⟩
  · split <;> exact ⟨rfl, rfl, rfl⟩

theorem SaveToDatabase_saveCalls (s : WundergroundComms) (r : QHash String) :
    saveCalls (SaveToDatabase s r).events = [r] := by
  unfold SaveToDatabase
  split
  · rfl
  · split <;> rfl

theorem SaveToDatabase_reportedCounts (s : WundergroundComms) (r : QHash String) :
    reportedCounts (SaveToDatabase s r).events = [] := by
  unfold SaveToDatabase
  split
  · rfl
  · split <;> rfl

/-! ### `Parse_SingleObservation` by cases -/

theorem PSO_missing (qt : QtText) (s : WundergroundComms) (o : QJsonObject)
    (h : hasIdentity qt o = false) :
    Parse_SingleObservation qt s o =
      ⟨false, s, (buildObservation qt o).2 ++
        [Event.Error "Observation is missing station ID and date/time"]⟩ := by
  unfold hasIdentity recordOf at h
  unfold Parse_SingleObservation
  have h2 : (!QHash.contains (buildObservation qt o).1 "station_id" ||
      !QHash.contains (buildObservation qt o).1 "date_time") = true := by
    rw [← Bool.not_and, h]; rfl
  simp only [h2, if_true]

theorem PSO_known (qt : QtText) (s : WundergroundComms) (o : QJsonObject)
    (h : hasIdentity qt o = true) (hk : knows s (recordOf qt o) = true) :
    Parse_SingleObservation qt s o = ⟨true, s, (buildObservation qt o).2⟩ := by
  unfold hasIdentity recordOf at h
  unfold knows keyOf recordOf at hk
  unfold Parse_SingleObservation
  have h2 : (!QHash.contains (buildObservation qt o).1 "station_id" ||
      !QHash.contains (buildObservation qt o).1 "date_time") = false := by
    rw [← Bool.not_and, h]; rfl
  simp only [h2, hk, if_true, Bool.false_eq_true, if_false]

theorem PSO_new (qt : QtText) (s : WundergroundComms) (o : QJsonObject)
    (h : hasIdentity qt o = true) (hk : knows s (recordOf qt o) = false) :
    Parse_SingleObservation qt s o =
      ⟨(SaveToDatabase { s with
            m_WeatherData := s.m_WeatherData ++ [recordOf qt o],
            m_StationToDateTimes := markKnown s.m_StationToDateTimes
              (keyOf (recordOf qt o)).1 (keyOf (recordOf qt o)).2 } (recordOf qt o)).ret,
       (SaveToDatabase { s with
            m_WeatherData := s.m_WeatherData ++ [recordOf qt o],
            m_StationToDateTimes := markKnown s.m_StationToDateTimes
              (keyOf (recordOf qt o)).1 (keyOf (recordOf qt o)).2 } (recordOf qt o)).state,
       (buildObservation qt o).2 ++ (SaveToDatabase { s with
            m_WeatherData := s.m_WeatherData ++ [recordOf qt o],
            m_StationToDateTimes := markKnown s.m_StationToDateTimes
              (keyOf (recordOf qt o)).1 (keyOf (recordOf qt o)).2 } (recordOf qt o)).events⟩ := by
  unfold hasIdentity recordOf at h
  unfold knows keyOf recordOf at hk
  unfold Parse_SingleObservation
  have h2 : (!QHash.contains (buildObservation qt o).1 "station_id" ||
      !QHash.contains (buildObservation qt o).1 "date_time") = false := by
    rw [← Bool.not_and, h]; rfl
  simp only [h2, hk, Bool.false_eq_true, if_false]
  rfl

/-- The three ways `Parse_SingleObservation` can go. -/
theorem PSO_cases (qt : QtText) (s : WundergroundComms) (o : QJsonObject) :
    (hasIdentity qt o = false ∧ (Parse_SingleObservation qt s o).ret = false ∧
      (Parse_SingleObservation qt s o).state = s ∧
      onlyErrors (Parse_SingleObservation qt s o).events) ∨
    (hasIdentity qt o = true ∧ knows s (recordOf qt o) = true ∧
      (Parse_SingleObservation qt s o).ret = true ∧
      (Parse_SingleObservation qt s o).state = s ∧
      onlyErrors (Parse_SingleObservation qt s o).events) ∨
    (hasIdentity qt o = true ∧ knows s (recordOf qt o) = false ∧
      (Parse_SingleObservation qt s o).state.m_WeatherData =
        s.m_WeatherData ++ [recordOf qt o] ∧
      (Parse_SingleObservation qt s o).state.m_StationToDateTimes =
        markKnown s.m_StationToDateTimes (keyOf (recordOf qt o)).1 (keyOf (recordOf qt o)).2 ∧
      saveCalls (Parse_SingleObservation qt s o).events = [recordOf qt o] ∧
      reportedCounts (Parse_SingleObservation qt s o).events = []) := by
  cases hid : hasIdentity qt o with
  | false =>
    left
    rw [PSO_missing qt s o hid]
    refine ⟨rfl, rfl, rfl, ?_⟩
    exact onlyErrors_append _ _ (buildObservation_onlyErrors qt o)
      (onlyErrors_cons _ _ onlyErrors_nil)
  | true =>
    right
    cases hk : knows s (recordOf qt o) with
    | true =>
      left
      rw [PSO_known qt s o hid hk]
      exact ⟨rfl, rfl, rfl, rfl, buildObservation_onlyErrors qt o⟩
    | false =>
      right
      rw [PSO_new qt s o hid hk]
      refine ⟨rfl, rfl, ?_, ?_, ?_, ?_⟩
      · exact (SaveToDatabase_frame _ _).1
      · exact (SaveToDatabase_frame _ _).2.1
      · simp only [saveCalls_append, SaveToDatabase_saveCalls,
          saveCalls_onlyErrors _ (buildObservation_onlyErrors qt o), List.nil_append]
      · simp only [reportedCounts_append, SaveToDatabase_reportedCounts,
          reportedCounts_onlyErrors _ (buildObservation_onlyErrors qt o), List.nil_append]

theorem PSO_reportedCounts (qt : QtText) (s : WundergroundComms) (o : QJsonObject) :
    reportedCounts (Parse_SingleObservation qt s o).events = [] := by
  rcases PSO_cases qt s o with h | h | h
  · exact reportedCounts_onlyErrors _ h.2.2.2
  · exact reportedCounts_onlyErrors _ h.2.2.2.2
  · exact h.2.2.2.2.2

/-- The index only grows. -/
theorem PSO_mono (qt : QtText) (s : WundergroundComms) (o : QJsonObject) (a b : String)
    (h : isKnown s.m_StationToDateTimes a b = true) :
    isKnown (Parse_SingleObservation qt s o).state.m_StationToDateTimes a b = true := by
  rcases PSO_cases qt s o with c | c | c
  · rw [c.2.2.1]; exact h
  · rw [c.2.2.2.1]; exact h
  · rw [c.2.2.2.1, isKnown_markKnown, h]; rfl

/-- After a successful call the key of the observation is in the index. -/
theorem PSO_success_knows (qt : QtText) (s : WundergroundComms) (o : QJsonObject)
    (h : (Parse_SingleObservation qt s o).ret = true) :
    hasIdentity qt o = true ∧
      knows (Parse_SingleObservation qt s o).state (recordOf qt o) = true := by
  rcases PSO_cases qt s o with c | c | c
  · rw [c.2.1] at h; cases h
  · refine ⟨c.1, ?_⟩
    rw [c.2.2.2.1]; exact c.2.1
  · refine ⟨c.1, ?_⟩
    unfold knows
    rw [c.2.2.2.1, isKnown_markKnown]
    simp

/-- The records appended to `m_WeatherData` are those handed to `SaveToDatabase`. -/
theorem PSO_weather (qt : QtText) (s : WundergroundComms) (o : QJsonObject) :
    (Parse_SingleObservation qt s o).state.m_WeatherData =
      s.m_WeatherData ++ saveCalls (Parse_SingleObservation qt s o).events := by
  rcases PSO_cases qt s o with c | c | c
  · rw [c.2.2.1, saveCalls_onlyErrors _ c.2.2.2, List.append_nil]
  · rw [c.2.2.2.1, saveCalls_onlyErrors _ c.2.2.2.2, List.append_nil]
  · rw [c.2.2.1, c.2.2.2.2.1]

/-! ### The loop over the observations -/

theorem observationLoop_cons (qt : QtText) (s : WundergroundComms) (v : QJsonValue)
    (rest : List QJsonValue) (acc : Summary) :
    observationLoop qt s (v :: rest) acc =
      if (Parse_SingleObservation qt s v.toObject).ret then
        (⟨(observationLoop qt (Parse_SingleObservation qt s v.toObject).state rest
              (Summary.update qt acc v.toObject)).1.ret,
          (observationLoop qt (Parse_SingleObservation qt s v.toObject).state rest
              (Summary.update qt acc v.toObject)).1.state,
          (Parse_SingleObservation qt s v.toObject).events ++
            (observationLoop qt (Parse_SingleObservation qt s v.toObject).state rest
              (Summary.update qt acc v.toObject)).1.events⟩,
         (observationLoop qt (Parse_SingleObservation qt s v.toObject).state rest
              (Summary.update qt acc v.toObject)).2)
      else
        (⟨false, (Parse_SingleObservation qt s v.toObject).state,
          (Parse_SingleObservation qt s v.toObject).events⟩, acc) := rfl

theorem observationLoop_mono (qt : QtText) (L : List QJsonValue) (s : WundergroundComms)
    (acc : Summary) (a b : String) (h : isKnown s.m_StationToDateTimes a b = true) :
    isKnown (observationLoop qt s L acc).1.state.m_StationToDateTimes a b = true := by
  induction L generalizing s acc with
  | nil => exact h
  | cons v rest ih =>
    rw [observationLoop_cons]
    split
    · exact ih _ _ (PSO_mono qt s _ a b h)
    · exact PSO_mono qt s _ a b h

theorem observationLoop_success_knows (qt : QtText) (L : List QJsonValue)
    (s : WundergroundComms) (acc : Summary)
    (h : (observationLoop qt s L acc).1.ret = true) :
    ∀ v ∈ L, hasIdentity qt v.toObject = true ∧
      knows (observationLoop qt s L acc).1.state (recordOf qt v.toObject) = true := by
  induction L generalizing s acc with
  | nil => intro v hv; cases hv
  | cons w rest ih =>
    rw [observationLoop_cons] at h ⊢
    by_cases hr : (Parse_SingleObservation qt s w.toObject).ret = true
    · simp only [hr, if_true] at h ⊢
      intro v hv
      rcases List.mem_cons.mp hv with rfl | hv
      · have hk := PSO_success_knows qt s _ hr
        exact ⟨hk.1, observationLoop_mono qt rest _ _ _ _ hk.2⟩
      · exact ih _ _ h v hv
    · simp only [hr, if_false] at h
      cases h

/-- A list of observations that are all known is passed over without effect. -/
theorem observationLoop_known (qt : QtText) (L : List QJsonValue) (s : WundergroundComms)
    (acc : Summary)
    (h : ∀ v ∈ L, hasIdentity qt v.toObject = true ∧ knows s (recordOf qt v.toObject) = true) :
    (observationLoop qt s L acc).1.ret = true ∧
    (observationLoop qt s L acc).1.state = s ∧
    saveCalls (observationLoop qt s L acc).1.events = [] := by
  induction L generalizing acc with
  | nil => exact ⟨rfl, rfl, rfl⟩
  | cons w rest ih =>
    have hw := h w (List.mem_cons_self _ _)
    have hp := PSO_known qt s w.toObject hw.1 hw.2
    rw [observationLoop_cons, hp]
    simp only [if_true]
    have ih2 := ih (Summary.update qt acc w.toObject)
      (fun v hv => h v (List.mem_cons_of_mem _ hv))
    refine ⟨ih2.1, ih2.2.1, ?_⟩
    rw [saveCalls_append, ih2.2.2, saveCalls_onlyErrors _ (buildObservation_onlyErrors qt _)]
    rfl

theorem observationLoop_count (qt : QtText) (L : List QJsonValue) (s : WundergroundComms)
    (acc : Summary) (h : (observationLoop qt s L acc).1.ret = true) :
    (observationLoop qt s L acc).2.num_observations = acc.num_observations + L.length := by
  induction L generalizing s acc with
  | nil => rfl
  | cons w rest ih =>
    rw [observationLoop_cons] at h ⊢
    by_cases hr : (Parse_SingleObservation qt s w.toObject).ret = true
    · simp only [hr, if_true] at h ⊢
      rw [ih _ _ h]
      simp only [Summary.update, List.length_cons]
      omega
    · simp only [hr, if_false] at h
      cases h

theorem observationLoop_reportedCounts (qt : QtText) (L : List QJsonValue)
    (s : WundergroundComms) (acc : Summary) :
    reportedCounts (observationLoop qt s L acc).1.events = [] := by
  induction L generalizing s acc with
  | nil => rfl
  | cons w rest ih =>
    rw [observationLoop_cons]
    split
    · simp only [reportedCounts_append, PSO_reportedCounts, ih, List.append_nil]
    · exact PSO_reportedCounts qt s _

theorem observationLoop_weather (qt : QtText) (L : List QJsonValue) (s : WundergroundComms)
    (acc : Summary) :
    (observationLoop qt s L acc).1.state.m_WeatherData =
      s.m_WeatherData ++ saveCalls (observationLoop qt s L acc).1.events := by
  induction L generalizing s acc with
  | nil => simp [observationLoop, saveCalls]
  | cons w rest ih =>
    rw [observationLoop_cons]
    split
    · simp only [saveCalls_append, ih, PSO_weather qt s, List.append_assoc]
    · exact PSO_weather qt s _

theorem observationLoop_append (qt : QtText) (L1 L2 : List QJsonValue)
    (s : WundergroundComms) (acc : Summary) :
    observationLoop qt s (L1 ++ L2) acc =
      if (observationLoop qt s L1 acc).1.ret then
        (⟨(observationLoop qt (observationLoop qt s L1 acc).1.state L2
              (observationLoop qt s L1 acc).2).1.ret,
          (observationLoop qt (observationLoop qt s L1 acc).1.state L2
              (observationLoop qt s L1 acc).2).1.state,
          (observationLoop qt s L1 acc).1.events ++
            (observationLoop qt (observationLoop qt s L1 acc).1.state L2
              (observationLoop qt s L1 acc).2).1.events⟩,
         (observationLoop qt (observationLoop qt s L1 acc).1.state L2
              (observationLoop qt s L1 acc).2).2)
      else observationLoop qt s L1 acc := by
  induction L1 generalizing s acc with
  | nil => simp [observationLoop]
  | cons w rest ih =>
    rw [List.cons_append, observationLoop_cons, observationLoop_cons]
    by_cases hr : (Parse_SingleObservation qt s w.toObject).ret = true
    · simp only [hr, if_true]
      rw [ih]
      split
      · simp only [List.append_assoc]
      · rfl
    · simp only [hr, if_false]
      simp

theorem PO_unfold (qt : QtText) (s : WundergroundComms) (resp : QJsonObject) :
    Parse_Observations qt s resp =
      if (responseLoop qt resp s (QJsonObject.keys resp) Summary.init).1.ret then
        ⟨true, (responseLoop qt resp s (QJsonObject.keys resp) Summary.init).1.state,
          (responseLoop qt resp s (QJsonObject.keys resp) Summary.init).1.events ++
          [Event.DataReceived
            (responseLoop qt resp s (QJsonObject.keys resp) Summary.init).2.imported_date,
           Event.StatusUpdate (Status.obtained
            (responseLoop qt resp s (QJsonObject.keys resp) Summary.init).2.imported_date
            (responseLoop qt resp s (QJsonObject.keys resp) Summary.init).2.num_observations
            (responseLoop qt resp s (QJsonObject.keys resp) Summary.init).2.min_time
            (responseLoop qt resp s (QJsonObject.keys resp) Summary.init).2.max_time)]⟩
      else
        ⟨false, (responseLoop qt resp s (QJsonObject.keys resp) Summary.init).1.state,
          (responseLoop qt resp s (QJsonObject.keys resp) Summary.init).1.events⟩ := rfl

theorem responseLoop_eq (qt : QtText) (resp : QJsonObject) (ks : List String)
    (s : WundergroundComms) (acc : Summary) :
    (responseLoop qt resp s ks acc).1.ret =
      (observationLoop qt s (observationsAt resp ks) acc).1.ret ∧
    (responseLoop qt resp s ks acc).1.state =
      (observationLoop qt s (observationsAt resp ks) acc).1.state ∧
    (responseLoop qt resp s ks acc).2 =
      (observationLoop qt s (observationsAt resp ks) acc).2 ∧
    saveCalls (responseLoop qt resp s ks acc).1.events =
      saveCalls (observationLoop qt s (observationsAt resp ks) acc).1.events ∧
    reportedCounts (responseLoop qt resp s ks acc).1.events = [] := by
  induction ks generalizing s acc with
  | nil => exact ⟨rfl, rfl, rfl, rfl, rfl⟩
  | cons key rest ih =>
    unfold responseLoop observationsAt
    by_cases hk : key = "observations"
    · simp only [hk, if_true]
      rw [observationLoop_append]
      by_cases hr : (observationLoop qt s
          (QJsonObject.value resp "observations").toArray acc).1.ret = true
      · simp only [hr, if_true]
        have := ih (observationLoop qt s
          (QJsonObject.value resp "observations").toArray acc).1.state
          (observationLoop qt s (QJsonObject.value resp "observations").toArray acc).2
        refine ⟨this.1, this.2.1, this.2.2.1, ?_, ?_⟩
        · simp only [saveCalls_append, this.2.2.2.1]
        · simp only [reportedCounts_append, this.2.2.2.2, observationLoop_reportedCounts,
            List.append_nil]
      · simp only [hr, if_false]
        have hf : (observationLoop qt s
          (QJsonObject.value resp "observations").toArray acc).1.ret = false := by
          simpa using hr
        exact ⟨hf.symm, rfl, rfl, rfl, observationLoop_reportedCounts _ _ _ _⟩
    · simp only [hk, if_false]
      have := ih s acc
      refine ⟨this.1, this.2.1, this.2.2.1, ?_, ?_⟩
      · rw [← this.2.2.2.1]; simp [saveCalls, List.filterMap_cons]
      · rw [← this.2.2.2.2]; simp [reportedCounts, List.filterMap_cons]

theorem PO_ret (qt : QtText) (s : WundergroundComms) (resp : QJsonObject) :
    (Parse_Observations qt s resp).ret =
      (observationLoop qt s (observationsOf resp) Summary.init).1.ret := by
  have h := responseLoop_eq qt resp (QJsonObject.keys resp) s Summary.init
  rw [PO_unfold]
  unfold observationsOf
  split
  · rename_i h1; rw [← h.1, h1]
  · rename_i h1; rw [← h.1]; simpa using h1

theorem PO_state (qt : QtText) (s : WundergroundComms) (resp : QJsonObject) :
    (Parse_Observations qt s resp).state =
      (observationLoop qt s (observationsOf resp) Summary.init).1.state := by
  have h := responseLoop_eq qt resp (QJsonObject.keys resp) s Summary.init
  rw [PO_unfold]
  unfold observationsOf
  split <;> exact h.2.1

theorem PO_saveCalls (qt : QtText) (s : WundergroundComms) (resp : QJsonObject) :
    saveCalls (Parse_Observations qt s resp).events =
      saveCalls (observationLoop qt s (observationsOf resp) Summary.init).1.events := by
  have h := responseLoop_eq qt resp (QJsonObject.keys resp) s Summary.init
  rw [PO_unfold]
  unfold observationsOf
  split
  · rw [← h.2.2.2.1]; simp [saveCalls, List.filterMap_append]
  · exact h.2.2.2.1

theorem PO_reportedCounts (qt : QtText) (s : WundergroundComms) (resp : QJsonObject)
    (hr : (Parse_Observations qt s resp).ret = true) :
    reportedCounts (Parse_Observations qt s resp).events = [(observationsOf resp).length] := by
  have hret := PO_ret qt s resp
  rw [hr] at hret
  have hc := observationLoop_count qt (observationsOf resp) s Summary.init hret.symm
  have h := responseLoop_eq qt resp (QJsonObject.keys resp) s Summary.init
  unfold observationsOf at hc hret
  rw [← h.1] at hret
  rw [PO_unfold]
  simp only [← hret, if_true]
  rw [reportedCounts_append, h.2.2.2.2, h.2.2.1, hc]
  simp [reportedCounts, List.filterMap_cons, Summary.init, observationsOf]

theorem observationsOf_payloadOf (L : List QJsonValue) : observationsOf (payloadOf L) = L := by
  simp [observationsOf, payloadOf, QJsonObject.keys, observationsAt, QJsonObject.value,
    List.lookup, QJsonValue.toArray]

theorem QHash.mem_of_lookup {β : Type} (h : QHash β) (k : String) (v : β)
    (hl : h.lookup k = some v) : (k, v) ∈ h := by
  induction h with
  | nil => cases hl
  | cons p t ih =>
    obtain ⟨a, b⟩ := p
    rw [List.lookup_cons] at hl
    by_cases hk : k = a
    · subst hk
      simp at hl
      subst hl
      exact List.mem_cons_self _ _
    · have : (k == a) = false := by simpa using hk
      rw [this] at hl
      exact List.mem_cons_of_mem _ (ih hl)

theorem QHash.lookup_of_contains {β : Type} (h : QHash β) (k : String) (d : β)
    (hc : QHash.contains h k = true) : h.lookup k = some (QHash.value h k d) := by
  unfold QHash.contains at hc
  unfold QHash.value
  cases hl : h.lookup k with
  | none => rw [hl] at hc; cases hc
  | some x => rfl

/-- Only "stationID" is mapped to the column station_id. -/
theorem m_WUToDB_station_id (k : String) (h : m_WUToDB.lookup k = some "station_id") :
    k = "stationID" := by
  have hm := QHash.mem_of_lookup _ _ _ h
  simp [m_WUToDB] at hm
  exact hm

/-- Only "obsTimeLocal" is mapped to the column date_time. -/
theorem m_WUToDB_date_time (k : String) (h : m_WUToDB.lookup k = some "date_time") :
    k = "obsTimeLocal" := by
  have hm := QHash.mem_of_lookup _ _ _ h
  simp [m_WUToDB] at hm
  exact hm

theorem metricLoop_contains (qt : QtText) (m : QJsonObject) (ks : List String)
    (acc : QHash String) (c : String)
    (h : QHash.contains (metricLoop qt m ks acc).1 c = true) :
    QHash.contains acc c = true ∨ ∃ k ∈ ks, m_WUToDB.lookup k = some c := by
  induction ks generalizing acc with
  | nil => exact Or.inl h
  | cons k t ih =>
    unfold metricLoop at h
    split at h
    · rename_i hk
      split at h
      · rcases ih _ h with h1 | ⟨k', hk', hl⟩
        · exact Or.inl h1
        · exact Or.inr ⟨k', List.mem_cons_of_mem _ hk', hl⟩
      · rcases ih _ h with h1 | ⟨k', hk', hl⟩
        · rw [QHash.contains_insert] at h1
          by_cases hc : c = QHash.value m_WUToDB k ""
          · right
            refine ⟨k, List.mem_cons_self _ _, ?_⟩
            rw [hc]
            exact QHash.lookup_of_contains _ _ _ hk
          · left
            simpa [hc] using h1
        · exact Or.inr ⟨k', List.mem_cons_of_mem _ hk', hl⟩
    · rcases ih _ h with h1 | ⟨k', hk', hl⟩
      · exact Or.inl h1
      · exact Or.inr ⟨k', List.mem_cons_of_mem _ hk', hl⟩

theorem keyLoop_contains (qt : QtText) (o : QJsonObject) (ks : List String)
    (acc : QHash String) (c : String)
    (h : QHash.contains (keyLoop qt o ks acc).1 c = true) :
    QHash.contains acc c = true ∨ (∃ k ∈ ks, m_WUToDB.lookup k = some c) ∨
      (∃ k ∈ QJsonObject.keys (QJsonObject.value o "metric").toObject,
        m_WUToDB.lookup k = some c) := by
  induction ks generalizing acc with
  | nil => exact Or.inl h
  | cons k t ih =>
    unfold keyLoop at h
    split at h
    · rename_i hk
      subst hk
      rcases ih _ h with h1 | ⟨k', hk', hl⟩ | h3
      · rcases metricLoop_contains _ _ _ _ _ h1 with h4 | h5
        · exact Or.inl h4
        · exact Or.inr (Or.inr h5)
      · exact Or.inr (Or.inl ⟨k', List.mem_cons_of_mem _ hk', hl⟩)
      · exact Or.inr (Or.inr h3)
    · split at h
      · rename_i hk
        have ins : ∀ v, QHash.contains (keyLoop qt o t
            (QHash.insert acc (QHash.value m_WUToDB k "") v)).1 c = true →
            QHash.contains acc c = true ∨ (∃ k' ∈ k :: t, m_WUToDB.lookup k' = some c) ∨
            (∃ k ∈ QJsonObject.keys (QJsonObject.value o "metric").toObject,
              m_WUToDB.lookup k = some c) := by
          intro v hv
          rcases ih _ hv with h1 | ⟨k', hk', hl⟩ | h3
          · rw [QHash.contains_insert] at h1
            by_cases hc : c = QHash.value m_WUToDB k ""
            · right; left
              refine ⟨k, List.mem_cons_self _ _, ?_⟩
              rw [hc]
              exact QHash.lookup_of_contains _ _ _ hk
            · left
              simpa [hc] using h1
          · exact Or.inr (Or.inl ⟨k', List.mem_cons_of_mem _ hk', hl⟩)
          · exact Or.inr (Or.inr h3)
        split at h
        · rcases ih _ h with h1 | ⟨k', hk', hl⟩ | h3
          · exact Or.inl h1
          · exact Or.inr (Or.inl ⟨k', List.mem_cons_of_mem _ hk', hl⟩)
          · exact Or.inr (Or.inr h3)
        · split at h
          · exact ins _ h
          · exact ins _ h
      · rcases ih _ h with h1 | ⟨k', hk', hl⟩ | h3
        · exact Or.inl h1
        · exact Or.inr (Or.inl ⟨k', List.mem_cons_of_mem _ hk', hl⟩)
        · exact Or.inr (Or.inr h3)

/-- An observation without "stationID" or without "obsTimeLocal" has no identity. -/
theorem hasIdentity_of_lacksKey (qt : QtText) (o : QJsonObject)
    (h : lacksKey o "stationID" ∨ lacksKey o "obsTimeLocal") : hasIdentity qt o = false := by
  unfold hasIdentity recordOf buildObservation
  rcases h with h | h
  · have : QHash.contains (keyLoop qt o (QJsonObject.keys o) []).1 "station_id" = false := by
      by_contra hc
      have hc' : QHash.contains (keyLoop qt o (QJsonObject.keys o) []).1 "station_id" = true := by
        simpa using hc
      rcases keyLoop_contains _ _ _ _ _ hc' with h1 | ⟨k, hk, hl⟩ | ⟨k, hk, hl⟩
      · cases h1
      · rw [m_WUToDB_station_id k hl] at hk; exact h.1 hk
      · rw [m_WUToDB_station_id k hl] at hk; exact h.2 hk
    rw [this]; rfl
  · have : QHash.contains (keyLoop qt o (QJsonObject.keys o) []).1 "date_time" = false := by
      by_contra hc
      have hc' : QHash.contains (keyLoop qt o (QJsonObject.keys o) []).1 "date_time" = true := by
        simpa using hc
      rcases keyLoop_contains _ _ _ _ _ hc' with h1 | ⟨k, hk, hl⟩ | ⟨k, hk, hl⟩
      · cases h1
      · rw [m_WUToDB_date_time k hl] at hk; exact h.1 hk
      · rw [m_WUToDB_date_time k hl] at hk; exact h.2 hk
    rw [this]; simp

theorem second_pass (qt : QtText) (s : WundergroundComms) (resp : QJsonObject)
    (h : (Parse_Observations qt s resp).ret = true) :
    (Parse_Observations qt (Parse_Observations qt s resp).state resp).ret = true ∧
    (Parse_Observations qt (Parse_Observations qt s resp).state resp).state =
      (Parse_Observations qt s resp).state ∧
    saveCalls (Parse_Observations qt (Parse_Observations qt s resp).state resp).events = [] := by
  rw [PO_ret] at h
  have hk := observationLoop_success_knows qt _ s Summary.init h
  rw [← PO_state] at hk
  have h2 := observationLoop_known qt (observationsOf resp)
    (Parse_Observations qt s resp).state Summary.init hk
  refine ⟨?_, ?_, ?_⟩
  · rw [PO_ret]; exact h2.1
  · rw [PO_state]; exact h2.2.1
  · rw [PO_saveCalls]; exact h2.2.2

/-! ### Key uniqueness -/

theorem PSO_invariant (qt : QtText) (s : WundergroundComms) (o : QJsonObject)
    (hd : keysDistinct s.m_WeatherData) (hi : indexCovers s) :
    keysDistinct (Parse_SingleObservation qt s o).state.m_WeatherData ∧
      indexCovers (Parse_SingleObservation qt s o).state := by
  rcases PSO_cases qt s o with c | c | c
  · rw [c.2.2.1]; exact ⟨hd, hi⟩
  · rw [c.2.2.2.1]; exact ⟨hd, hi⟩
  · constructor
    · unfold keysDistinct at hd ⊢
      rw [c.2.2.1, List.map_append, List.nodup_append]
      refine ⟨hd, List.nodup_singleton _, ?_⟩
      intro k hk hk2
      simp only [List.map_cons, List.map_nil, List.mem_singleton] at hk2
      obtain ⟨r, hr, hrk⟩ := List.mem_map.mp hk
      have h1 := hi r hr
      unfold knows at h1
      rw [hrk, hk2] at h1
      have h2 := c.2.1
      unfold knows at h2
      rw [h1] at h2
      cases h2
    · intro r hr
      unfold knows
      rw [c.2.2.2.1, isKnown_markKnown]
      rw [c.2.2.1] at hr
      rcases List.mem_append.mp hr with hr | hr
      · have := hi r hr
        unfold knows at this
        rw [this]; rfl
      · simp only [List.mem_singleton] at hr
        subst hr
        simp

theorem observationLoop_invariant (qt : QtText) (L : List QJsonValue) (s : WundergroundComms)
    (acc : Summary) (hd : keysDistinct s.m_WeatherData) (hi : indexCovers s) :
    keysDistinct (observationLoop qt s L acc).1.state.m_WeatherData ∧
      indexCovers (observationLoop qt s L acc).1.state := by
  induction L generalizing s acc with
  | nil => exact ⟨hd, hi⟩
  | cons w rest ih =>
    have hp := PSO_invariant qt s w.toObject hd hi
    rw [observationLoop_cons]
    split
    · exact ih _ _ hp.1 hp.2
    · exact hp

theorem handleAll_invariant (qt : QtText) (payloads : List QJsonObject) (s : WundergroundComms)
    (hd : keysDistinct s.m_WeatherData) (hi : indexCovers s) :
    keysDistinct (handleAll qt s payloads).1.m_WeatherData ∧
      indexCovers (handleAll qt s payloads).1 := by
  induction payloads generalizing s with
  | nil => exact ⟨hd, hi⟩
  | cons resp rest ih =>
    have hp := observationLoop_invariant qt (observationsOf resp) s Summary.init hd hi
    rw [← PO_state] at hp
    exact ih _ hp.1 hp.2

theorem handleAll_weather (qt : QtText) (payloads : List QJsonObject) (s : WundergroundComms) :
    (handleAll qt s payloads).1.m_WeatherData =
      s.m_WeatherData ++ saveCalls (handleAll qt s payloads).2 := by
  induction payloads generalizing s with
  | nil => simp [handleAll, saveCalls]
  | cons resp rest ih =>
    have hw := observationLoop_weather qt (observationsOf resp) s Summary.init
    rw [← PO_state, ← PO_saveCalls] at hw
    show (handleAll qt (Parse_Observations qt s resp).state rest).1.m_WeatherData = _
    rw [ih, hw]
    show _ = s.m_WeatherData ++ saveCalls ((Parse_Observations qt s resp).events ++
      (handleAll qt (Parse_Observations qt s resp).state rest).2)
    rw [saveCalls_append, List.append_assoc]

/-- Outside the window the text of the time passes the test of the gate. -/
theorem gate_outside (now : QTime) (hv : now.isValid)
    (h : now.minutes < 6 * 60 ∨ 22 * 60 ≤ now.minutes) :
    (QString.ge now.toString_hhmm CHECK_END_TIME ||
      QString.le now.toString_hhmm CHECK_START_TIME) = true := by
  obtain ⟨hh, mm⟩ := now
  obtain ⟨h1, h2⟩ := hv
  simp only [QTime.minutes] at h
  simp only at h1 h2
  have hcases : hh < 6 ∨ 22 ≤ hh := by omega
  rcases hcases with hlt | hge
  · interval_cases hh <;>
      simp [QTime.toString_hhmm, QString.twoDigits, QString.ge, QString.le, QString.lt,
        QString.ltCodes, CHECK_END_TIME, CHECK_START_TIME, Nat.digitChar]
  · interval_cases hh <;> interval_cases mm <;> decide

theorem metricLoop_foldl (qt : QtText) (m : QJsonObject) (ks : List String)
    (acc : QHash String) :
    (metricLoop qt m ks acc).1 = ks.foldl (metricStep qt m) acc := by
  induction ks generalizing acc with
  | nil => rfl
  | cons k t ih =>
    unfold metricLoop
    rw [List.foldl_cons]
    unfold metricStep
    split
    · split
      · exact ih _
      · exact ih _
    · exact ih _

theorem keyLoop_cons_fst (qt : QtText) (o : QJsonObject) (k : String) (t : List String)
    (acc : QHash String) :
    (keyLoop qt o (k :: t) acc).1 = (keyLoop qt o t (keyStep qt o acc k)).1 := by
  rw [keyLoop]
  unfold keyStep
  split
  · simp only [metricLoop_foldl]
  · split
    · split
      · rfl
      · split <;> rfl
    · rfl

theorem keyLoop_foldl (qt : QtText) (o : QJsonObject) (ks : List String)
    (acc : QHash String) :
    (keyLoop qt o ks acc).1 = ks.foldl (keyStep qt o) acc := by
  induction ks generalizing acc with
  | nil => rfl
  | cons k t ih => rw [keyLoop_cons_fst, List.foldl_cons, ih]

theorem recordOf_foldl (qt : QtText) (o : QJsonObject) :
    recordOf qt o = (QJsonObject.keys o).foldl (keyStep qt o) [] :=
  keyLoop_foldl qt o _ _

theorem foldl_congr_mem {α β : Type} (f g : β → α → β) (l : List α) (b : β)
    (h : ∀ a ∈ l, ∀ x, f x a = g x a) : l.foldl f b = l.foldl g b := by
  induction l generalizing b with
  | nil => rfl
  | cons a t ih =>
    rw [List.foldl_cons, List.foldl_cons, h a (List.mem_cons_self _ _) b]
    exact ih _ (fun a ha x => h a (List.mem_cons_of_mem _ ha) x)

theorem foldl_insertAt_skip {α β : Type} (f : β → α → β) (l : List α) (i : Nat) (k : α)
    (b : β) (h : ∀ x, f x k = x) : (insertAt i k l).foldl f b = l.foldl f b := by
  unfold insertAt
  rw [List.foldl_append, List.foldl_cons, h, ← List.foldl_append, List.take_append_drop]

theorem lookup_insertAt {β : Type} (l : List (String × β)) (i : Nat) (k a : String) (v : β)
    (h : a ≠ k) : (insertAt i (k, v) l).lookup a = l.lookup a := by
  induction l generalizing i with
  | nil =>
    have : (a == k) = false := by simpa using h
    cases i <;> simp [insertAt, List.lookup, this]
  | cons p t ih =>
    cases i with
    | zero =>
      have : (a == k) = false := by simpa using h
      simp [insertAt, List.lookup, this]
    | succ n =>
      obtain ⟨x, y⟩ := p
      have e : insertAt (n + 1) (k, v) ((x, y) :: t) = (x, y) :: insertAt n (k, v) t := by
        simp [insertAt]
      rw [e, List.lookup_cons, List.lookup_cons, ih]

theorem keys_insertAt (o : QJsonObject) (i : Nat) (kv : String × QJsonValue) :
    QJsonObject.keys (insertAt i kv o) = insertAt i kv.1 (QJsonObject.keys o) := by
  simp [QJsonObject.keys, insertAt, List.map_take, List.map_drop]

theorem keys_addMetricKey (o : QJsonObject) (j : Nat) (kv : String × QJsonValue) :
    QJsonObject.keys (addMetricKey j kv o) = QJsonObject.keys o := by
  unfold QJsonObject.keys addMetricKey
  rw [List.map_map]
  apply List.map_congr_left
  intro p _
  simp only [Function.comp]
  split <;> rfl

theorem lookup_addMetricKey_ne (o : QJsonObject) (j : Nat) (kv : String × QJsonValue)
    (a : String) (h : a ≠ "metric") :
    (addMetricKey j kv o).lookup a = o.lookup a := by
  induction o with
  | nil => rfl
  | cons p t ih =>
    obtain ⟨x, y⟩ := p
    unfold addMetricKey at ih ⊢
    rw [List.map_cons]
    by_cases hx : x = "metric"
    · subst hx
      have : (a == "metric") = false := by simpa using h
      simp only [if_true, List.lookup_cons, this]
      exact ih
    · simp only [hx, if_false, List.lookup_cons]
      rw [ih]

theorem lookup_addMetricKey_metric (o : QJsonObject) (j : Nat) (kv : String × QJsonValue) :
    (addMetricKey j kv o).lookup "metric" =
      (o.lookup "metric").map (fun v => QJsonValue.object (insertAt j kv v.toObject)) := by
  induction o with
  | nil => rfl
  | cons p t ih =>
    obtain ⟨x, y⟩ := p
    unfold addMetricKey at ih ⊢
    rw [List.map_cons]
    by_cases hx : x = "metric"
    · subst hx
      simp [List.lookup]
    · have : ("metric" == x) = false := by simpa using (Ne.symm hx)
      simp only [hx, if_false, List.lookup_cons, this]
      exact ih

theorem metricStep_unknown (qt : QtText) (m : QJsonObject) (acc : QHash String) (k : String)
    (h : QHash.contains m_WUToDB k = false) : metricStep qt m acc k = acc := by
  unfold metricStep
  simp [h]

theorem keyStep_unknown (qt : QtText) (o : QJsonObject) (acc : QHash String) (k : String)
    (h : QHash.contains m_WUToDB k = false) (hm : k ≠ "metric") : keyStep qt o acc k = acc := by
  unfold keyStep
  simp [h, hm]

/-- One more unknown member leaves the pass over a "metric" object as it is. -/
theorem metric_foldl_insertAt (qt : QtText) (m : QJsonObject) (j : Nat) (k : String)
    (v : QJsonValue) (acc : QHash String) (h : QHash.contains m_WUToDB k = false) :
    (QJsonObject.keys (insertAt j (k, v) m)).foldl (metricStep qt (insertAt j (k, v) m)) acc =
      (QJsonObject.keys m).foldl (metricStep qt m) acc := by
  rw [keys_insertAt, foldl_insertAt_skip _ _ _ _ _ (fun x => metricStep_unknown qt _ x k h)]
  apply foldl_congr_mem
  intro a _ x
  by_cases ha : a = k
  · subst ha
    rw [metricStep_unknown qt _ x a h, metricStep_unknown qt _ x a h]
  · unfold metricStep QJsonObject.value
    rw [lookup_insertAt m j k a v ha]

theorem record_unknown_keys (qt : QtText) (o : QJsonObject) (i j : Nat) (k1 k2 : String)
    (v1 v2 : QJsonValue) (h1 : QHash.contains m_WUToDB k1 = false) (h1m : k1 ≠ "metric")
    (h2 : QHash.contains m_WUToDB k2 = false) :
    recordOf qt (insertAt i (k1, v1) (addMetricKey j (k2, v2) o)) = recordOf qt o := by
  rw [recordOf_foldl, recordOf_foldl, keys_insertAt, keys_addMetricKey,
    foldl_insertAt_skip _ _ _ _ _ (fun x => keyStep_unknown qt _ x k1 h1 h1m)]
  apply foldl_congr_mem
  intro a ha x
  by_cases hk1 : a = k1
  · subst hk1
    rw [keyStep_unknown qt _ x a h1 h1m, keyStep_unknown qt _ x a h1 h1m]
  · by_cases hm : a = "metric"
    · subst hm
      have hl : (insertAt i (k1, v1) (addMetricKey j (k2, v2) o)).lookup "metric" =
          (o.lookup "metric").map
            (fun v => QJsonValue.object (insertAt j (k2, v2) v.toObject)) := by
        rw [lookup_insertAt _ i k1 "metric" v1 hk1, lookup_addMetricKey_metric]
      have hmem : ∃ y, o.lookup "metric" = some y := by
        cases hlo : o.lookup "metric" with
        | some y => exact ⟨y, rfl⟩
        | none =>
          exfalso
          rw [List.lookup_eq_none_iff] at hlo
          obtain ⟨p, hp, hpk⟩ := List.mem_map.mp ha
          have := hlo p hp
          rw [hpk] at this
          simp at this
      obtain ⟨y, hy⟩ := hmem
      unfold keyStep
      simp only [if_true]
      unfold QJsonObject.value
      rw [hl, hy]
      simp only [Option.map_some', Option.getD_some]
      exact metric_foldl_insertAt qt y.toObject j k2 v2 x h2
    · unfold keyStep QJsonObject.value
      simp only [hm, if_false]
      rw [lookup_insertAt _ i k1 a v1 hk1, lookup_addMetricKey_ne o j (k2, v2) a hm]

/-- The return value and the state after `Parse_SingleObservation` depend on
the observation through its canonical record only. -/
theorem PSO_of_record_eq (qt : QtText) (s : WundergroundComms) (o o2 : QJsonObject)
    (h : recordOf qt o2 = recordOf qt o) :
    (Parse_SingleObservation qt s o2).ret = (Parse_SingleObservation qt s o).ret ∧
    (Parse_SingleObservation qt s o2).state = (Parse_SingleObservation qt s o).state := by
  unfold recordOf at h
  unfold Parse_SingleObservation
  simp only [h]
  split
  · exact ⟨rfl, rfl⟩
  · split <;> exact ⟨rfl, rfl⟩

theorem observationLoop_state (qt : QtText) (L : List QJsonValue) (s : WundergroundComms)
    (acc : Summary) : (observationLoop qt s L acc).1.state = ingest qt s L := by
  induction L generalizing s acc with
  | nil => rfl
  | cons v rest ih =>
    rw [observationLoop_cons, ingest]
    split
    · exact ih _ _
    · rfl

theorem PO_state_ingest (qt : QtText) (s : WundergroundComms) (resp : QJsonObject) :
    (Parse_Observations qt s resp).state = ingest qt s (observationsOf resp) := by
  rw [PO_state, observationLoop_state]

theorem sameStore_refl (s : WundergroundComms) : sameStore s s :=
  ⟨List.Perm.refl _, List.Perm.refl _, fun _ _ => rfl⟩

theorem sameStore_symm {s t : WundergroundComms} (h : sameStore s t) : sameStore t s :=
  ⟨h.1.symm, h.2.1.symm, fun a b => (h.2.2 a b).symm⟩

theorem sameStore_trans {s t u : WundergroundComms} (h1 : sameStore s t) (h2 : sameStore t u) :
    sameStore s u :=
  ⟨h1.1.trans h2.1, h1.2.1.trans h2.2.1, fun a b => (h1.2.2 a b).trans (h2.2.2 a b)⟩

theorem SaveToDatabase_ok (s : WundergroundComms) (r : QHash String) (h : insertsSucceed s) :
    (SaveToDatabase s r).ret = true ∧
    (SaveToDatabase s r).state.wu_data =
      s.wu_data ++ [columns.map (fun column => (column, QHash.value r column ""))] ∧
    insertsSucceed (SaveToDatabase s r).state := by
  obtain ⟨hc, he⟩ := h
  have hh : s.sqlErrors.headD false = false := by
    cases hs : s.sqlErrors with
    | nil => rfl
    | cons e t =>
      have := he e (by rw [hs]; exact List.mem_cons_self _ _)
      simp [this]
  have ht : ∀ e ∈ s.sqlErrors.tail, e = false :=
    fun e hm => he e (List.mem_of_mem_tail hm)
  have e : SaveToDatabase s r = ⟨true, { s with
      wu_data := s.wu_data ++ [columns.map (fun column => (column, QHash.value r column ""))],
      sqlErrors := s.sqlErrors.tail }, [Event.CALL_SaveToDatabase r]⟩ := by
    unfold SaveToDatabase
    simp only [hc, hh, Bool.not_true, Bool.false_eq_true, if_false]
  rw [e]
  exact ⟨rfl, rfl, hc, ht⟩

/-- What `Parse_SingleObservation` does while every insert succeeds. -/
theorem PSO_ok (qt : QtText) (s : WundergroundComms) (o : QJsonObject)
    (h : insertsSucceed s) :
    (Parse_SingleObservation qt s o).ret = hasIdentity qt o ∧
    insertsSucceed (Parse_SingleObservation qt s o).state ∧
    (Parse_SingleObservation qt s o).state.m_WeatherData =
      (if isNew qt s o then s.m_WeatherData ++ [recordOf qt o] else s.m_WeatherData) ∧
    (Parse_SingleObservation qt s o).state.wu_data =
      (if isNew qt s o then s.wu_data ++
        [columns.map (fun column => (column, QHash.value (recordOf qt o) column ""))]
       else s.wu_data) ∧
    (Parse_SingleObservation qt s o).state.m_StationToDateTimes =
      (if isNew qt s o then markKnown s.m_StationToDateTimes (keyOf (recordOf qt o)).1
        (keyOf (recordOf qt o)).2 else s.m_StationToDateTimes) := by
  unfold isNew
  cases hid : hasIdentity qt o with
  | false =>
    rw [PSO_missing qt s o hid]
    exact ⟨rfl, h, rfl, rfl, rfl⟩
  | true =>
    cases hk : knows s (recordOf qt o) with
    | true =>
      rw [PSO_known qt s o hid hk]
      exact ⟨rfl, h, rfl, rfl, rfl⟩
    | false =>
      rw [PSO_new qt s o hid hk]
      have hs := SaveToDatabase_ok { s with
            m_WeatherData := s.m_WeatherData ++ [recordOf qt o],
            m_StationToDateTimes := markKnown s.m_StationToDateTimes
              (keyOf (recordOf qt o)).1 (keyOf (recordOf qt o)).2 } (recordOf qt o) h
      have hf := SaveToDatabase_frame { s with
            m_WeatherData := s.m_WeatherData ++ [recordOf qt o],
            m_StationToDateTimes := markKnown s.m_StationToDateTimes
              (keyOf (recordOf qt o)).1 (keyOf (recordOf qt o)).2 } (recordOf qt o)
      refine ⟨hs.1, hs.2.2, ?_, ?_, ?_⟩
      · simpa using hf.1
      · simpa using hs.2.1
      · simpa using hf.2.1

theorem isNew_congr (qt : QtText) (s t : WundergroundComms) (o : QJsonObject)
    (h : ∀ a b, isKnown s.m_StationToDateTimes a b = isKnown t.m_StationToDateTimes a b) :
    isNew qt s o = isNew qt t o := by
  unfold isNew knows
  rw [h]

theorem PSO_congr (qt : QtText) (s t : WundergroundComms) (o : QJsonObject)
    (hs : insertsSucceed s) (ht : insertsSucceed t) (h : sameStore s t) :
    (Parse_SingleObservation qt s o).ret = (Parse_SingleObservation qt t o).ret ∧
    sameStore (Parse_SingleObservation qt s o).state (Parse_SingleObservation qt t o).state := by
  have a := PSO_ok qt s o hs
  have b := PSO_ok qt t o ht
  have hn := isNew_congr qt s t o h.2.2
  refine ⟨by rw [a.1, b.1], ?_, ?_, ?_⟩
  · rw [a.2.2.2.1, b.2.2.2.1, hn]
    split
    · exact h.1.append_right _
    · exact h.1
  · rw [a.2.2.1, b.2.2.1, hn]
    split
    · exact h.2.1.append_right _
    · exact h.2.1
  · intro x y
    rw [a.2.2.2.2, b.2.2.2.2, hn]
    split
    · rw [isKnown_markKnown, isKnown_markKnown, h.2.2]
    · exact h.2.2 x y

theorem ingest_ok (qt : QtText) (L : List QJsonValue) (s : WundergroundComms)
    (h : insertsSucceed s) : insertsSucceed (ingest qt s L) := by
  induction L generalizing s with
  | nil => exact h
  | cons v rest ih =>
    rw [ingest]
    split
    · exact ih _ (PSO_ok qt s _ h).2.1
    · exact (PSO_ok qt s _ h).2.1

theorem ingest_congr (qt : QtText) (L : List QJsonValue) (s t : WundergroundComms)
    (hs : insertsSucceed s) (ht : insertsSucceed t) (h : sameStore s t) :
    sameStore (ingest qt s L) (ingest qt t L) := by
  induction L generalizing s t with
  | nil => exact h
  | cons v rest ih =>
    have c := PSO_congr qt s t v.toObject hs ht h
    rw [ingest, ingest, ← c.1]
    split
    · exact ih _ _ (PSO_ok qt s _ hs).2.1 (PSO_ok qt t _ ht).2.1 c.2
    · exact c.2

/-- Whether an observation is new does not change when another observation
with a different key is handled first. -/
theorem isNew_after (qt : QtText) (s : WundergroundComms) (a b : QJsonObject)
    (hs : insertsSucceed s)
    (hne : hasIdentity qt a = true → hasIdentity qt b = true →
      keyOf (recordOf qt a) ≠ keyOf (recordOf qt b)) :
    isNew qt (Parse_SingleObservation qt s a).state b = isNew qt s b := by
  have pa := PSO_ok qt s a hs
  unfold isNew knows
  rw [pa.2.2.2.2]
  cases hb : hasIdentity qt b with
  | false => rfl
  | true =>
    cases hn : isNew qt s a with
    | false => simp only [Bool.false_eq_true, if_false]
    | true =>
      simp only [if_true]
      rw [isKnown_markKnown]
      have hida : hasIdentity qt a = true := by
        unfold isNew at hn
        simp only [Bool.and_eq_true] at hn
        exact hn.1
      have := hne hida hb
      have hd : (decide ((keyOf (recordOf qt b)).1 = (keyOf (recordOf qt a)).1) &&
          decide ((keyOf (recordOf qt b)).2 = (keyOf (recordOf qt a)).2)) = false := by
        by_contra hc
        simp only [Bool.not_eq_false, Bool.and_eq_true, decide_eq_true_eq] at hc
        exact this (Prod.ext hc.1.symm hc.2.symm)
      rw [hd, Bool.or_false]

theorem step_comm (qt : QtText) (s : WundergroundComms) (a b : QJsonObject)
    (hs : insertsSucceed s)
    (hne : hasIdentity qt a = true → hasIdentity qt b = true →
      keyOf (recordOf qt a) ≠ keyOf (recordOf qt b)) :
    sameStore (Parse_SingleObservation qt (Parse_SingleObservation qt s a).state b).state
      (Parse_SingleObservation qt (Parse_SingleObservation qt s b).state a).state := by
  have pa := PSO_ok qt s a hs
  have pb := PSO_ok qt s b hs
  have pab := PSO_ok qt _ b pa.2.1
  have pba := PSO_ok qt _ a pb.2.1
  have nb := isNew_after qt s a b hs hne
  have na := isNew_after qt s b a hs (fun h1 h2 h3 => hne h2 h1 h3.symm)
  refine ⟨?_, ?_, ?_⟩
  · rw [pab.2.2.2.1, pba.2.2.2.1, pa.2.2.2.1, pb.2.2.2.1, na, nb]
    cases isNew qt s a <;> cases isNew qt s b <;>
      simp only [if_true, if_false, Bool.false_eq_true, List.append_assoc]
    all_goals first
      | exact List.Perm.refl _
      | exact List.Perm.append_left _ (List.perm_append_comm)
  · rw [pab.2.2.1, pba.2.2.1, pa.2.2.1, pb.2.2.1, na, nb]
    cases isNew qt s a <;> cases isNew qt s b <;>
      simp only [if_true, if_false, Bool.false_eq_true, List.append_assoc]
    all_goals first
      | exact List.Perm.refl _
      | exact List.Perm.append_left _ (List.perm_append_comm)
  · intro x y
    rw [pab.2.2.2.2, pba.2.2.2.2, pa.2.2.2.2, pb.2.2.2.2, na, nb]
    cases isNew qt s a <;> cases isNew qt s b <;>
      simp only [if_true, if_false, Bool.false_eq_true, isKnown_markKnown]
    rw [Bool.or_assoc, Bool.or_assoc]
    congr 1
    exact Bool.or_comm _ _

theorem ingest_cons_of_identity (qt : QtText) (s : WundergroundComms) (v : QJsonValue)
    (rest : List QJsonValue) (hs : insertsSucceed s) (hid : hasIdentity qt v.toObject = true) :
    ingest qt s (v :: rest) = ingest qt (Parse_SingleObservation qt s v.toObject).state rest := by
  rw [ingest, (PSO_ok qt s _ hs).1, hid]
  rfl

theorem ingest_cons_of_no_identity (qt : QtText) (s : WundergroundComms) (v : QJsonValue)
    (rest : List QJsonValue) (hid : hasIdentity qt v.toObject = false) :
    ingest qt s (v :: rest) = s := by
  rw [ingest, PSO_missing qt s _ hid]
  rfl

theorem step_ingest_comm (qt : QtText) (LB : List QJsonValue) (s : WundergroundComms)
    (a : QJsonObject) (hs : insertsSucceed s)
    (hne : ∀ b ∈ LB, hasIdentity qt b.toObject = true →
      keyOf (recordOf qt a) ≠ keyOf (recordOf qt b.toObject)) :
    sameStore (Parse_SingleObservation qt (ingest qt s LB) a).state
      (ingest qt (Parse_SingleObservation qt s a).state LB) := by
  induction LB generalizing s with
  | nil => exact sameStore_refl _
  | cons b rest ih =>
    have hsa := (PSO_ok qt s a hs).2.1
    cases hb : hasIdentity qt b.toObject with
    | false =>
      rw [ingest_cons_of_no_identity qt s b rest hb, ingest_cons_of_no_identity qt _ b rest hb]
      exact sameStore_refl _
    | true =>
      rw [ingest_cons_of_identity qt s b rest hs hb, ingest_cons_of_identity qt _ b rest hsa hb]
      have hsb := (PSO_ok qt s b.toObject hs).2.1
      have h1 := ih (Parse_SingleObservation qt s b.toObject).state hsb
        (fun x hx => hne x (List.mem_cons_of_mem _ hx))
      have h2 := step_comm qt s b.toObject a hs
        (fun _ _ h => hne b (List.mem_cons_self _ _) hb h.symm)
      have h3 := ingest_congr qt rest _ _ (PSO_ok qt _ a hsb).2.1
        (PSO_ok qt _ b.toObject hsa).2.1 h2
      exact sameStore_trans h1 h3

theorem ingest_comm (qt : QtText) (LA LB : List QJsonValue) (s : WundergroundComms)
    (hs : insertsSucceed s)
    (hne : ∀ a ∈ LA, ∀ b ∈ LB, hasIdentity qt a.toObject = true →
      hasIdentity qt b.toObject = true →
      keyOf (recordOf qt a.toObject) ≠ keyOf (recordOf qt b.toObject)) :
    sameStore (ingest qt (ingest qt s LA) LB) (ingest qt (ingest qt s LB) LA) := by
  induction LA generalizing s with
  | nil => exact sameStore_refl _
  | cons a rest ih =>
    cases ha : hasIdentity qt a.toObject with
    | false =>
      rw [ingest_cons_of_no_identity qt s a rest ha, ingest_cons_of_no_identity qt _ a rest ha]
      exact sameStore_refl _
    | true =>
      have hsa := (PSO_ok qt s a.toObject hs).2.1
      have hsB := ingest_ok qt LB s hs
      rw [ingest_cons_of_identity qt s a rest hs ha, ingest_cons_of_identity qt _ a rest hsB ha]
      have h1 := ih (Parse_SingleObservation qt s a.toObject).state hsa
        (fun x hx => hne x (List.mem_cons_of_mem _ hx))
      have h2 := step_ingest_comm qt LB s a.toObject hs
        (fun b hb hib => hne a (List.mem_cons_self _ _) b hb ha hib)
      have h3 := ingest_congr qt rest _ _ (PSO_ok qt _ a.toObject hsB).2.1
        (ingest_ok qt LB _ hsa) h2
      exact sameStore_trans h1 (sameStore_symm h3)

/-! ### The column date_time of a record -/

theorem keyStep_date_time_other (qt : QtText) (o : QJsonObject) (acc : QHash String)
    (a : String) (h1 : a ≠ "metric") (h2 : a ≠ "obsTimeLocal") :
    QHash.value (keyStep qt o acc a) "date_time" "" = QHash.value acc "date_time" "" := by
  unfold keyStep
  simp only [h1, if_false]
  split
  · rename_i hc
    have hl := QHash.lookup_of_contains m_WUToDB a "" hc
    have hcol : "date_time" ≠ QHash.value m_WUToDB a "" := by
      intro he
      rw [← he] at hl
      exact h2 (m_WUToDB_date_time a hl)
    split
    · rfl
    · split
      · rw [QHash.value_insert, if_neg hcol]
      · rw [QHash.value_insert, if_neg hcol]
  · rfl

theorem foldl_date_time_other (qt : QtText) (o : QJsonObject) (ks : List String)
    (acc : QHash String) (h : ∀ a ∈ ks, a ≠ "metric" ∧ a ≠ "obsTimeLocal") :
    QHash.value (ks.foldl (keyStep qt o) acc) "date_time" "" =
      QHash.value acc "date_time" "" := by
  induction ks generalizing acc with
  | nil => rfl
  | cons k t ih =>
    rw [List.foldl_cons, ih _ (fun a ha => h a (List.mem_cons_of_mem _ ha))]
    exact keyStep_date_time_other qt o acc k (h k (List.mem_cons_self _ _)).1
      (h k (List.mem_cons_self _ _)).2

theorem keyStep_obsTimeLocal (qt : QtText) (o : QJsonObject) (acc : QHash String) :
    keyStep qt o acc "obsTimeLocal" =
      QHash.insert acc "date_time" (QJsonObject.value o "obsTimeLocal").toString := by
  have h1 : QHash.contains m_WUToDB "obsTimeLocal" = true := by decide
  have h2 : QHash.value m_WUToDB "obsTimeLocal" "" = "date_time" := by decide
  unfold keyStep
  simp [h1, h2]

theorem foldl_date_time (qt : QtText) (o : QJsonObject) (ks : List String)
    (acc : QHash String) (hs : ks.Pairwise (fun a b => QString.lt a b = true))
    (hm : "obsTimeLocal" ∈ ks) :
    QHash.value (ks.foldl (keyStep qt o) acc) "date_time" "" =
      (QJsonObject.value o "obsTimeLocal").toString := by
  induction ks generalizing acc with
  | nil => cases hm
  | cons k t ih =>
    rw [List.pairwise_cons] at hs
    rw [List.foldl_cons]
    by_cases hk : k = "obsTimeLocal"
    · subst hk
      rw [foldl_date_time_other qt o t _ ?_, keyStep_obsTimeLocal, QHash.value_insert, if_pos rfl]
      intro a ha
      have hlt := hs.1 a ha
      constructor
      · intro e; rw [e] at hlt; revert hlt; decide
      · intro e; rw [e] at hlt; revert hlt; decide
    · rcases List.mem_cons.mp hm with e | hm'
      · exact absurd e.symm hk
      · exact ih _ hs.2 hm'

/-- In a `QJsonObject` the column date_time of the canonical record is the text
of the top-level member "obsTimeLocal". -/
theorem record_date_time (qt : QtText) (o : QJsonObject) (hs : o.isSorted)
    (hm : "obsTimeLocal" ∈ QJsonObject.keys o) :
    (keyOf (recordOf qt o)).2 = (QJsonObject.value o "obsTimeLocal").toString := by
  unfold keyOf
  rw [recordOf_foldl]
  exact foldl_date_time qt o _ [] hs hm

theorem keys_ne_of_dates (qt : QtText) (D1 D2 : String) (a b : QJsonValue) (hD : D1 ≠ D2)
    (ha : observedOn D1 a) (hb : observedOn D2 b) :
    keyOf (recordOf qt a.toObject) ≠ keyOf (recordOf qt b.toObject) := by
  intro h
  have h2 : (keyOf (recordOf qt a.toObject)).2 = (keyOf (recordOf qt b.toObject)).2 := by
    rw [h]
  rw [record_date_time qt _ ha.1 ha.2.1, record_date_time qt _ hb.1 hb.2.1] at h2
  apply hD
  rw [← ha.2.2, ← hb.2.2, h2]

/-! ### The gate strictly inside the window -/

/-- Strictly inside the window the text of the time fails the test of the gate. -/
theorem gate_inside (now : QTime) (hv : now.isValid)
    (h : 6 * 60 < now.minutes ∧ now.minutes < 22 * 60) :
    (QString.ge now.toString_hhmm CHECK_END_TIME ||
      QString.le now.toString_hhmm CHECK_START_TIME) = false := by
  obtain ⟨hh, mm⟩ := now
  obtain ⟨h1, h2⟩ := hv
  simp only [QTime.minutes] at h
  simp only at h1 h2
  have hcases : hh = 6 ∨ (7 ≤ hh ∧ hh < 22) := by omega
  rcases hcases with h6 | ⟨hlo, hhi⟩
  · subst h6
    have hm : 1 ≤ mm := by omega
    interval_cases mm <;> decide
  · interval_cases hh <;>
      simp [QTime.toString_hhmm, QString.twoDigits, QString.ge, QString.le, QString.lt,
        QString.ltCodes, CHECK_END_TIME, CHECK_START_TIME, Nat.digitChar]

theorem getDateCalls_GetDate (s : WundergroundComms) (d : String) :
    getDateCalls (GetDate s d) = [d] := by
  unfold GetDate
  split
  · rfl
  · split
    · rfl
    · split <;> rfl

theorem statusUpdates_GetDate (s : WundergroundComms) (d : String) :
    statusUpdates (GetDate s d) = [] := by
  unfold GetDate
  split
  · rfl
  · split
    · rfl
    · split <;> rfl

theorem getDateCalls_append (l1 l2 : List Event) :
    getDateCalls (l1 ++ l2) = getDateCalls l1 ++ getDateCalls l2 := by
  simp [getDateCalls, List.filterMap_append]

theorem statusUpdates_append (l1 l2 : List Event) :
    statusUpdates (l1 ++ l2) = statusUpdates l1 ++ statusUpdates l2 := by
  simp [statusUpdates, List.filterMap_append]

/-- Strictly inside the window a run of `Periodic_GetUpdates` calls `GetDate`
once and emits no status. -/
theorem tick_inside (s : WundergroundComms) (now : QTime) (today : QDate)
    (hrun : s.m_IsRunning = true) (hv : now.isValid)
    (h : 6 * 60 < now.minutes ∧ now.minutes < 22 * 60) :
    (getDateCalls (Periodic_GetUpdates s now today).2).length = 1 ∧
    statusUpdates (Periodic_GetUpdates s now today).2 = [] := by
  have hg := gate_inside now hv h
  unfold Periodic_GetUpdates
  simp only [hrun, if_true, hg, Bool.false_eq_true, if_false]
  split
  · rw [getDateCalls_append, statusUpdates_append, getDateCalls_GetDate,
      statusUpdates_GetDate]
    exact ⟨rfl, rfl⟩
  · rw [getDateCalls_append, statusUpdates_append, getDateCalls_GetDate,
      statusUpdates_GetDate]
    exact ⟨rfl, rfl⟩

/-! ### Runs of the timer slot inside the window -/

theorem getRequests_GetDate (s : WundergroundComms) (d : String) :
    getRequests (GetDate s d) =
      if s.m_PWSName ≠ "" ∧ s.m_Token ≠ "" ∧ s.m_DatabaseConnected = true then
        [historyUrl s.m_PWSName d s.m_Token]
      else [] := by
  unfold GetDate
  by_cases h1 : s.m_PWSName = ""
  · simp [h1, getRequests]
  · by_cases h2 : s.m_Token = ""
    · simp [h1, h2, getRequests]
    · cases h3 : s.m_DatabaseConnected
      · simp [h1, h2, h3, getRequests]
      · simp [h1, h2, h3, getRequests, historyUrl]

/-! ### The format test of `SetToken` -/

theorem format_token_hasMatch_iff (t : String) :
    format_token_hasMatch t = true ↔
      isToken32 t = true ∨
      (∃ cs : List Char, t.data = cs ++ ['\n'] ∧ cs.length = 32 ∧ cs.all isTokenChar = true) := by
  unfold format_token_hasMatch isToken32
  constructor
  · intro h
    simp only [Bool.and_eq_true, Bool.or_eq_true, decide_eq_true_eq] at h
    obtain ⟨⟨hl, ha⟩, hd⟩ := h
    have hsplit := List.take_append_drop 32 t.data
    rcases hd with hd | hd
    · left
      rw [hd, List.append_nil] at hsplit
      rw [hsplit] at hl ha
      simp only [Bool.and_eq_true, decide_eq_true_eq]
      exact ⟨hl, ha⟩
    · right
      refine ⟨t.data.take 32, ?_, hl, ha⟩
      rw [← hd, hsplit]
  · intro h
    simp only [Bool.and_eq_true, Bool.or_eq_true, decide_eq_true_eq]
    rcases h with h | ⟨cs, hcs, hl, ha⟩
    · simp only [Bool.and_eq_true, decide_eq_true_eq] at h
      have ht : t.data.take 32 = t.data := List.take_of_length_le (by omega)
      have hd : t.data.drop 32 = [] := List.drop_of_length_le (by omega)
      rw [ht, hd]
      exact ⟨⟨h.1, h.2⟩, Or.inl rfl⟩
    · have ht : t.data.take 32 = cs := by
        rw [hcs, List.take_append_of_le_length (by omega), List.take_of_length_le (by omega)]
      have hd : t.data.drop 32 = ['\n'] := by
        rw [hcs, List.drop_append_of_le_length (by omega), List.drop_of_length_le (by omega)]
        rfl
      rw [ht, hd]
      exact ⟨⟨hl, ha⟩, Or.inr rfl⟩

/-- With no token set, `SetToken` accepts exactly the texts that pass the
format test, and stores the text it accepts. -/
theorem SetToken_unset (s : WundergroundComms) (t : String) (hs : s.m_Token = "") :
    ((SetToken s t).ret = true ↔ format_token_hasMatch t = true) ∧
    ((SetToken s t).ret = true → (SetToken s t).state.m_Token = t) ∧
    ((SetToken s t).ret = false → (SetToken s t).state = s) := by
  unfold SetToken
  by_cases ht : t = ""
  · subst ht
    simp only [if_true]
    refine ⟨⟨fun h => (by cases h), fun h => ?_⟩, fun h => (by cases h), fun _ => trivial⟩
    revert h; decide
  · simp only [ht, if_false, hs, ne_eq, not_true_eq_false]
    cases hf : format_token_hasMatch t
    · simp
    · simp

/-! ### The configuration is left alone by the handling of responses -/

theorem SaveToDatabase_configOf (s : WundergroundComms) (r : QHash String) :
    configOf (SaveToDatabase s r).state = configOf s := by
  unfold SaveToDatabase
  split
  · rfl
  · split <;> rfl

theorem PSO_configOf (qt : QtText) (s : WundergroundComms) (o : QJsonObject) :
    configOf (Parse_SingleObservation qt s o).state = configOf s := by
  cases hid : hasIdentity qt o with
  | false => rw [PSO_missing qt s o hid]
  | true =>
    cases hk : knows s (recordOf qt o) with
    | true => rw [PSO_known qt s o hid hk]
    | false =>
      rw [PSO_new qt s o hid hk]
      exact SaveToDatabase_configOf _ _

theorem ingest_configOf (qt : QtText) (L : List QJsonValue) (s : WundergroundComms) :
    configOf (ingest qt s L) = configOf s := by
  induction L generalizing s with
  | nil => rfl
  | cons v rest ih =>
    rw [ingest]
    split
    · rw [ih, PSO_configOf]
    · exact PSO_configOf qt s _

theorem PO_configOf (qt : QtText) (s : WundergroundComms) (resp : QJsonObject) :
    configOf (Parse_Observations qt s resp).state = configOf s := by
  rw [PO_state_ingest, ingest_configOf]

theorem HandleResponse_configOf (qt : QtText) (s : WundergroundComms) (reply : QNetworkReply) :
    configOf (HandleResponse qt s reply).state = configOf s := by
  unfold HandleResponse
  split
  · rfl
  · split
    · rfl
    · split
      · rfl
      · exact PO_configOf qt s _

theorem runningIsConfigured_of_configOf {s t : WundergroundComms}
    (h : configOf t = configOf s) (hs : runningIsConfigured s) : runningIsConfigured t := by
  unfold configOf at h
  simp only [Prod.mk.injEq] at h
  obtain ⟨h1, h2, h3, h4⟩ := h
  unfold runningIsConfigured at hs ⊢
  rw [h1, h2, h3, h4]
  exact hs

theorem readRows_configOf (sql : QtSql) (rows : List (QHash String)) (s : WundergroundComms) :
    configOf (readRows sql s rows) = configOf s := by
  induction rows generalizing s with
  | nil => rfl
  | cons row rest ih =>
    rw [readRows, ih]
    rfl

theorem ReadDatabase_configOf (sql : QtSql) (s : WundergroundComms) (e : Bool) :
    configOf (ReadDatabase sql s e).state = configOf s := by
  unfold ReadDatabase
  split
  · rfl
  · split
    · rfl
    · split
      · rfl
      · exact readRows_configOf sql _ s

/-- What `OpenDatabase` does to the configuration when it returns: the name,
the token and the running flag stay, the connection flag stays or becomes true. -/
theorem OpenDatabase_config (sql : QtSql) (s : WundergroundComms) (env : OpenEnv)
    (r : Outcome Bool) (h : OpenDatabase sql s env = some r) :
    r.state.m_PWSName = s.m_PWSName ∧ r.state.m_Token = s.m_Token ∧
    r.state.m_IsRunning = s.m_IsRunning ∧
    (r.state.m_DatabaseConnected = s.m_DatabaseConnected ∨
      r.state.m_DatabaseConnected = true) := by
  unfold OpenDatabase at h
  split at h
  · cases h; exact ⟨rfl, rfl, rfl, Or.inl rfl⟩
  · split at h
    · cases h; exact ⟨rfl, rfl, rfl, Or.inl rfl⟩
    · split at h
      · cases h; exact ⟨rfl, rfl, rfl, Or.inl rfl⟩
      · have hc : ∀ (c : Outcome Bool), configOf c.state = configOf s →
            (if (!c.ret) = true then
              some ⟨false, c.state, c.events ++
                [Event.Error ("Could not set up database in " ++ s.m_DatabaseFilename)]⟩
            else
              match completenessScan (ReadDatabase sql
                  { c.state with m_DatabaseConnected := true } env.selectError).state.m_WeatherData with
              | none => none
              | some scan =>
                some ⟨(ReadDatabase sql { c.state with m_DatabaseConnected := true }
                    env.selectError).ret,
                  { (ReadDatabase sql { c.state with m_DatabaseConnected := true }
                      env.selectError).state with
                    m_WeatherData := (ReadDatabase sql
                      { c.state with m_DatabaseConnected := true }
                      env.selectError).state.m_WeatherData.map touchDateTime },
                  c.events ++ (ReadDatabase sql { c.state with m_DatabaseConnected := true }
                    env.selectError).events ++ scan⟩) = some r →
            r.state.m_PWSName = s.m_PWSName ∧ r.state.m_Token = s.m_Token ∧
            r.state.m_IsRunning = s.m_IsRunning ∧
            (r.state.m_DatabaseConnected = s.m_DatabaseConnected ∨
              r.state.m_DatabaseConnected = true) := by
          intro c hcfg hr
          unfold configOf at hcfg
          simp only [Prod.mk.injEq] at hcfg
          split at hr
          · cases hr
            exact ⟨hcfg.1, hcfg.2.1, hcfg.2.2.1, Or.inl hcfg.2.2.2⟩
          · have hrd := ReadDatabase_configOf sql
              { c.state with m_DatabaseConnected := true } env.selectError
            unfold configOf at hrd
            simp only [Prod.mk.injEq] at hrd
            split at hr
            · cases hr
            · cases hr
              exact ⟨hrd.1.trans hcfg.1, hrd.2.1.trans hcfg.2.1, hrd.2.2.1.trans hcfg.2.2.1,
                Or.inr hrd.2.2.2⟩
        apply hc _ _ h
        split
        · unfold CreateDatabase
          split
          · rfl
          · split <;> rfl
        · rfl

theorem Periodic_GetUpdates_configOf (s : WundergroundComms) (now : QTime) (today : QDate) :
    configOf (Periodic_GetUpdates s now today).1 = configOf s := by
  unfold Periodic_GetUpdates
  dsimp only
  split
  · split
    · rfl
    · split <;> rfl
  · rfl

/-! ### The invariant of the running flag -/

theorem runningIsConfigured_reachable (s : WundergroundComms) (h : Reachable s) :
    runningIsConfigured s := by
  induction h with
  | constructed now time today wu_data sqlErrors =>
    constructor
    · intro hr; cases hr
    · intro ht; exact absurd rfl ht
  | @setPWSName s name _ ih =>
    unfold SetPWSName
    split
    · exact ih
    · split
      · exact ih
      · rename_i hn _
        refine ⟨fun hr => ?_, ih.2⟩
        have := ih.1 hr
        exact ⟨hn, this.2.1, this.2.2⟩
  | @setToken s token _ ih =>
    unfold SetToken
    split
    · exact ih
    · split
      · exact ih
      · split
        · exact ih
        · rename_i hne _ hf
          refine ⟨fun hr => ?_, fun _ => ?_⟩
          · have := ih.1 hr
            exact ⟨this.1, hne, this.2.2⟩
          · simpa using hf
  | @setDatabaseFile s filename _ ih =>
    unfold SetDatabaseFile
    split
    · exact ih
    · split <;> exact ih
  | @openDatabase s sql env r _ ho ih =>
    have hc := OpenDatabase_config sql s env r ho
    constructor
    · intro hr
      rw [hc.2.2.1] at hr
      have := ih.1 hr
      rw [hc.1, hc.2.1]
      refine ⟨this.1, this.2.1, ?_⟩
      rcases hc.2.2.2 with h1 | h1
      · rw [h1]; exact this.2.2
      · exact h1
    · rw [hc.2.1]; exact ih.2
  | @startUpdates s now now_text _ ih =>
    unfold StartUpdates
    split
    · exact ih
    · split
      · exact ih
      · split
        · exact ih
        · split
          · exact ih
          · rename_i _ hn ht hc
            refine ⟨fun _ => ⟨hn, ht, by simpa using hc⟩, ih.2⟩
  | @stopUpdates s now_text _ ih =>
    unfold StopUpdates
    split
    · exact ih
    · exact ⟨fun hr => (by cases hr), ih.2⟩
  | @tick s now today _ ih =>
    exact runningIsConfigured_of_configOf (Periodic_GetUpdates_configOf s now today) ih
  | @handleResponse s qt reply _ ih =>
    exact runningIsConfigured_of_configOf (HandleResponse_configOf qt s reply) ih

/-! ### The columns of the canonical record -/

theorem QHash.lookup_of_not_contains {β : Type} (h : QHash β) (k : String)
    (hc : QHash.contains h k = false) : h.lookup k = none := by
  unfold QHash.contains at hc
  cases hl : h.lookup k with
  | none => rfl
  | some x => rw [hl] at hc; cases hc

theorem metricStep_contains (qt : QtText) (m : QJsonObject) (acc : QHash String)
    (k c : String) :
    QHash.contains (metricStep qt m acc k) c = true ↔
      QHash.contains acc c = true ∨ (m_WUToDB.lookup k = some c ∧ c ≠ "") := by
  unfold metricStep
  by_cases hk : QHash.contains m_WUToDB k = true
  · have hl := QHash.lookup_of_contains m_WUToDB k "" hk
    simp only [hk, if_true]
    by_cases hv : QHash.value m_WUToDB k "" = ""
    · simp only [hv, if_true]
      constructor
      · exact Or.inl
      · rintro (h | ⟨h1, h2⟩)
        · exact h
        · rw [hl, hv] at h1
          exact absurd (Option.some.inj h1).symm h2
    · simp only [hv, if_false]
      rw [QHash.contains_insert]
      constructor
      · intro h
        simp only [Bool.or_eq_true, decide_eq_true_eq] at h
        rcases h with h | h
        · right
          rw [hl, h]
          exact ⟨rfl, hv⟩
        · exact Or.inl h
      · rintro (h | ⟨h1, _⟩)
        · simp [h]
        · rw [hl] at h1
          have := Option.some.inj h1
          simp [this]
  · have hk' : QHash.contains m_WUToDB k = false := by simpa using hk
    have hl := QHash.lookup_of_not_contains m_WUToDB k hk'
    simp only [hk', Bool.false_eq_true, if_false]
    constructor
    · exact Or.inl
    · rintro (h | ⟨h1, _⟩)
      · exact h
      · rw [hl] at h1; cases h1

theorem metric_foldl_contains (qt : QtText) (m : QJsonObject) (ks : List String)
    (acc : QHash String) (c : String) :
    QHash.contains (ks.foldl (metricStep qt m) acc) c = true ↔
      QHash.contains acc c = true ∨ ∃ k ∈ ks, m_WUToDB.lookup k = some c ∧ c ≠ "" := by
  induction ks generalizing acc with
  | nil => simp
  | cons k t ih =>
    rw [List.foldl_cons, ih, metricStep_contains]
    constructor
    · rintro ((h | h) | ⟨k', hk', h⟩)
      · exact Or.inl h
      · exact Or.inr ⟨k, List.mem_cons_self _ _, h⟩
      · exact Or.inr ⟨k', List.mem_cons_of_mem _ hk', h⟩
    · rintro (h | ⟨k', hk', h⟩)
      · exact Or.inl (Or.inl h)
      · rcases List.mem_cons.mp hk' with e | hk'
        · subst e; exact Or.inl (Or.inr h)
        · exact Or.inr ⟨k', hk', h⟩

theorem m_WUToDB_metric : m_WUToDB.lookup "metric" = none := by decide

theorem keyStep_contains (qt : QtText) (o : QJsonObject) (acc : QHash String) (k c : String) :
    QHash.contains (keyStep qt o acc k) c = true ↔
      QHash.contains acc c = true ∨
      (k = "metric" ∧ ∃ mk ∈ QJsonObject.keys (QJsonObject.value o "metric").toObject,
        m_WUToDB.lookup mk = some c ∧ c ≠ "") ∨
      (m_WUToDB.lookup k = some c ∧ c ≠ "") := by
  by_cases hm : k = "metric"
  · subst hm
    have e : keyStep qt o acc "metric" =
        (QJsonObject.keys (QJsonObject.value o "metric").toObject).foldl
          (metricStep qt (QJsonObject.value o "metric").toObject) acc := by
      unfold keyStep; simp
    rw [e, metric_foldl_contains]
    constructor
    · rintro (h | h)
      · exact Or.inl h
      · exact Or.inr (Or.inl ⟨rfl, h⟩)
    · rintro (h | ⟨_, h⟩ | ⟨h, _⟩)
      · exact Or.inl h
      · exact Or.inr h
      · rw [m_WUToDB_metric] at h; cases h
  · have e : ∀ v, QHash.contains (if QHash.contains m_WUToDB k = true then
          if QHash.value m_WUToDB k "" = "" then acc
          else QHash.insert acc (QHash.value m_WUToDB k "") v
        else acc) c = true ↔
        QHash.contains acc c = true ∨ (m_WUToDB.lookup k = some c ∧ c ≠ "") := by
      intro v
      have := metricStep_contains ⟨fun _ => v, fun t => t, fun t => t⟩ [] acc k c
      unfold metricStep at this
      exact this
    have e2 : keyStep qt o acc k =
        if QHash.contains m_WUToDB k = true then
          if QHash.value m_WUToDB k "" = "" then acc
          else QHash.insert acc (QHash.value m_WUToDB k "")
            (if k = "stationID" ∨ k = "tz" ∨ k = "obsTimeLocal" then
              (QJsonObject.value o k).toString
             else qt.number (QJsonObject.value o k).toDouble)
        else acc := by
      unfold keyStep
      simp only [hm, if_false]
      split
      · split
        · rfl
        · split <;> rfl
      · rfl
    rw [e2, e]
    constructor
    · rintro (h | h)
      · exact Or.inl h
      · exact Or.inr (Or.inr h)
    · rintro (h | ⟨h, _⟩ | h)
      · exact Or.inl h
      · exact absurd h hm
      · exact Or.inr h

theorem key_foldl_contains (qt : QtText) (o : QJsonObject) (ks : List String)
    (acc : QHash String) (c : String) :
    QHash.contains (ks.foldl (keyStep qt o) acc) c = true ↔
      QHash.contains acc c = true ∨
      ("metric" ∈ ks ∧ ∃ mk ∈ QJsonObject.keys (QJsonObject.value o "metric").toObject,
        m_WUToDB.lookup mk = some c ∧ c ≠ "") ∨
      (∃ k ∈ ks, m_WUToDB.lookup k = some c ∧ c ≠ "") := by
  induction ks generalizing acc with
  | nil => simp
  | cons k t ih =>
    rw [List.foldl_cons, ih, keyStep_contains]
    constructor
    · rintro ((h | ⟨hk, h⟩ | h) | ⟨hm, h⟩ | ⟨k', hk', h⟩)
      · exact Or.inl h
      · exact Or.inr (Or.inl ⟨by rw [hk]; exact List.mem_cons_self _ _, h⟩)
      · exact Or.inr (Or.inr ⟨k, List.mem_cons_self _ _, h⟩)
      · exact Or.inr (Or.inl ⟨List.mem_cons_of_mem _ hm, h⟩)
      · exact Or.inr (Or.inr ⟨k', List.mem_cons_of_mem _ hk', h⟩)
    · rintro (h | ⟨hm, h⟩ | ⟨k', hk', h⟩)
      · exact Or.inl (Or.inl h)
      · rcases List.mem_cons.mp hm with e | hm
        · exact Or.inl (Or.inr (Or.inl ⟨e.symm, h⟩))
        · exact Or.inr (Or.inl ⟨hm, h⟩)
      · rcases List.mem_cons.mp hk' with e | hk'
        · subst e; exact Or.inl (Or.inr (Or.inr h))
        · exact Or.inr (Or.inr ⟨k', hk', h⟩)

theorem record_contains (qt : QtText) (o : QJsonObject) (c : String) :
    QHash.contains (recordOf qt o) c = true ↔
      c ≠ "" ∧
      ((∃ k ∈ QJsonObject.keys o, m_WUToDB.lookup k = some c) ∨
       ("metric" ∈ QJsonObject.keys o ∧
        ∃ mk ∈ QJsonObject.keys (QJsonObject.value o "metric").toObject,
          m_WUToDB.lookup mk = some c)) := by
  rw [recordOf_foldl, key_foldl_contains]
  constructor
  · rintro (h | ⟨hm, mk, hmk, h1, h2⟩ | ⟨k, hk, h1, h2⟩)
    · cases h
    · exact ⟨h2, Or.inr ⟨hm, mk, hmk, h1⟩⟩
    · exact ⟨h2, Or.inl ⟨k, hk, h1⟩⟩
  · rintro ⟨h2, ⟨k, hk, h1⟩ | ⟨hm, mk, hmk, h1⟩⟩
    · exact Or.inr (Or.inr ⟨k, hk, h1, h2⟩)
    · exact Or.inr (Or.inl ⟨hm, mk, hmk, h1, h2⟩)

/-! ### The column station_id of a record -/

theorem keyStep_station_id_other (qt : QtText) (o : QJsonObject) (acc : QHash String)
    (a : String) (h1 : a ≠ "metric") (h2 : a ≠ "stationID") :
    QHash.value (keyStep qt o acc a) "station_id" "" = QHash.value acc "station_id" "" := by
  unfold keyStep
  simp only [h1, if_false]
  split
  · rename_i hc
    have hl := QHash.lookup_of_contains m_WUToDB a "" hc
    have hcol : "station_id" ≠ QHash.value m_WUToDB a "" := by
      intro he
      rw [← he] at hl
      exact h2 (m_WUToDB_station_id a hl)
    split
    · rfl
    · split
      · rw [QHash.value_insert, if_neg hcol]
      · rw [QHash.value_insert, if_neg hcol]
  · rfl

theorem foldl_station_id_other (qt : QtText) (o : QJsonObject) (ks : List String)
    (acc : QHash String) (h : ∀ a ∈ ks, a ≠ "metric" ∧ a ≠ "stationID") :
    QHash.value (ks.foldl (keyStep qt o) acc) "station_id" "" =
      QHash.value acc "station_id" "" := by
  induction ks generalizing acc with
  | nil => rfl
  | cons k t ih =>
    rw [List.foldl_cons, ih _ (fun a ha => h a (List.mem_cons_of_mem _ ha))]
    exact keyStep_station_id_other qt o acc k (h k (List.mem_cons_self _ _)).1
      (h k (List.mem_cons_self _ _)).2

theorem keyStep_stationID (qt : QtText) (o : QJsonObject) (acc : QHash String) :
    keyStep qt o acc "stationID" =
      QHash.insert acc "station_id" (QJsonObject.value o "stationID").toString := by
  have h1 : QHash.contains m_WUToDB "stationID" = true := by decide
  have h2 : QHash.value m_WUToDB "stationID" "" = "station_id" := by decide
  unfold keyStep
  simp [h1, h2]

theorem foldl_station_id (qt : QtText) (o : QJsonObject) (ks : List String)
    (acc : QHash String) (hs : ks.Pairwise (fun a b => QString.lt a b = true))
    (hm : "stationID" ∈ ks) :
    QHash.value (ks.foldl (keyStep qt o) acc) "station_id" "" =
      (QJsonObject.value o "stationID").toString := by
  induction ks generalizing acc with
  | nil => cases hm
  | cons k t ih =>
    rw [List.pairwise_cons] at hs
    rw [List.foldl_cons]
    by_cases hk : k = "stationID"
    · subst hk
      rw [foldl_station_id_other qt o t _ ?_, keyStep_stationID, QHash.value_insert, if_pos rfl]
      intro a ha
      have hlt := hs.1 a ha
      constructor
      · intro e; rw [e] at hlt; revert hlt; decide
      · intro e; rw [e] at hlt; revert hlt; decide
    · rcases List.mem_cons.mp hm with e | hm'
      · exact absurd e.symm hk
      · exact ih _ hs.2 hm'

/-- In a `QJsonObject` the column station_id of the canonical record is the
text of the top-level member "stationID". -/
theorem record_station_id (qt : QtText) (o : QJsonObject) (hs : o.isSorted)
    (hm : "stationID" ∈ QJsonObject.keys o) :
    (keyOf (recordOf qt o)).1 = (QJsonObject.value o "stationID").toString := by
  unfold keyOf
  rw [recordOf_foldl]
  exact foldl_station_id qt o _ [] hs hm

/-- An observation with the members "stationID" and "obsTimeLocal" has its
identity, whatever the two members hold. -/
theorem hasIdentity_of_present (qt : QtText) (o : QJsonObject)
    (h1 : "stationID" ∈ QJsonObject.keys o) (h2 : "obsTimeLocal" ∈ QJsonObject.keys o) :
    hasIdentity qt o = true := by
  unfold hasIdentity
  have a : QHash.contains (recordOf qt o) "station_id" = true :=
    (record_contains qt o "station_id").mpr
      ⟨by decide, Or.inl ⟨"stationID", h1, by decide⟩⟩
  have b : QHash.contains (recordOf qt o) "date_time" = true :=
    (record_contains qt o "date_time").mpr
      ⟨by decide, Or.inl ⟨"obsTimeLocal", h2, by decide⟩⟩
  rw [a, b]
  rfl

/-! ### The scan of the dates in `OpenDatabase` -/

theorem recordsOn_cons (r : QHash String) (rest : List (QHash String)) (t : String) :
    recordsOn (r :: rest) t = (if dateOfRecord r = t then 1 else 0) + recordsOn rest t := by
  unfold recordsOn
  rw [List.filter_cons]
  by_cases h : dateOfRecord r = t
  · simp [h]; omega
  · simp [h]

theorem countDates_value (records : List (QHash String)) (c : QHash Nat) (t : String) :
    QHash.value (countDates records c) t 0 = QHash.value c t 0 + recordsOn records t := by
  induction records generalizing c with
  | nil => simp [countDates, recordsOn]
  | cons r rest ih =>
    rw [countDates, ih, QHash.value_insert, recordsOn_cons]
    unfold dateOfRecord
    by_cases h : t = left10 (QHash.value r "date_time" "")
    · subst h; simp; omega
    · have h' : ¬ left10 (QHash.value r "date_time" "") = t := fun e => h e.symm
      simp [h, h']

theorem countDates_contains (records : List (QHash String)) (c : QHash Nat) (t : String) :
    QHash.contains (countDates records c) t = true ↔
      QHash.contains c t = true ∨ 0 < recordsOn records t := by
  induction records generalizing c with
  | nil => simp [countDates, recordsOn]
  | cons r rest ih =>
    rw [countDates, ih, QHash.contains_insert, recordsOn_cons]
    unfold dateOfRecord
    by_cases h : t = left10 (QHash.value r "date_time" "")
    · subst h; simp
    · have h' : ¬ left10 (QHash.value r "date_time" "") = t := fun e => h e.symm
      simp [h, h']

theorem addDays_succ (a : QDate) (i : Nat) :
    (a.addDays 1).addDays (i : Int) = a.addDays ((i + 1 : Nat) : Int) := by
  unfold QDate.addDays
  simp only [QDate.mk.injEq]
  push_cast
  omega

theorem addDays_zero (a : QDate) : a.addDays ((0 : Nat) : Int) = a := by
  unfold QDate.addDays
  simp

theorem scanLoop_no_data (c : QHash Nat) (mn mx : String) (n : Nat) (a : QDate) (t : String) :
    t ∈ (scanLoop c mn mx n a).1 ↔
      ∃ i : Nat, i < n ∧ t = (a.addDays (i : Int)).toString_yyyy_MM_dd ∧
        QHash.contains c t = false := by
  induction n generalizing a with
  | zero => simp [scanLoop]
  | succ n ih =>
    have step : t ∈ (scanLoop c mn mx (n + 1) a).1 ↔
        (t = a.toString_yyyy_MM_dd ∧ QHash.contains c t = false) ∨
        t ∈ (scanLoop c mn mx n (a.addDays 1)).1 := by
      rw [scanLoop]
      by_cases hc : QHash.contains c a.toString_yyyy_MM_dd = true
      · simp only [hc, Bool.not_true, Bool.false_eq_true, if_false]
        have hne : ∀ x, ¬ (x = a.toString_yyyy_MM_dd ∧ QHash.contains c x = false) := by
          rintro x ⟨rfl, h⟩; rw [hc] at h; cases h
        split <;> simp [hne]
      · have hc' : QHash.contains c a.toString_yyyy_MM_dd = false := by simpa using hc
        simp only [hc', Bool.not_false, if_true, List.mem_cons]
        constructor
        · rintro (h | h)
          · exact Or.inl ⟨h, by rw [h]; exact hc'⟩
          · exact Or.inr h
        · rintro (⟨h, _⟩ | h)
          · exact Or.inl h
          · exact Or.inr h
    rw [step, ih]
    constructor
    · rintro (⟨h1, h2⟩ | ⟨i, hi, h1, h2⟩)
      · exact ⟨0, by omega, by rw [addDays_zero]; exact h1, h2⟩
      · exact ⟨i + 1, by omega, by rw [← addDays_succ]; exact h1, h2⟩
    · rintro ⟨i, hi, h1, h2⟩
      cases i with
      | zero => left; rw [addDays_zero] at h1; exact ⟨h1, h2⟩
      | succ j => right; exact ⟨j, by omega, by rw [addDays_succ]; exact h1, h2⟩

theorem scanLoop_incomplete (c : QHash Nat) (mn mx : String) (n : Nat) (a : QDate)
    (t : String) :
    t ∈ (scanLoop c mn mx n a).2 ↔
      ∃ i : Nat, i < n ∧ t = (a.addDays (i : Int)).toString_yyyy_MM_dd ∧
        QHash.contains c t = true ∧ QHash.value c t 0 < 288 ∧ t ≠ mn ∧ t ≠ mx := by
  induction n generalizing a with
  | zero => simp [scanLoop]
  | succ n ih =>
    have step : t ∈ (scanLoop c mn mx (n + 1) a).2 ↔
        (t = a.toString_yyyy_MM_dd ∧ QHash.contains c t = true ∧
          QHash.value c t 0 < 288 ∧ t ≠ mn ∧ t ≠ mx) ∨
        t ∈ (scanLoop c mn mx n (a.addDays 1)).2 := by
      rw [scanLoop]
      by_cases hc : QHash.contains c a.toString_yyyy_MM_dd = true
      · simp only [hc, Bool.not_true, Bool.false_eq_true, if_false]
        by_cases hb : QHash.value c a.toString_yyyy_MM_dd 0 < 24 * 12 ∧
            a.toString_yyyy_MM_dd ≠ mn ∧ a.toString_yyyy_MM_dd ≠ mx
        · rw [if_pos hb]
          simp only [List.mem_cons]
          constructor
          · rintro (h | h)
            · left
              subst h
              exact ⟨rfl, hc, hb.1, hb.2.1, hb.2.2⟩
            · exact Or.inr h
          · rintro (⟨h, _⟩ | h)
            · exact Or.inl h
            · exact Or.inr h
        · rw [if_neg hb]
          constructor
          · exact Or.inr
          · rintro (⟨h, _, h3, h4, h5⟩ | h)
            · subst h
              exact absurd ⟨h3, h4, h5⟩ hb
            · exact h
      · have hc' : QHash.contains c a.toString_yyyy_MM_dd = false := by simpa using hc
        simp only [hc', Bool.not_false, if_true]
        constructor
        · exact Or.inr
        · rintro (⟨h, h2, _⟩ | h)
          · subst h; rw [hc'] at h2; cases h2
          · exact h
    rw [step, ih]
    constructor
    · rintro (⟨h1, h2⟩ | ⟨i, hi, h1, h2⟩)
      · exact ⟨0, by omega, by rw [addDays_zero]; exact h1, h2⟩
      · exact ⟨i + 1, by omega, by rw [← addDays_succ]; exact h1, h2⟩
    · rintro ⟨i, hi, h1, h2⟩
      cases i with
      | zero => left; rw [addDays_zero] at h1; exact ⟨h1, h2⟩
      | succ j => right; exact ⟨j, by omega, by rw [addDays_succ]; exact h1, h2⟩

/-- Every day from the first to the last date is reached by the loop. -/
theorem date_in_range (a b d : QDate) (h1 : a.jd ≤ d.jd) (h2 : d.jd ≤ b.jd) :
    ∃ i : Nat, i < (b.jd - a.jd + 1).toNat ∧ d = a.addDays (i : Int) := by
  refine ⟨(d.jd - a.jd).toNat, by omega, ?_⟩
  unfold QDate.addDays
  cases d with
  | mk j =>
    simp only [QDate.mk.injEq]
    simp only at h1 h2
    omega

theorem QHash.contains_of_mem_keys {β : Type} (h : QHash β) (k : String)
    (hk : k ∈ h.map Prod.fst) : QHash.contains h k = true := by
  unfold QHash.contains
  cases hl : h.lookup k with
  | some x => rfl
  | none =>
    exfalso
    rw [List.lookup_eq_none_iff] at hl
    obtain ⟨p, hp, hpk⟩ := List.mem_map.mp hk
    have := hl p hp
    rw [hpk] at this
    simp at this

theorem sortedDates_mem (records : List (QHash String)) (t : String)
    (h : t ∈ sortedDates records) : 0 < recordsOn records t := by
  unfold sortedDates at h
  have hp := (List.perm_insertionSort (fun a b => QString.le a b = true)
    ((countDates records []).map Prod.fst)).mem_iff.mp h
  have hc := QHash.contains_of_mem_keys _ _ hp
  rcases (countDates_contains records [] t).mp hc with h1 | h1
  · cases h1
  · exact h1

theorem completenessScan_eq (records : List (QHash String)) (min_date max_date : String)
    (rest : List String) (a b : QDate)
    (hs : sortedDates records = min_date :: rest) (hmax : max_date = rest.getLastD min_date)
    (ha : QDate.fromString_yyyy_MM_dd min_date = some a)
    (hb : QDate.fromString_yyyy_MM_dd max_date = some b) :
    completenessScan records = some [Event.StatusUpdate (Status.range min_date max_date
      (scanLoop (countDates records []) min_date max_date (b.jd - a.jd + 1).toNat a).2
      (scanLoop (countDates records []) min_date max_date (b.jd - a.jd + 1).toNat a).1)] := by
  unfold sortedDates at hs
  unfold completenessScan
  simp only [hs, ← hmax, ha, hb]

theorem getLastD_mem_cons {α : Type} (xs : List α) (x : α) : xs.getLastD x ∈ x :: xs := by
  induction xs generalizing x with
  | nil => exact List.mem_cons_self _ _
  | cons y ys ih =>
    rw [List.getLastD_cons]
    exact List.mem_cons_of_mem _ (ih y)

/-! ### Lemmas for reloading, reporting and the helpers for texts -/

theorem right_two (m : Nat) (h : m < 60) :
    QString.right ("0" ++ QString.number (m : Int)) 2 = QString.twoDigits m := by
  interval_cases m <;> rfl

theorem GetUptime_eq (s : WundergroundComms) (n : Nat) :
    GetUptime s (s.m_StartDateTime + n) =
      toString (n / 3600) ++ ":" ++ QString.twoDigits (n / 60 % 60) ++ ":" ++
        QString.twoDigits (n % 60) := by
  unfold GetUptime
  have e : s.m_StartDateTime + (n : Int) - s.m_StartDateTime = (n : Int) := by omega
  simp only [e]
  have h1 : (n : Int).tdiv 3600 = ((n / 3600 : Nat) : Int) := rfl
  have h2 : ((n : Int).tdiv 60).tmod 60 = ((n / 60 % 60 : Nat) : Int) := rfl
  have h3 : (n : Int).tmod 60 = ((n % 60 : Nat) : Int) := rfl
  rw [h1, h2, h3, right_two _ (Nat.mod_lt _ (by decide)), right_two _ (Nat.mod_lt _ (by decide))]
  rfl

theorem blocks_append (f : Char → List Char) (a b : List Char) :
    blocks f (a ++ b) = blocks f a ++ blocks f b := by
  induction a with
  | nil => rfl
  | cons c r ih =>
    show f c ++ blocks f (r ++ b) = (f c ++ blocks f r) ++ blocks f b
    rw [ih, List.append_assoc]

theorem blocks_blocks (f g : Char → List Char) (s : List Char) :
    blocks g (blocks f s) = blocks (fun c => blocks g (f c)) s := by
  induction s with
  | nil => rfl
  | cons c r ih => simp only [blocks, blocks_append, ih]

theorem blocks_congr (f g : Char → List Char) (h : ∀ c, f c = g c) (s : List Char) :
    blocks f s = blocks g s := by
  induction s with
  | nil => rfl
  | cons c r ih => simp only [blocks, ih, h]

theorem blocks_single (s : List Char) : blocks (fun c => [c]) s = s := by
  induction s with
  | nil => rfl
  | cons c r ih => simp only [blocks, ih, List.singleton_append]

/-- Replacing a single character acts on every character by itself. -/
theorem replaceFrom_char (b : Char) (after s : List Char) :
    QString.replaceFrom [b] after 0 s = blocks (fun c => if c = b then after else [c]) s := by
  induction s with
  | nil => rfl
  | cons c r ih =>
    by_cases h : c = b
    · subst h
      simp [QString.replaceFrom, blocks, ih]
    · have h2 : ¬ b = c := fun e => h e.symm
      simp [QString.replaceFrom, blocks, ih, h, h2]

/-- Replacing a code of three characters in a text made of blocks, where a
block is either a single character other than the percent sign or a percent
sign with two more characters, none of them a percent sign. -/
theorem replaceFrom_code (p q : Char) (after : List Char) (f : Char → List Char)
    (hf : ∀ c, (∃ d, f c = [d] ∧ d ≠ '%') ∨
      (∃ x y, f c = ['%', x, y] ∧ x ≠ '%' ∧ y ≠ '%')) (s : List Char) :
    QString.replaceFrom ['%', p, q] after 0 (blocks f s) =
      blocks (fun c => if f c = ['%', p, q] then after else f c) s := by
  induction s with
  | nil => rfl
  | cons c r ih =>
    rcases hf c with ⟨d, hd, hne⟩ | ⟨x, y, hxy, hx, hy⟩
    · have h1 : ¬ ('%' = d) := fun e => hne e.symm
      simp [blocks, hd, QString.replaceFrom, h1, ih]
    · by_cases hpq : x = p ∧ y = q
      · obtain ⟨rfl, rfl⟩ := hpq
        simp [blocks, hxy, QString.replaceFrom, ih]
      · have h1 : ¬ ('%' = x) := fun e => hx e.symm
        have h2 : ¬ ('%' = y) := fun e => hy e.symm
        have h3 : ¬ (p = x ∧ q = y) := fun e => hpq ⟨e.1.symm, e.2.symm⟩
        simp [blocks, hxy, QString.replaceFrom, h1, h2, h3, hpq, ih]

theorem percentCode_cases (c : Char) :
    c = '%' ∨ c = '\n' ∨ c = '\r' ∨ c = '<' ∨ c = '>' ∨ c = '"' ∨ c = '&' ∨
    (percentCode c = [c] ∧ c ≠ '%' ∧ c ≠ '\n' ∧ c ≠ '\r' ∧ c ≠ '<' ∧ c ≠ '>' ∧ c ≠ '"' ∧
      c ≠ '&') := by
  by_cases h1 : c = '%'
  · exact Or.inl h1
  by_cases h2 : c = '\n'
  · exact Or.inr (Or.inl h2)
  by_cases h3 : c = '\r'
  · exact Or.inr (Or.inr (Or.inl h3))
  by_cases h4 : c = '<'
  · exact Or.inr (Or.inr (Or.inr (Or.inl h4)))
  by_cases h5 : c = '>'
  · exact Or.inr (Or.inr (Or.inr (Or.inr (Or.inl h5))))
  by_cases h6 : c = '"'
  · exact Or.inr (Or.inr (Or.inr (Or.inr (Or.inr (Or.inl h6)))))
  by_cases h7 : c = '&'
  · exact Or.inr (Or.inr (Or.inr (Or.inr (Or.inr (Or.inr (Or.inl h7))))))
  refine Or.inr (Or.inr (Or.inr (Or.inr (Or.inr (Or.inr (Or.inr ⟨?_, h1, h2, h3, h4, h5, h6, h7⟩))))))
  simp only [percentCode, h1, h2, h3, h4, h5, h6, h7, if_false]

/-- The seven replacements of `PercentEncode` encode every character by itself. -/
theorem PercentEncode_data (s : String) :
    (StringHelper.PercentEncode s).data = blocks percentCode s.data := by
  unfold StringHelper.PercentEncode QString.replace
  show QString.replaceFrom ['&'] _ 0 (QString.replaceFrom ['"'] _ 0 (QString.replaceFrom ['>'] _ 0
    (QString.replaceFrom ['<'] _ 0 (QString.replaceFrom ['\r'] _ 0 (QString.replaceFrom ['\n'] _ 0
    (QString.replaceFrom ['%'] _ 0 s.data)))))) = _
  simp only [replaceFrom_char, blocks_blocks]
  apply blocks_congr
  intro c
  rcases percentCode_cases c with h | h | h | h | h | h | h | h
  · subst h; decide
  · subst h; decide
  · subst h; decide
  · subst h; decide
  · subst h; decide
  · subst h; decide
  · subst h; decide
  · obtain ⟨hc, h1, h2, h3, h4, h5, h6, h7⟩ := h
    simp [hc, blocks, h1, h2, h3, h4, h5, h6, h7]

theorem decodeRule_length (k : Nat) : (decodeRule k).1.length = 3 := by
  rcases k with _ | _ | _ | _ | _ | _ | _ | k <;> rfl

theorem decodeStage_other (c : Char) (hc : percentCode c = [c]) (k : Nat) :
    decodeStage k c = [c] := by
  induction k with
  | zero => exact hc
  | succ k ih =>
    have hne : ¬ ([c] = (decodeRule k).1) := by
      intro e
      have := congrArg List.length e
      rw [decodeRule_length] at this
      cases this
    simp only [decodeStage, ih, hne, if_false]

theorem decodeStage_blocks (k : Nat) (hk : k < 7) (c : Char) :
    (∃ d, decodeStage k c = [d] ∧ d ≠ '%') ∨
      (∃ x y, decodeStage k c = ['%', x, y] ∧ x ≠ '%' ∧ y ≠ '%') := by
  have key : ∀ l : List Char, (l.length = 1 ∧ l.head? ≠ some '%') ∨
      (l.length = 3 ∧ l.head? = some '%' ∧ l.tail.all (fun x => x ≠ '%') = true) →
      (∃ d, l = [d] ∧ d ≠ '%') ∨ (∃ x y, l = ['%', x, y] ∧ x ≠ '%' ∧ y ≠ '%') := by
    intro l h
    rcases h with ⟨h1, h2⟩ | ⟨h1, h2, h3⟩
    · match l, h1, h2 with
      | [d], _, h2 => exact Or.inl ⟨d, rfl, fun e => h2 (by rw [e]; rfl)⟩
    · match l, h1, h2, h3 with
      | [a, x, y], _, h2, h3 =>
        simp at h2 h3
        subst h2
        exact Or.inr ⟨x, y, rfl, h3.1, h3.2⟩
  apply key
  rcases percentCode_cases c with h | h | h | h | h | h | h | h
  · subst h; interval_cases k <;> decide
  · subst h; interval_cases k <;> decide
  · subst h; interval_cases k <;> decide
  · subst h; interval_cases k <;> decide
  · subst h; interval_cases k <;> decide
  · subst h; interval_cases k <;> decide
  · subst h; interval_cases k <;> decide
  · obtain ⟨hc, h1, h2, h3, h4, h5, h6, h7⟩ := h
    left
    rw [decodeStage_other c hc]
    exact ⟨rfl, fun e => h1 (by simpa using e)⟩

theorem decodeStage_last (c : Char) : decodeStage 7 c = [c] := by
  rcases percentCode_cases c with h | h | h | h | h | h | h | h
  · subst h; decide
  · subst h; decide
  · subst h; decide
  · subst h; decide
  · subst h; decide
  · subst h; decide
  · subst h; decide
  · obtain ⟨hc, h1, h2, h3, h4, h5, h6, h7⟩ := h
    exact decodeStage_other c hc 7

theorem decode_step (k : Nat) (hk : k < 7) (p q : Char) (after : List Char)
    (h : decodeRule k = (['%', p, q], after)) (s : List Char) :
    QString.replaceFrom ['%', p, q] after 0 (blocks (decodeStage k) s) =
      blocks (decodeStage (k + 1)) s := by
  rw [replaceFrom_code _ _ _ _ (decodeStage_blocks k hk)]
  apply blocks_congr
  intro c
  simp only [decodeStage, h]

theorem PercentDecode_blocks (s : List Char) :
    (StringHelper.PercentDecode (String.mk (blocks percentCode s))).data = s := by
  unfold StringHelper.PercentDecode QString.replace
  show QString.replaceFrom ['%', '2', '5'] _ 0 (QString.replaceFrom ['%', '2', '6'] _ 0
    (QString.replaceFrom ['%', '2', '2'] _ 0 (QString.replaceFrom ['%', '3', 'e'] _ 0
    (QString.replaceFrom ['%', '3', 'c'] _ 0 (QString.replaceFrom ['%', '0', 'd'] _ 0
    (QString.replaceFrom ['%', '0', 'a'] _ 0 (blocks (decodeStage 0) s))))))) = s
  rw [decode_step 0 (by decide) _ _ _ rfl, decode_step 1 (by decide) _ _ _ rfl,
    decode_step 2 (by decide) _ _ _ rfl, decode_step 3 (by decide) _ _ _ rfl,
    decode_step 4 (by decide) _ _ _ rfl, decode_step 5 (by decide) _ _ _ rfl,
    decode_step 6 (by decide) _ _ _ rfl,
    blocks_congr _ (fun c => [c]) decodeStage_last, blocks_single]

theorem mem_blocks (f : Char → List Char) (s : List Char) (c : Char)
    (h : c ∈ blocks f s) : ∃ d, c ∈ f d := by
  induction s with
  | nil => cases h
  | cons a r ih =>
    rcases List.mem_append.mp h with h1 | h1
    · exact ⟨a, h1⟩
    · exact ih h1

theorem percentCode_clean (d c : Char) (h : c ∈ percentCode d) :
    c ≠ '\n' ∧ c ≠ '\r' ∧ c ≠ '<' ∧ c ≠ '>' ∧ c ≠ '"' ∧ c ≠ '&' := by
  rcases percentCode_cases d with e | e | e | e | e | e | e | e
  · subst e; revert c; decide
  · subst e; revert c; decide
  · subst e; revert c; decide
  · subst e; revert c; decide
  · subst e; revert c; decide
  · subst e; revert c; decide
  · subst e; revert c; decide
  · obtain ⟨hc, h1, h2, h3, h4, h5, h6, h7⟩ := e
    rw [hc] at h
    have : c = d := by simpa using h
    subst this
    exact ⟨h2, h3, h4, h5, h6, h7⟩

/-- The loop over observations that are all new and have distinct keys, while
every insert succeeds. -/
theorem observationLoop_fresh (qt : QtText) (L : List QJsonValue) (s : WundergroundComms)
    (acc : Summary) (hs : insertsSucceed s)
    (hid : ∀ v ∈ L, hasIdentity qt v.toObject = true)
    (hd : (L.map (fun v => keyOf (recordOf qt v.toObject))).Nodup)
    (hn : ∀ v ∈ L, knows s (recordOf qt v.toObject) = false) :
    (observationLoop qt s L acc).1.ret = true ∧
    saveCalls (observationLoop qt s L acc).1.events = L.map (fun v => recordOf qt v.toObject) ∧
    (observationLoop qt s L acc).1.state.wu_data =
      s.wu_data ++ L.map (fun v => rowOf (recordOf qt v.toObject)) ∧
    (∀ a b, isKnown (observationLoop qt s L acc).1.state.m_StationToDateTimes a b =
      (isKnown s.m_StationToDateTimes a b ||
        decide ((a, b) ∈ L.map (fun v => keyOf (recordOf qt v.toObject))))) := by
  induction L generalizing s acc with
  | nil => exact ⟨rfl, rfl, by simp [observationLoop], fun a b => by simp [observationLoop]⟩
  | cons w rest ih =>
    have hidw := hid w (List.mem_cons_self _ _)
    have hnw := hn w (List.mem_cons_self _ _)
    have hok := PSO_ok qt s w.toObject hs
    have hnew : isNew qt s w.toObject = true := by
      unfold isNew; rw [hidw, hnw]; rfl
    rw [hidw] at hok
    simp only [hnew, if_true] at hok
    have hsave : saveCalls (Parse_SingleObservation qt s w.toObject).events =
        [recordOf qt w.toObject] := by
      rcases PSO_cases qt s w.toObject with h | h | h
      · rw [hidw] at h; cases h.1
      · rw [hnw] at h; cases h.2.1
      · exact h.2.2.2.2.1
    rw [List.map_cons, List.nodup_cons] at hd
    have hn2 : ∀ v ∈ rest,
        knows (Parse_SingleObservation qt s w.toObject).state (recordOf qt v.toObject) = false := by
      intro v hv
      unfold knows
      rw [hok.2.2.2.2, isKnown_markKnown]
      have h1 := hn v (List.mem_cons_of_mem _ hv)
      unfold knows at h1
      rw [h1]
      have hne : keyOf (recordOf qt v.toObject) ≠ keyOf (recordOf qt w.toObject) := by
        intro e
        exact hd.1 (e ▸ List.mem_map_of_mem (fun v => keyOf (recordOf qt v.toObject)) hv)
      by_cases e1 : (keyOf (recordOf qt v.toObject)).1 = (keyOf (recordOf qt w.toObject)).1
      · by_cases e2 : (keyOf (recordOf qt v.toObject)).2 = (keyOf (recordOf qt w.toObject)).2
        · exact absurd (Prod.ext e1 e2) hne
        · simp [e2]
      · simp [e1]
    have h := ih (Parse_SingleObservation qt s w.toObject).state
      (Summary.update qt acc w.toObject) hok.2.1
      (fun v hv => hid v (List.mem_cons_of_mem _ hv)) hd.2 hn2
    rw [observationLoop_cons]
    simp only [hok.1, if_true]
    refine ⟨h.1, ?_, ?_, ?_⟩
    · rw [saveCalls_append, hsave, h.2.1]; rfl
    · rw [h.2.2.1, hok.2.2.2.1]
      simp [rowOf]
    · intro a b
      rw [h.2.2.2 a b, hok.2.2.2.2, isKnown_markKnown]
      by_cases e : (a, b) = keyOf (recordOf qt w.toObject)
      · have e1 : a = (keyOf (recordOf qt w.toObject)).1 := by rw [← e]
        have e2 : b = (keyOf (recordOf qt w.toObject)).2 := by rw [← e]
        simp [List.mem_cons, e, e1, e2]
      · have : ¬ (a = (keyOf (recordOf qt w.toObject)).1 ∧
            b = (keyOf (recordOf qt w.toObject)).2) := fun ⟨x, y⟩ => e (Prod.ext x y)
        by_cases e1 : a = (keyOf (recordOf qt w.toObject)).1
        · have e2 : ¬ b = (keyOf (recordOf qt w.toObject)).2 := fun y => this ⟨e1, y⟩
          simp [List.mem_cons, e, e2]
        · simp [List.mem_cons, e, e1]

/-- What the loop of `ReadDatabase` over the rows leaves. -/
theorem readRows_spec (sql : QtSql) (rows : List (QHash String)) (s : WundergroundComms) :
    (readRows sql s rows).m_WeatherData = s.m_WeatherData ++ rows.map (readLine sql) ∧
    (readRows sql s rows).wu_data = s.wu_data ∧
    (readRows sql s rows).m_DatabaseConnected = s.m_DatabaseConnected ∧
    (readRows sql s rows).sqlErrors = s.sqlErrors ∧
    (∀ a b, isKnown (readRows sql s rows).m_StationToDateTimes a b =
      (isKnown s.m_StationToDateTimes a b ||
        decide ((a, b) ∈ rows.map (fun row => keyOf (readLine sql row))))) := by
  induction rows generalizing s with
  | nil => exact ⟨by simp [readRows], rfl, rfl, rfl, fun a b => by simp [readRows]⟩
  | cons row rest ih =>
    rw [readRows]
    have h := ih { s with
      m_WeatherData := s.m_WeatherData ++ [readLine sql row],
      m_StationToDateTimes := markKnown s.m_StationToDateTimes
        (QHash.value (readLine sql row) "station_id" "")
        (QHash.value (readLine sql row) "date_time" "") }
    refine ⟨?_, h.2.1, h.2.2.1, h.2.2.2.1, ?_⟩
    · rw [h.1]; simp
    · intro a b
      rw [h.2.2.2.2 a b]
      simp only [isKnown_markKnown, List.map_cons, List.mem_cons, keyOf, Prod.mk.injEq]
      by_cases e1 : a = QHash.value (readLine sql row) "station_id" ""
      · by_cases e2 : b = QHash.value (readLine sql row) "date_time" ""
        · simp [e1, e2]
        · simp [e1, e2]
      · simp [e1]

theorem ReadDatabase_success (sql : QtSql) (s : WundergroundComms) (e : Bool)
    (h : (ReadDatabase sql s e).ret = true) :
    s.m_WeatherData = [] ∧ (ReadDatabase sql s e).state = readRows sql s s.wu_data := by
  unfold ReadDatabase at h ⊢
  by_cases h1 : s.m_WeatherData ≠ []
  · rw [if_pos h1] at h; cases h
  · rw [if_neg h1] at h ⊢
    by_cases h2 : (!s.m_DatabaseConnected) = true
    · rw [if_pos h2] at h; cases h
    · rw [if_neg h2] at h ⊢
      by_cases h3 : e = true
      · rw [if_pos h3] at h; cases h
      · rw [if_neg h3]
        exact ⟨not_not.mp h1, rfl⟩

theorem isKnown_nil (a b : String) : isKnown [] a b = false := rfl

theorem ltCodes_irrefl (a : List Char) : QString.ltCodes a a = false := by
  induction a with
  | nil => rfl
  | cons x xs ih => simp [QString.ltCodes, ih]

theorem ltCodes_asymm (a b : List Char) (h : QString.ltCodes a b = true) :
    QString.ltCodes b a = false := by
  induction a generalizing b with
  | nil =>
    cases b with
    | nil => rfl
    | cons y ys => rfl
  | cons x xs ih =>
    cases b with
    | nil => simp [QString.ltCodes] at h
    | cons y ys =>
      simp only [QString.ltCodes] at h ⊢
      by_cases h1 : x.toNat < y.toNat
      · have h2 : ¬ y.toNat < x.toNat := by omega
        simp [h1, h2]
      · by_cases h2 : y.toNat < x.toNat
        · simp [h1, h2] at h
        · simp only [h1, h2, if_false] at h ⊢
          exact ih ys h

/-- If `a < c` then every `b` has `a < b` or `b < c`. -/
theorem ltCodes_cotrans (a b c : List Char) (h : QString.ltCodes a c = true) :
    QString.ltCodes a b = true ∨ QString.ltCodes b c = true := by
  induction a generalizing b c with
  | nil =>
    cases c with
    | nil => simp [QString.ltCodes] at h
    | cons z zs =>
      cases b with
      | nil => right; rfl
      | cons y ys => left; rfl
  | cons x xs ih =>
    cases c with
    | nil => simp [QString.ltCodes] at h
    | cons z zs =>
      cases b with
      | nil => right; rfl
      | cons y ys =>
        simp only [QString.ltCodes] at h ⊢
        by_cases h1 : x.toNat < y.toNat
        · left; simp [h1]
        · by_cases h2 : y.toNat < z.toNat
          · right; simp [h2]
          · by_cases h3 : x.toNat < z.toNat
            · omega
            · by_cases h4 : z.toNat < x.toNat
              · simp [h3, h4] at h
              · have e1 : ¬ y.toNat < x.toNat := by omega
                have e2 : ¬ z.toNat < y.toNat := by omega
                simp only [h1, h2, h3, h4, e1, e2, if_false] at h ⊢
                exact ih ys zs h

theorem QString.le_refl (a : String) : QString.le a a = true := by
  unfold QString.le QString.lt
  rw [ltCodes_irrefl]; rfl

theorem QString.le_trans (a b c : String) (h1 : QString.le a b = true)
    (h2 : QString.le b c = true) : QString.le a c = true := by
  unfold QString.le QString.lt at *
  cases h : QString.ltCodes c.data a.data with
  | false => rfl
  | true =>
    rcases ltCodes_cotrans _ b.data _ h with h3 | h3
    · rw [h3] at h2; cases h2
    · rw [h3] at h1; cases h1

theorem QString.qMin_le_left (a b : String) : QString.le (QString.qMin a b) a = true := by
  unfold QString.qMin
  cases h : QString.lt b a with
  | false => simp only [Bool.false_eq_true, if_false]; exact QString.le_refl a
  | true =>
    simp only [if_true]
    unfold QString.le
    unfold QString.lt at h ⊢
    rw [ltCodes_asymm _ _ h]; rfl

theorem QString.qMin_le_right (a b : String) : QString.le (QString.qMin a b) b = true := by
  unfold QString.qMin
  cases h : QString.lt b a with
  | false => simp only [Bool.false_eq_true, if_false]; unfold QString.le; rw [h]; rfl
  | true => simp only [if_true]; exact QString.le_refl b

theorem QString.le_qMax_left (a b : String) : QString.le a (QString.qMax a b) = true := by
  unfold QString.qMax
  cases h : QString.lt a b with
  | false => simp only [Bool.false_eq_true, if_false]; exact QString.le_refl a
  | true =>
    simp only [if_true]
    unfold QString.le
    unfold QString.lt at h ⊢
    rw [ltCodes_asymm _ _ h]; rfl

theorem QString.le_qMax_right (a b : String) : QString.le b (QString.qMax a b) = true := by
  unfold QString.qMax
  cases h : QString.lt a b with
  | false => simp only [Bool.false_eq_true, if_false]; unfold QString.le; rw [h]; rfl
  | true => simp only [if_true]; exact QString.le_refl b

theorem QString.qMin_cases (a b : String) : QString.qMin a b = a ∨ QString.qMin a b = b := by
  unfold QString.qMin
  split
  · exact Or.inr rfl
  · exact Or.inl rfl

theorem QString.qMax_cases (a b : String) : QString.qMax a b = a ∨ QString.qMax a b = b := by
  unfold QString.qMax
  split
  · exact Or.inr rfl
  · exact Or.inl rfl

theorem digitChar_code (x : Nat) (h : x < 10) : (Nat.digitChar x).toNat = 48 + x := by
  interval_cases x <;> rfl

theorem clockText_data (h m s : Nat) :
    (clockText h m s).data =
      Nat.digitChar (h / 10 % 10) :: Nat.digitChar (h % 10) :: ':' ::
       Nat.digitChar (m / 10 % 10) :: Nat.digitChar (m % 10) :: ':' ::
       Nat.digitChar (s / 10 % 10) :: Nat.digitChar (s % 10) :: [] := rfl

theorem ltCodes_twoDigits (n n' : Nat) (hn : n < 100) (hn' : n' < 100) (r r' : List Char) :
    QString.ltCodes (Nat.digitChar (n / 10 % 10) :: Nat.digitChar (n % 10) :: r)
      (Nat.digitChar (n' / 10 % 10) :: Nat.digitChar (n' % 10) :: r') =
      if n < n' then true else if n' < n then false else QString.ltCodes r r' := by
  simp only [QString.ltCodes]
  rw [digitChar_code (n / 10 % 10) (by omega), digitChar_code (n % 10) (by omega),
    digitChar_code (n' / 10 % 10) (by omega), digitChar_code (n' % 10) (by omega)]
  split_ifs <;> first | rfl | omega

theorem ltCodes_same (c : Char) (r r' : List Char) :
    QString.ltCodes (c :: r) (c :: r') = QString.ltCodes r r' := by
  simp only [QString.ltCodes, Nat.lt_irrefl, if_false]

/-- On the texts hh:mm:ss the order of `QString` is the order of the clock. -/
theorem clock_order (h m s h' m' s' : Nat) (hh : h < 24) (hm : m < 60) (hs : s < 60)
    (hh' : h' < 24) (hm' : m' < 60) (hs' : s' < 60) :
    QString.le (clockText h m s) (clockText h' m' s') = true ↔
      h * 3600 + m * 60 + s ≤ h' * 3600 + m' * 60 + s' := by
  unfold QString.le QString.lt
  rw [clockText_data, clockText_data,
    ltCodes_twoDigits h' h (by omega) (by omega), ltCodes_same,
    ltCodes_twoDigits m' m (by omega) (by omega), ltCodes_same,
    ltCodes_twoDigits s' s (by omega) (by omega)]
  split_ifs <;> simp [QString.ltCodes] <;> omega

/-- After a loop that succeeds, the local variables of `Parse_Observations`
have been updated once for every observation, in order. -/
theorem observationLoop_summary (qt : QtText) (L : List QJsonValue) (s : WundergroundComms)
    (acc : Summary) (h : (observationLoop qt s L acc).1.ret = true) :
    (observationLoop qt s L acc).2 =
      L.foldl (fun a v => Summary.update qt a v.toObject) acc := by
  induction L generalizing s acc with
  | nil => rfl
  | cons w rest ih =>
    rw [observationLoop_cons] at h ⊢
    by_cases hr : (Parse_SingleObservation qt s w.toObject).ret = true
    · simp only [hr, if_true] at h ⊢
      rw [List.foldl_cons]
      exact ih _ _ h
    · simp only [hr, if_false] at h
      cases h

theorem update_min_max (qt : QtText) (acc : Summary) (v : QJsonValue) :
    (Summary.update qt acc v.toObject).min_time =
      (if acc.min_time = "" then timeOf qt v else QString.qMin acc.min_time (timeOf qt v)) ∧
    (Summary.update qt acc v.toObject).max_time =
      (if acc.max_time = "" then timeOf qt v else QString.qMax acc.max_time (timeOf qt v)) :=
  ⟨rfl, rfl⟩

/-- The bounds after more observations, once both bounds are set. -/
theorem fold_bounds (qt : QtText) (L : List QJsonValue) (acc : Summary)
    (h1 : acc.min_time ≠ "") (h2 : acc.max_time ≠ "")
    (ht : ∀ v ∈ L, timeOf qt v ≠ "") :
    ((L.foldl (fun a v => Summary.update qt a v.toObject) acc).min_time = acc.min_time ∨
      (L.foldl (fun a v => Summary.update qt a v.toObject) acc).min_time ∈ L.map (timeOf qt)) ∧
    ((L.foldl (fun a v => Summary.update qt a v.toObject) acc).max_time = acc.max_time ∨
      (L.foldl (fun a v => Summary.update qt a v.toObject) acc).max_time ∈ L.map (timeOf qt)) ∧
    QString.le (L.foldl (fun a v => Summary.update qt a v.toObject) acc).min_time acc.min_time
      = true ∧
    QString.le acc.max_time (L.foldl (fun a v => Summary.update qt a v.toObject) acc).max_time
      = true ∧
    ∀ v ∈ L,
      QString.le (L.foldl (fun a v => Summary.update qt a v.toObject) acc).min_time (timeOf qt v)
        = true ∧
      QString.le (timeOf qt v) (L.foldl (fun a v => Summary.update qt a v.toObject) acc).max_time
        = true := by
  induction L generalizing acc with
  | nil =>
    exact ⟨Or.inl rfl, Or.inl rfl, QString.le_refl _, QString.le_refl _,
      fun v hv => by cases hv⟩
  | cons w rest ih =>
    have hw := ht w (List.mem_cons_self _ _)
    have hu := update_min_max qt acc w
    simp only [h1, h2, if_false] at hu
    have hmin : (Summary.update qt acc w.toObject).min_time ≠ "" := by
      rw [hu.1]
      rcases QString.qMin_cases acc.min_time (timeOf qt w) with e | e <;> rw [e] <;> assumption
    have hmax : (Summary.update qt acc w.toObject).max_time ≠ "" := by
      rw [hu.2]
      rcases QString.qMax_cases acc.max_time (timeOf qt w) with e | e <;> rw [e] <;> assumption
    have h := ih (Summary.update qt acc w.toObject) hmin hmax
      (fun v hv => ht v (List.mem_cons_of_mem _ hv))
    rw [List.foldl_cons]
    rw [hu.1, hu.2] at h
    rw [List.map_cons]
    refine ⟨?_, ?_, ?_, ?_, ?_⟩
    · rcases h.1 with e | e
      · rw [e]
        rcases QString.qMin_cases acc.min_time (timeOf qt w) with e2 | e2
        · exact Or.inl e2
        · exact Or.inr (by rw [e2]; exact List.mem_cons_self _ _)
      · exact Or.inr (List.mem_cons_of_mem _ e)
    · rcases h.2.1 with e | e
      · rw [e]
        rcases QString.qMax_cases acc.max_time (timeOf qt w) with e2 | e2
        · exact Or.inl e2
        · exact Or.inr (by rw [e2]; exact List.mem_cons_self _ _)
      · exact Or.inr (List.mem_cons_of_mem _ e)
    · exact QString.le_trans _ _ _ h.2.2.1 (QString.qMin_le_left _ _)
    · exact QString.le_trans _ _ _ (QString.le_qMax_left _ _) h.2.2.2.1
    · intro v hv
      rcases List.mem_cons.mp hv with rfl | hv
      · exact ⟨QString.le_trans _ _ _ h.2.2.1 (QString.qMin_le_right _ _),
          QString.le_trans _ _ _ (QString.le_qMax_right _ _) h.2.2.2.1⟩
      · exact h.2.2.2.2 v hv

/-- The bounds after the loop over a list of observations that is not empty. -/
theorem fold_range (qt : QtText) (L : List QJsonValue) (hne : L ≠ [])
    (ht : ∀ v ∈ L, timeOf qt v ≠ "") :
    (L.foldl (fun a v => Summary.update qt a v.toObject) Summary.init).min_time
      ∈ L.map (timeOf qt) ∧
    (L.foldl (fun a v => Summary.update qt a v.toObject) Summary.init).max_time
      ∈ L.map (timeOf qt) ∧
    ∀ v ∈ L,
      QString.le (L.foldl (fun a v => Summary.update qt a v.toObject) Summary.init).min_time
        (timeOf qt v) = true ∧
      QString.le (timeOf qt v)
        (L.foldl (fun a v => Summary.update qt a v.toObject) Summary.init).max_time = true := by
  cases L with
  | nil => exact absurd rfl hne
  | cons w rest =>
    have hw := ht w (List.mem_cons_self _ _)
    have e1 : (Summary.update qt Summary.init w.toObject).min_time = timeOf qt w := rfl
    have e2 : (Summary.update qt Summary.init w.toObject).max_time = timeOf qt w := rfl
    have h := fold_bounds qt rest (Summary.update qt Summary.init w.toObject)
      (by rw [e1]; exact hw) (by rw [e2]; exact hw)
      (fun v hv => ht v (List.mem_cons_of_mem _ hv))
    rw [e1, e2] at h
    rw [List.foldl_cons, List.map_cons]
    refine ⟨?_, ?_, ?_⟩
    · rcases h.1 with e | e
      · rw [e]; exact List.mem_cons_self _ _
      · exact List.mem_cons_of_mem _ e
    · rcases h.2.1 with e | e
      · rw [e]; exact List.mem_cons_self _ _
      · exact List.mem_cons_of_mem _ e
    · intro v hv
      rcases List.mem_cons.mp hv with rfl | hv
      · exact ⟨h.2.2.1, h.2.2.2.1⟩
      · exact h.2.2.2.2 v hv

theorem reportedRanges_of_counts (events : List Event) (h : reportedCounts events = []) :
    reportedRanges events = [] := by
  induction events with
  | nil => rfl
  | cons e rest ih =>
    have hc : reportedCounts (e :: rest) = reportedCounts [e] ++ reportedCounts rest :=
      reportedCounts_append [e] rest
    rw [hc] at h
    have h1 := (List.append_eq_nil.mp h).1
    have h2 := ih (List.append_eq_nil.mp h).2
    have hr : reportedRanges (e :: rest) = reportedRanges [e] ++ reportedRanges rest := by
      unfold reportedRanges
      exact List.filterMap_append [e] rest _
    rw [hr, h2, List.append_nil]
    cases e with
    | StatusUpdate m =>
      cases m with
      | obtained d n lo hi => cases h1
      | _ => rfl
    | _ => rfl

theorem PO_reportedRanges (qt : QtText) (s : WundergroundComms) (resp : QJsonObject)
    (hr : (Parse_Observations qt s resp).ret = true) :
    reportedRanges (Parse_Observations qt s resp).events =
      [(((observationsOf resp).foldl (fun a v => Summary.update qt a v.toObject)
          Summary.init).min_time,
        ((observationsOf resp).foldl (fun a v => Summary.update qt a v.toObject)
          Summary.init).max_time)] := by
  have hret := PO_ret qt s resp
  rw [hr] at hret
  have hsum := observationLoop_summary qt (observationsOf resp) s Summary.init hret.symm
  have h := responseLoop_eq qt resp (QJsonObject.keys resp) s Summary.init
  unfold observationsOf at hsum hret
  rw [← h.1] at hret
  rw [← h.2.2.1] at hsum
  have h0 := reportedRanges_of_counts _ h.2.2.2.2
  rw [PO_unfold]
  simp only [← hret, if_true]
  unfold observationsOf
  rw [← hsum]
  unfold reportedRanges at h0 ⊢
  rw [List.filterMap_append, h0]
  rfl

theorem unknownKeyReason_head (k : String) : (unknownKeyReason k).data.head? = some 'U' := by
  unfold unknownKeyReason
  simp [String.data_append]

theorem unknownKeyReason_last (k : String) :
    (unknownKeyReason k).data.reverse.head? = some 'n' := by
  unfold unknownKeyReason
  simp [String.data_append]

theorem unknownKeyReason_inj (k k' : String) (h : unknownKeyReason k = unknownKeyReason k') :
    k = k' := by
  unfold unknownKeyReason at h
  have h1 := congrArg String.data h
  simp only [String.data_append] at h1
  have h2 := List.append_cancel_right h1
  have h3 := List.append_cancel_left h2
  exact String.ext h3

theorem metricReason_ne (x k : String) :
    "Unknown key \"" ++ x ++ "\" in observation/metric" ≠ unknownKeyReason k := by
  intro h
  have h1 := congrArg (fun s => s.data.reverse.head?) h
  simp only [unknownKeyReason_last] at h1
  simp [String.data_append] at h1

theorem console_count (r : String) (events : List Event) (m_NoRepeatTags : QSet) :
    (console m_NoRepeatTags events).count r = events.count (Event.Error r) := by
  induction events with
  | nil => rfl
  | cons e rest ih =>
    cases e with
    | Error reason =>
      show ([reason] ++ console m_NoRepeatTags rest).count r = _
      rw [List.singleton_append, List.count_cons, List.count_cons, ih]
      by_cases h : reason = r
      · subst h; simp
      · have h2 : Event.Error reason ≠ Event.Error r := fun e => h (Event.Error.inj e)
        simp [h, h2]
    | _ =>
      show (console m_NoRepeatTags rest).count r = _
      rw [ih, List.count_cons_of_ne (by intro e; cases e)]

/-- The reports of an unknown key are the logger calls with its reason. -/
theorem unknownKeyReports_eq (k : String) (events : List Event) :
    unknownKeyReports k events = events.count (Event.Error (unknownKeyReason k)) :=
  console_count _ events []

/-- A tag that has been used makes the three-argument logger method silent. -/
theorem Error_tagged_repeat (m_NoRepeatTags : QSet) (tag r1 r2 : String) :
    (MessageLogger.Error_tagged (MessageLogger.Error_tagged m_NoRepeatTags tag r1).1 tag r2).2
      = [] := by
  unfold MessageLogger.Error_tagged MessageLogger.Error QSet.insert
  by_cases h : tag ∈ m_NoRepeatTags
  · simp [h]
  · simp [h]

theorem unknownKeyReports_append (k : String) (l1 l2 : List Event) :
    unknownKeyReports k (l1 ++ l2) = unknownKeyReports k l1 + unknownKeyReports k l2 := by
  simp only [unknownKeyReports_eq]
  exact List.count_append _ _ _

theorem unknownKeyReports_cons_other (k : String) (e : Event) (l : List Event)
    (h : e ≠ Event.Error (unknownKeyReason k)) :
    unknownKeyReports k (e :: l) = unknownKeyReports k l := by
  simp only [unknownKeyReports_eq]
  exact List.count_cons_of_ne (Ne.symm h) l

theorem metricLoop_reports (qt : QtText) (k : String) (m : QJsonObject) (ks : List String)
    (acc : QHash String) : unknownKeyReports k (metricLoop qt m ks acc).2 = 0 := by
  induction ks generalizing acc with
  | nil => rfl
  | cons x xs ih =>
    unfold metricLoop
    split
    · split
      · exact ih _
      · exact ih _
    · show unknownKeyReports k (_ :: (metricLoop qt m xs acc).2) = 0
      rw [unknownKeyReports_cons_other, ih]
      intro e
      exact metricReason_ne x k (Event.Error.inj e)

/-- The loop over the keys of an observation reports an unknown key once for
each of its occurrences among the keys. -/
theorem keyLoop_reports (qt : QtText) (k : String) (hk : QHash.contains m_WUToDB k = false)
    (hm : k ≠ "metric") (o : QJsonObject) (ks : List String) (acc : QHash String) :
    unknownKeyReports k (keyLoop qt o ks acc).2 = ks.count k := by
  induction ks generalizing acc with
  | nil => rfl
  | cons x xs ih =>
    unfold keyLoop
    by_cases h1 : x = "metric"
    · have hne : x ≠ k := fun e => hm (e ▸ h1)
      simp only [h1, if_true]
      rw [unknownKeyReports_append, metricLoop_reports, ih, Nat.zero_add,
        List.count_cons_of_ne hm]
    · simp only [h1, if_false]
      by_cases h2 : QHash.contains m_WUToDB x = true
      · have hne : x ≠ k := fun e => by rw [e, hk] at h2; cases h2
        simp only [h2, if_true]
        rw [List.count_cons_of_ne (Ne.symm hne)]
        split
        · exact ih _
        · split
          · exact ih _
          · exact ih _
      · simp only [h2, if_false]
        show unknownKeyReports k (_ :: (keyLoop qt o xs acc).2) = _
        by_cases h3 : x = k
        · subst h3
          have h4 := ih acc
          rw [unknownKeyReports_eq] at h4 ⊢
          unfold unknownKeyReason at h4 ⊢
          rw [List.count_cons_self, List.count_cons_self, h4]
        · rw [unknownKeyReports_cons_other, ih, List.count_cons_of_ne (Ne.symm h3)]
          intro e
          exact h3 (unknownKeyReason_inj _ _ (Event.Error.inj e))

theorem SaveToDatabase_reports (k : String) (s : WundergroundComms) (r : QHash String) :
    unknownKeyReports k (SaveToDatabase s r).events = 0 := by
  have hU : ∀ m : String, m.data.head? ≠ some 'U' →
      Event.Error m ≠ Event.Error (unknownKeyReason k) := by
    intro m hm e
    exact hm ((Event.Error.inj e) ▸ unknownKeyReason_head k)
  unfold SaveToDatabase
  split
  · rw [unknownKeyReports_cons_other _ _ _ (by intro e; cases e),
      unknownKeyReports_cons_other _ _ _ (hU _ (by decide))]
    rfl
  · split
    · rw [unknownKeyReports_cons_other _ _ _ (by intro e; cases e),
        unknownKeyReports_cons_other _ _ _ (hU _ (by decide))]
      rfl
    · rw [unknownKeyReports_cons_other _ _ _ (by intro e; cases e)]
      rfl

/-- One call of `Parse_SingleObservation` reports an unknown key once for each
of its occurrences among the keys of the observation, whatever the state. -/
theorem PSO_reports (qt : QtText) (k : String) (hk : QHash.contains m_WUToDB k = false)
    (hm : k ≠ "metric") (s : WundergroundComms) (o : QJsonObject) :
    unknownKeyReports k (Parse_SingleObservation qt s o).events = (QJsonObject.keys o).count k := by
  have hb : unknownKeyReports k (buildObservation qt o).2 = (QJsonObject.keys o).count k :=
    keyLoop_reports qt k hk hm o _ []
  cases hid : hasIdentity qt o with
  | false =>
    rw [PSO_missing qt s o hid, unknownKeyReports_append, hb,
      unknownKeyReports_cons_other _ _ _ (by
        intro e
        have := (Event.Error.inj e) ▸ unknownKeyReason_head k
        revert this
        decide)]
    rfl
  | true =>
    cases hkn : knows s (recordOf qt o) with
    | true => rw [PSO_known qt s o hid hkn]; exact hb
    | false =>
      rw [PSO_new qt s o hid hkn]
      show unknownKeyReports k (_ ++ _) = _
      rw [unknownKeyReports_append, hb, SaveToDatabase_reports]
      rfl

theorem parseEach_reports (qt : QtText) (k : String) (hk : QHash.contains m_WUToDB k = false)
    (hm : k ≠ "metric") (L : List QJsonObject) (s : WundergroundComms) :
    unknownKeyReports k (parseEach qt s L) = (L.map (fun o => (QJsonObject.keys o).count k)).sum := by
  induction L generalizing s with
  | nil => rfl
  | cons o rest ih =>
    rw [parseEach, unknownKeyReports_append, PSO_reports qt k hk hm, ih, List.map_cons,
      List.sum_cons]

theorem keys_nodup_of_sorted (o : QJsonObject) (h : o.isSorted) : (QJsonObject.keys o).Nodup := by
  unfold QJsonObject.isSorted at h
  refine List.Pairwise.imp ?_ h
  intro a b hab e
  subst e
  unfold QString.lt at hab
  rw [ltCodes_irrefl] at hab
  cases hab

/-- Over observations with ascending keys, the occurrences of a key are the
observations that carry it. -/
theorem sum_count_sorted (k : String) (L : List QJsonObject) (h : ∀ o ∈ L, o.isSorted) :
    (L.map (fun o => (QJsonObject.keys o).count k)).sum =
      (L.filter (fun o => decide (k ∈ QJsonObject.keys o))).length := by
  induction L with
  | nil => rfl
  | cons o rest ih =>
    have hn := keys_nodup_of_sorted o (h o (List.mem_cons_self _ _))
    rw [List.map_cons, List.sum_cons, ih (fun x hx => h x (List.mem_cons_of_mem _ hx)),
      List.filter_cons]
    by_cases hm : k ∈ QJsonObject.keys o
    · rw [List.count_eq_one_of_mem hn hm]
      simp only [hm, decide_True, if_true, List.length_cons]
      omega
    · rw [List.count_eq_zero_of_not_mem hm]
      simp only [hm, decide_False, Bool.false_eq_true, if_false]
      omega

/-! ### Lemmas for the time stamps, the start-up and the filling of columns -/

/-- The scan of the dates does not end when the first of the sorted dates is
no date. -/
theorem completenessScan_unreadable (records : List (QHash String)) (min_date : String)
    (rest : List String) (hs : sortedDates records = min_date :: rest)
    (hmin : QDate.fromString_yyyy_MM_dd min_date = none) :
    completenessScan records = none := by
  unfold sortedDates at hs
  unfold completenessScan
  simp only [hs, hmin]

theorem metric_foldl_filled (qt : QtText) (o : QJsonObject)
    (hm : "metric" ∈ QJsonObject.keys o) (ks : List String) (acc : QHash String)
    (hks : ∀ k ∈ ks, k ∈ QJsonObject.keys (QJsonObject.value o "metric").toObject)
    (hacc : ∀ c, QHash.contains acc c = true → filledFrom qt o c (QHash.value acc c "")) :
    ∀ c, QHash.contains
        (ks.foldl (metricStep qt (QJsonObject.value o "metric").toObject) acc) c = true →
      filledFrom qt o c (QHash.value
        (ks.foldl (metricStep qt (QJsonObject.value o "metric").toObject) acc) c "") := by
  induction ks generalizing acc with
  | nil => exact hacc
  | cons k rest ih =>
    rw [List.foldl_cons]
    apply ih _ (fun x hx => hks x (List.mem_cons_of_mem _ hx))
    intro c hc
    unfold metricStep at hc ⊢
    by_cases h1 : QHash.contains m_WUToDB k = true
    · simp only [h1, if_true] at hc ⊢
      by_cases h2 : QHash.value m_WUToDB k "" = ""
      · simp only [h2, if_true] at hc ⊢
        exact hacc c hc
      · simp only [h2, if_false] at hc ⊢
        rw [QHash.value_insert]
        by_cases h3 : c = QHash.value m_WUToDB k ""
        · rw [if_pos h3]
          right
          refine ⟨hm, k, hks k (List.mem_cons_self _ _), ?_, rfl⟩
          rw [h3]
          exact QHash.lookup_of_contains m_WUToDB k "" h1
        · rw [if_neg h3]
          rw [QHash.contains_insert] at hc
          have : decide (c = QHash.value m_WUToDB k "") = false := by simpa using h3
          rw [this, Bool.false_or] at hc
          exact hacc c hc
    · simp only [h1, if_false] at hc ⊢
      exact hacc c hc

theorem key_foldl_filled (qt : QtText) (o : QJsonObject) (ks : List String)
    (acc : QHash String) (hks : ∀ k ∈ ks, k ∈ QJsonObject.keys o)
    (hacc : ∀ c, QHash.contains acc c = true → filledFrom qt o c (QHash.value acc c "")) :
    ∀ c, QHash.contains (ks.foldl (keyStep qt o) acc) c = true →
      filledFrom qt o c (QHash.value (ks.foldl (keyStep qt o) acc) c "") := by
  induction ks generalizing acc with
  | nil => exact hacc
  | cons k rest ih =>
    rw [List.foldl_cons]
    apply ih _ (fun x hx => hks x (List.mem_cons_of_mem _ hx))
    have hk := hks k (List.mem_cons_self _ _)
    by_cases h0 : k = "metric"
    · subst h0
      have e : keyStep qt o acc "metric" =
          (QJsonObject.keys (QJsonObject.value o "metric").toObject).foldl
            (metricStep qt (QJsonObject.value o "metric").toObject) acc := by
        unfold keyStep
        simp only [if_true]
      rw [e]
      exact metric_foldl_filled qt o hk _ acc (fun x hx => hx) hacc
    · intro c hc
      unfold keyStep at hc ⊢
      simp only [h0, if_false] at hc ⊢
      by_cases h1 : QHash.contains m_WUToDB k = true
      · simp only [h1, if_true] at hc ⊢
        by_cases h2 : QHash.value m_WUToDB k "" = ""
        · simp only [h2, if_true] at hc ⊢
          exact hacc c hc
        · simp only [h2, if_false] at hc ⊢
          have hl := QHash.lookup_of_contains m_WUToDB k "" h1
          by_cases h4 : k = "stationID" ∨ k = "tz" ∨ k = "obsTimeLocal"
          · simp only [h4, if_true] at hc ⊢
            rw [QHash.value_insert]
            by_cases h3 : c = QHash.value m_WUToDB k ""
            · rw [if_pos h3]
              left
              refine ⟨k, hk, h0, by rw [h3]; exact hl, ?_⟩
              rw [if_pos h4]
            · rw [if_neg h3]
              rw [QHash.contains_insert] at hc
              have : decide (c = QHash.value m_WUToDB k "") = false := by simpa using h3
              rw [this, Bool.false_or] at hc
              exact hacc c hc
          · simp only [h4, if_false] at hc ⊢
            rw [QHash.value_insert]
            by_cases h3 : c = QHash.value m_WUToDB k ""
            · rw [if_pos h3]
              left
              refine ⟨k, hk, h0, by rw [h3]; exact hl, ?_⟩
              rw [if_neg h4]
            · rw [if_neg h3]
              rw [QHash.contains_insert] at hc
              have : decide (c = QHash.value m_WUToDB k "") = false := by simpa using h3
              rw [this, Bool.false_or] at hc
              exact hacc c hc
      · simp only [h1, if_false] at hc ⊢
        exact hacc c hc

/-- Every column of the canonical record holds what the code computes from a
member that is present. -/
theorem record_filled (qt : QtText) (o : QJsonObject) (c : String)
    (h : QHash.contains (recordOf qt o) c = true) :
    filledFrom qt o c (QHash.value (recordOf qt o) c "") := by
  rw [recordOf_foldl] at h ⊢
  exact key_foldl_filled qt o _ [] (fun k hk => hk) (fun c hc => by cases hc) c h

/-- The sample engine is a state of the object: the constructor at time 0,
`SetPWSName`, `SetToken`, `SetDatabaseFile`, `OpenDatabase` for a new file and
`StartUpdates` lead to it. -/
theorem sampleEngine_reachable : Reachable sampleEngine := by
  have ho : OpenDatabase sampleSql
      (SetDatabaseFile (SetToken (SetPWSName (Constructor 0 ⟨8, 0⟩ ⟨2460794⟩ [] []).1
        "XY123").state "a0a0a0a0a0a0a0a0a0a0a0a0a0a0a0a0").state "Wunderground.sql").state
      ⟨false, true, false, false⟩ =
      some ⟨true,
        { (SetDatabaseFile (SetToken (SetPWSName (Constructor 0 ⟨8, 0⟩ ⟨2460794⟩ [] []).1
          "XY123").state "a0a0a0a0a0a0a0a0a0a0a0a0a0a0a0a0").state "Wunderground.sql").state
          with m_DatabaseConnected := true },
        [Event.StatusUpdate (Status.databaseRead 0 0)]⟩ := by rfl
  have h := Reachable.startUpdates 0 "01 Jan 1970, 00:00:00"
    (Reachable.openDatabase sampleSql ⟨false, true, false, false⟩ _
      (Reachable.setDatabaseFile "Wunderground.sql"
        (Reachable.setToken "a0a0a0a0a0a0a0a0a0a0a0a0a0a0a0a0"
          (Reachable.setPWSName "XY123"
            (Reachable.constructed 0 ⟨8, 0⟩ ⟨2460794⟩ [] [])))) ho)
  exact h

/-! ## The claims -/

/-- Claim C1 (idempotent ingestion). If `Parse_Observations` handles a response
payload and returns success, then handling the identical payload again, from
the state the first pass left, appends no record to `m_WeatherData`, adds no
key to `m_StationToDateTimes` and calls `SaveToDatabase` zero times; indeed the
whole state, the table `wu_data` included, stays as it was. -/
theorem idempotent_ingestion (qt : QtText) (s : WundergroundComms) (resp : QJsonObject)
    (h : (Parse_Observations qt s resp).ret = true) :
    (Parse_Observations qt (Parse_Observations qt s resp).state resp).state.m_WeatherData =
      (Parse_Observations qt s resp).state.m_WeatherData ∧
    (Parse_Observations qt (Parse_Observations qt s resp).state resp).state.m_StationToDateTimes =
      (Parse_Observations qt s resp).state.m_StationToDateTimes ∧
    (saveCalls
      (Parse_Observations qt (Parse_Observations qt s resp).state resp).events).length = 0 ∧
    (Parse_Observations qt (Parse_Observations qt s resp).state resp).state =
      (Parse_Observations qt s resp).state := by
  have h2 := second_pass qt s resp h
  refine ⟨?_, ?_, ?_, h2.2.1⟩
  · rw [h2.2.1]
  · rw [h2.2.1]
  · rw [h2.2.2]; rfl

/-- Claim C1 at a payload with one new observation: the first pass succeeds
and stores it, the second pass changes nothing. -/
theorem idempotent_ingestion_witness :
    (Parse_Observations sampleQt sampleEngine
      (payloadOf [QJsonValue.object sampleObservation])).ret = true ∧
    (Parse_Observations sampleQt sampleEngine
      (payloadOf [QJsonValue.object sampleObservation])).state.m_WeatherData.length = 1 ∧
    (Parse_Observations sampleQt (Parse_Observations sampleQt sampleEngine
      (payloadOf [QJsonValue.object sampleObservation])).state
      (payloadOf [QJsonValue.object sampleObservation])).state =
    (Parse_Observations sampleQt sampleEngine
      (payloadOf [QJsonValue.object sampleObservation])).state :=
  ⟨by decide, by decide, (idempotent_ingestion sampleQt sampleEngine
      (payloadOf [QJsonValue.object sampleObservation]) (by decide)).2.2.2⟩

/-- Claim C2 (key uniqueness). From a state whose records have pairwise
distinct (station_id, date_time) pairs, all of them held by the index, handling
any sequence of response payloads leaves the records of `m_WeatherData` with
pairwise distinct pairs; the records handed to `SaveToDatabase` on the way are
exactly the records appended to `m_WeatherData`, and so have pairwise distinct
pairs as well. -/
theorem key_uniqueness (qt : QtText) (s : WundergroundComms) (payloads : List QJsonObject)
    (hd : keysDistinct s.m_WeatherData) (hi : indexCovers s) :
    keysDistinct (handleAll qt s payloads).1.m_WeatherData ∧
    (handleAll qt s payloads).1.m_WeatherData =
      s.m_WeatherData ++ saveCalls (handleAll qt s payloads).2 ∧
    keysDistinct (saveCalls (handleAll qt s payloads).2) := by
  have h1 := (handleAll_invariant qt payloads s hd hi).1
  have h2 := handleAll_weather qt payloads s
  refine ⟨h1, h2, ?_⟩
  unfold keysDistinct at h1 ⊢
  rw [h2, List.map_append, List.nodup_append] at h1
  exact h1.2.1

/-- Claim C2 at an engine that holds one record, for two payloads that repeat
that record and bring one new observation. -/
theorem key_uniqueness_witness :
    keysDistinct sampleEngineLoaded.m_WeatherData ∧ indexCovers sampleEngineLoaded ∧
    keysDistinct (handleAll sampleQt sampleEngineLoaded
      [payloadOf [QJsonValue.object sampleObservation],
       payloadOf [QJsonValue.object sampleObservationNextDay,
         QJsonValue.object sampleObservation]]).1.m_WeatherData ∧
    (handleAll sampleQt sampleEngineLoaded
      [payloadOf [QJsonValue.object sampleObservation],
       payloadOf [QJsonValue.object sampleObservationNextDay,
         QJsonValue.object sampleObservation]]).1.m_WeatherData.length = 2 :=
  ⟨by unfold keysDistinct; decide, by unfold indexCovers; decide,
   (key_uniqueness sampleQt sampleEngineLoaded _
    (by unfold keysDistinct; decide) (by unfold indexCovers; decide)).1, by decide⟩

/-- Claim C3 fails as stated: for the payload of a well-formed observation
followed by one without "stationID", `Parse_Observations` returns failure, yet
the first observation was put into `m_WeatherData`, into the index and into the
table, all of which were empty before. -/
theorem missing_identity_not_atomic :
    lacksKey sampleDefective "stationID" ∧
    (Parse_Observations sampleQt sampleEngine
      (payloadOf [QJsonValue.object sampleObservation,
        QJsonValue.object sampleDefective])).ret = false ∧
    (Parse_Observations sampleQt sampleEngine
      (payloadOf [QJsonValue.object sampleObservation,
        QJsonValue.object sampleDefective])).state.m_WeatherData.length = 1 ∧
    (Parse_Observations sampleQt sampleEngine
      (payloadOf [QJsonValue.object sampleObservation,
        QJsonValue.object sampleDefective])).state.wu_data.length = 1 ∧
    (Parse_Observations sampleQt sampleEngine
      (payloadOf [QJsonValue.object sampleObservation,
        QJsonValue.object sampleDefective])).state.m_StationToDateTimes =
      [("XY123", ["2025-05-01 18:39:49"])] ∧
    sampleEngine.m_WeatherData = [] ∧ sampleEngine.wu_data = [] ∧
    sampleEngine.m_StationToDateTimes = [] := by
  refine ⟨by unfold lacksKey; decide, by decide, by decide, by decide, by decide, rfl, rfl, rfl⟩

/-- Claim C3, amended. For every response payload in which an observation has
no member "stationID" (or no member "obsTimeLocal"), neither at top level nor
inside "metric", `Parse_Observations` returns failure, and nothing that stands
at or after that observation is persisted: the state is the one reached by
handling only the observations in front of it. When the defective observation
is the first of the array the state is the same as before the call. -/
theorem missing_identity_rejection (qt : QtText) (s : WundergroundComms) (resp : QJsonObject)
    (pre post : List QJsonValue) (bad : QJsonValue)
    (hobs : observationsOf resp = pre ++ bad :: post)
    (hbad : lacksKey bad.toObject "stationID" ∨ lacksKey bad.toObject "obsTimeLocal") :
    (Parse_Observations qt s resp).ret = false ∧
    (Parse_Observations qt s resp).state = (Parse_Observations qt s (payloadOf pre)).state ∧
    (pre = [] → (Parse_Observations qt s resp).state = s) := by
  have hid := hasIdentity_of_lacksKey qt bad.toObject hbad
  have hp := PSO_missing qt
    (observationLoop qt s pre Summary.init).1.state bad.toObject hid
  have key : (observationLoop qt s (pre ++ bad :: post) Summary.init).1.ret = false ∧
      (observationLoop qt s (pre ++ bad :: post) Summary.init).1.state =
        (observationLoop qt s pre Summary.init).1.state := by
    rw [observationLoop_append]
    by_cases hr : (observationLoop qt s pre Summary.init).1.ret = true
    · simp only [hr, if_true]
      rw [observationLoop_cons, hp]
      simp
    · simp only [hr, if_false]
      exact ⟨by simpa using hr, rfl⟩
  have h2 : (Parse_Observations qt s resp).state =
      (Parse_Observations qt s (payloadOf pre)).state := by
    rw [PO_state, PO_state, observationsOf_payloadOf, hobs]; exact key.2
  refine ⟨?_, h2, ?_⟩
  · rw [PO_ret, hobs]; exact key.1
  · intro hpre
    rw [h2, PO_state, observationsOf_payloadOf, hpre]
    rfl

/-- Claim C3, amended, at a payload whose second of three observations has no
"stationID": the call fails and leaves the state of handling the first alone. -/
theorem missing_identity_rejection_witness :
    lacksKey (QJsonValue.object sampleDefective).toObject "stationID" ∧
    (Parse_Observations sampleQt sampleEngine
      (payloadOf [QJsonValue.object sampleObservation,
        QJsonValue.object sampleDefective, QJsonValue.object sampleObservationNextDay])).ret
      = false ∧
    (Parse_Observations sampleQt sampleEngine
      (payloadOf [QJsonValue.object sampleObservation,
        QJsonValue.object sampleDefective, QJsonValue.object sampleObservationNextDay])).state =
    (Parse_Observations sampleQt sampleEngine
      (payloadOf [QJsonValue.object sampleObservation])).state :=
  ⟨by unfold lacksKey; decide,
   (missing_identity_rejection sampleQt sampleEngine
      (payloadOf [QJsonValue.object sampleObservation,
        QJsonValue.object sampleDefective, QJsonValue.object sampleObservationNextDay])
      [QJsonValue.object sampleObservation] [QJsonValue.object sampleObservationNextDay]
      (QJsonValue.object sampleDefective) (observationsOf_payloadOf _)
      (Or.inl (by unfold lacksKey; decide))).1,
   (missing_identity_rejection sampleQt sampleEngine
      (payloadOf [QJsonValue.object sampleObservation,
        QJsonValue.object sampleDefective, QJsonValue.object sampleObservationNextDay])
      [QJsonValue.object sampleObservation] [QJsonValue.object sampleObservationNextDay]
      (QJsonValue.object sampleDefective) (observationsOf_payloadOf _)
      (Or.inl (by unfold lacksKey; decide))).2.1⟩

/-- Claim C4, the code at the failing input. The engine is connected and the
next `INSERT` fails with an SQL error. `Parse_SingleObservation` on a new
observation returns failure and the table stays empty, but the key of the
observation is in `m_StationToDateTimes` afterwards, so that handling the same
observation again returns success without calling `SaveToDatabase`. -/
theorem failed_insert_stays_in_index :
    knows sampleEngineFailing (recordOf sampleQt sampleObservation) = false ∧
    (Parse_SingleObservation sampleQt sampleEngineFailing sampleObservation).ret = false ∧
    (Parse_SingleObservation sampleQt sampleEngineFailing sampleObservation).state.wu_data
      = [] ∧
    isKnown (Parse_SingleObservation sampleQt sampleEngineFailing
      sampleObservation).state.m_StationToDateTimes "XY123" "2025-05-01 18:39:49" = true ∧
    (Parse_SingleObservation sampleQt
      (Parse_SingleObservation sampleQt sampleEngineFailing sampleObservation).state
      sampleObservation).ret = true ∧
    saveCalls (Parse_SingleObservation sampleQt
      (Parse_SingleObservation sampleQt sampleEngineFailing sampleObservation).state
      sampleObservation).events = [] := by
  refine ⟨by decide, by decide, by decide, by decide, by decide, by decide⟩

/-- Claim C5 (out-of-order safety). Let every insert succeed, let every
observation of payload `A` be a JSON object whose "obsTimeLocal" lies on the
date `D1` and every observation of payload `B` one whose "obsTimeLocal" lies on
another date `D2` (the day after `D1`, say). Then handling `B` and then `A`
leaves the same store contents as handling `A` and then `B`: the same rows in
the table and in `m_WeatherData` up to their order, and the same keys in the
index. -/
theorem out_of_order_safety (qt : QtText) (s : WundergroundComms) (A B : QJsonObject)
    (D1 D2 : String) (hD : D1 ≠ D2) (hs : insertsSucceed s)
    (hA : ∀ v ∈ observationsOf A, observedOn D1 v)
    (hB : ∀ v ∈ observationsOf B, observedOn D2 v) :
    sameStore (Parse_Observations qt (Parse_Observations qt s B).state A).state
      (Parse_Observations qt (Parse_Observations qt s A).state B).state := by
  rw [PO_state_ingest, PO_state_ingest, PO_state_ingest, PO_state_ingest]
  exact ingest_comm qt _ _ s hs
    (fun b hb a ha _ _ => keys_ne_of_dates qt D2 D1 b a (Ne.symm hD) (hB b hb) (hA a ha))

/-- Claim C5 for one observation of 2025-05-01 and one of 2025-05-02: both
orders end with the same two rows. -/
theorem out_of_order_safety_witness :
    insertsSucceed sampleEngine ∧
    observedOn "2025-05-01" (QJsonValue.object sampleObservation) ∧
    observedOn "2025-05-02" (QJsonValue.object sampleObservationNextDay) ∧
    (Parse_Observations sampleQt (Parse_Observations sampleQt sampleEngine
        (payloadOf [QJsonValue.object sampleObservationNextDay])).state
        (payloadOf [QJsonValue.object sampleObservation])).state.wu_data.length = 2 ∧
    sameStore
      (Parse_Observations sampleQt (Parse_Observations sampleQt sampleEngine
        (payloadOf [QJsonValue.object sampleObservationNextDay])).state
        (payloadOf [QJsonValue.object sampleObservation])).state
      (Parse_Observations sampleQt (Parse_Observations sampleQt sampleEngine
        (payloadOf [QJsonValue.object sampleObservation])).state
        (payloadOf [QJsonValue.object sampleObservationNextDay])).state :=
  have h0 : insertsSucceed sampleEngine := ⟨rfl, fun e he => by cases he⟩
  have h1 : observedOn "2025-05-01" (QJsonValue.object sampleObservation) := by
    unfold observedOn QJsonObject.isSorted
    decide
  have h2 : observedOn "2025-05-02" (QJsonValue.object sampleObservationNextDay) := by
    unfold observedOn QJsonObject.isSorted
    decide
  ⟨h0, h1, h2, by decide,
    out_of_order_safety sampleQt sampleEngine
      (payloadOf [QJsonValue.object sampleObservation])
      (payloadOf [QJsonValue.object sampleObservationNextDay]) "2025-05-01" "2025-05-02"
      (by decide) h0
      (fun v hv => by
        rw [observationsOf_payloadOf, List.mem_singleton] at hv
        rw [hv]; exact h1)
      (fun v hv => by
        rw [observationsOf_payloadOf, List.mem_singleton] at hv
        rw [hv]; exact h2)⟩

/-- Claim C6. For every observation whose canonical record has station_id and
date_time and whose (station_id, date_time) is in `m_StationToDateTimes`,
`Parse_SingleObservation` returns success, leaves the whole state (the members
`m_WeatherData` and `m_StationToDateTimes` and the table) unchanged and does
not call `SaveToDatabase`, whatever the other fields of the observation are. -/
theorem known_observation_is_skipped (qt : QtText) (s : WundergroundComms) (o : QJsonObject)
    (hid : hasIdentity qt o = true) (hk : knows s (recordOf qt o) = true) :
    (Parse_SingleObservation qt s o).ret = true ∧
    (Parse_SingleObservation qt s o).state = s ∧
    saveCalls (Parse_SingleObservation qt s o).events = [] := by
  rw [PSO_known qt s o hid hk]
  exact ⟨rfl, rfl, saveCalls_onlyErrors _ (buildObservation_onlyErrors qt o)⟩

/-- Claim C6 at a stored key whose observation comes again with other values. -/
theorem known_observation_is_skipped_witness :
    hasIdentity sampleQt sampleObservationRevised = true ∧
    knows sampleEngineLoaded (recordOf sampleQt sampleObservationRevised) = true ∧
    (Parse_SingleObservation sampleQt sampleEngineLoaded sampleObservationRevised).state =
      sampleEngineLoaded :=
  ⟨by decide, by decide,
   (known_observation_is_skipped sampleQt sampleEngineLoaded sampleObservationRevised
     (by decide) (by decide)).2.1⟩

/-- Claim C7 (unknown-field tolerance). Take an observation with a "metric"
object, add at any position of the top level a member whose key is new and not
in the field map, and at any position inside "metric" a member whose key is not
in the field map. The canonical record is the same as without the two members,
and `Parse_SingleObservation` returns the same result and leaves the same
state, so it stores an identical record. -/
theorem unknown_field_tolerance (qt : QtText) (s : WundergroundComms) (o : QJsonObject)
    (i j : Nat) (k1 k2 : String) (v1 v2 : QJsonValue)
    (hmetric : "metric" ∈ QJsonObject.keys o) (hnew : k1 ∉ QJsonObject.keys o)
    (h1 : QHash.contains m_WUToDB k1 = false) (h2 : QHash.contains m_WUToDB k2 = false) :
    recordOf qt (insertAt i (k1, v1) (addMetricKey j (k2, v2) o)) = recordOf qt o ∧
    (Parse_SingleObservation qt s (insertAt i (k1, v1) (addMetricKey j (k2, v2) o))).ret =
      (Parse_SingleObservation qt s o).ret ∧
    (Parse_SingleObservation qt s (insertAt i (k1, v1) (addMetricKey j (k2, v2) o))).state =
      (Parse_SingleObservation qt s o).state := by
  have hne : k1 ≠ "metric" := by
    intro h; rw [h] at hnew; exact hnew hmetric
  have hr := record_unknown_keys qt o i j k1 k2 v1 v2 h1 hne h2
  exact ⟨hr, PSO_of_record_eq qt s o _ hr⟩

/-- Claim C7 for the sample observation with the members "neighborhood" and
"elev" added. -/
theorem unknown_field_tolerance_witness :
    insertAt 1 ("neighborhood", QJsonValue.string "Solingen")
      (addMetricKey 0 ("elev", QJsonValue.double 215) sampleObservation) =
      [("metric", QJsonValue.object [("elev", QJsonValue.double 215),
          ("tempAvg", QJsonValue.double 28)]),
       ("neighborhood", QJsonValue.string "Solingen"),
       ("obsTimeLocal", QJsonValue.string "2025-05-01 18:39:49"),
       ("stationID", QJsonValue.string "XY123")] ∧
    (Parse_SingleObservation sampleQt sampleEngine sampleObservation).ret = true ∧
    (Parse_SingleObservation sampleQt sampleEngine
      (insertAt 1 ("neighborhood", QJsonValue.string "Solingen")
        (addMetricKey 0 ("elev", QJsonValue.double 215) sampleObservation))).state =
      (Parse_SingleObservation sampleQt sampleEngine sampleObservation).state :=
  ⟨rfl, by decide, (unknown_field_tolerance sampleQt sampleEngine sampleObservation 1 0
    "neighborhood" "elev" (QJsonValue.string "Solingen") (QJsonValue.double 215)
    (by decide) (by decide) (by decide) (by decide)).2.2⟩

/-- Claim C8 fails as stated: a payload of one observation is handled with
success; handled again, no record is saved, yet the status summary of the
second pass reports 1 observation, not 0. -/
theorem second_pass_count_not_zero :
    (Parse_Observations sampleQt sampleEngine
      (payloadOf [QJsonValue.object sampleObservation])).ret = true ∧
    saveCalls (Parse_Observations sampleQt
      (Parse_Observations sampleQt sampleEngine
        (payloadOf [QJsonValue.object sampleObservation])).state
      (payloadOf [QJsonValue.object sampleObservation])).events = [] ∧
    reportedCounts (Parse_Observations sampleQt
      (Parse_Observations sampleQt sampleEngine
        (payloadOf [QJsonValue.object sampleObservation])).state
      (payloadOf [QJsonValue.object sampleObservation])).events = [1] := by
  refine ⟨by decide, by decide, by decide⟩

/-- Claim C8, amended. When a response payload that was handled with success
is handled a second time with identical content, `Parse_Observations` emits one
status summary, and the number of observations it reports is the number of
observations in the payload: every observation that was handled counts, known
ones included. -/
theorem second_pass_reports_payload_size (qt : QtText) (s : WundergroundComms)
    (resp : QJsonObject) (h : (Parse_Observations qt s resp).ret = true) :
    reportedCounts (Parse_Observations qt (Parse_Observations qt s resp).state resp).events =
      [(observationsOf resp).length] :=
  PO_reportedCounts qt _ resp (second_pass qt s resp h).1

/-- Claim C8, amended, at a payload of two observations: the second pass
reports 2. -/
theorem second_pass_reports_payload_size_witness :
    (Parse_Observations sampleQt sampleEngine
      (payloadOf [QJsonValue.object sampleObservation,
        QJsonValue.object sampleObservationNextDay])).ret = true ∧
    reportedCounts (Parse_Observations sampleQt
      (Parse_Observations sampleQt sampleEngine
        (payloadOf [QJsonValue.object sampleObservation,
          QJsonValue.object sampleObservationNextDay])).state
      (payloadOf [QJsonValue.object sampleObservation,
        QJsonValue.object sampleObservationNextDay])).events = [2] :=
  ⟨by decide, second_pass_reports_payload_size sampleQt sampleEngine
      (payloadOf [QJsonValue.object sampleObservation,
        QJsonValue.object sampleObservationNextDay]) (by decide)⟩

/-- Claim C9, the code at the failing input. With `m_IsRunning` true and the
wall clock at 06:00, which is `CHECK_START_TIME`, the run of
`Periodic_GetUpdates` emits the "paused" status and calls `GetDate` zero times;
one minute later, at 06:01, it calls `GetDate`. -/
theorem gate_at_start_time_pauses :
    sampleEngine.m_IsRunning = true ∧
    QTime.toString_hhmm ⟨6, 0⟩ = CHECK_START_TIME ∧
    (Periodic_GetUpdates sampleEngine ⟨6, 0⟩ ⟨2460797⟩).2 =
      [Event.StatusUpdate (Status.paused "06:00"), Event.singleShot 3600000] ∧
    getDateCalls (Periodic_GetUpdates sampleEngine ⟨6, 0⟩ ⟨2460797⟩).2 = [] ∧
    getDateCalls (Periodic_GetUpdates sampleEngine ⟨6, 1⟩ ⟨2460797⟩).2 = ["20250430"] := by
  refine ⟨rfl, by decide, by decide, by decide, by decide⟩

/-- Claim C10 (active-hours gate, outside). For every run of
`Periodic_GetUpdates` with `m_IsRunning` true at a time of day before 06:00
(`CHECK_START_TIME`, 360 minutes after midnight) or at or after 22:00
(`CHECK_END_TIME`, 1320 minutes), the events are the "paused" status and the
timer, so the "paused" `StatusUpdate` is emitted and `GetDate` is called zero
times. -/
theorem gate_outside_pauses (s : WundergroundComms) (now : QTime) (today : QDate)
    (hrun : s.m_IsRunning = true) (hv : now.isValid)
    (h : now.minutes < 6 * 60 ∨ 22 * 60 ≤ now.minutes) :
    (Periodic_GetUpdates s now today).2 =
      [Event.StatusUpdate (Status.paused CHECK_START_TIME),
       Event.singleShot CHECK_FOR_UPDATES_DELAY] ∧
    Event.StatusUpdate (Status.paused "06:00") ∈ (Periodic_GetUpdates s now today).2 ∧
    (getDateCalls (Periodic_GetUpdates s now today).2).length = 0 := by
  have hg := gate_outside now hv h
  have : (Periodic_GetUpdates s now today).2 =
      [Event.StatusUpdate (Status.paused CHECK_START_TIME),
       Event.singleShot CHECK_FOR_UPDATES_DELAY] := by
    unfold Periodic_GetUpdates
    simp only [hrun, if_true, hg]
  rw [this]
  refine ⟨rfl, ?_, ?_⟩
  · simp [CHECK_START_TIME]
  · rfl

/-- Claim C10 at 23:00. -/
theorem gate_outside_pauses_witness :
    sampleEngine.m_IsRunning = true ∧ (QTime.mk 23 0).isValid ∧
    22 * 60 ≤ (QTime.mk 23 0).minutes ∧
    (getDateCalls (Periodic_GetUpdates sampleEngine ⟨23, 0⟩ ⟨2460797⟩).2).length = 0 :=
  ⟨rfl, by unfold QTime.isValid; decide, by decide,
   (gate_outside_pauses sampleEngine ⟨23, 0⟩ ⟨2460797⟩ rfl (by unfold QTime.isValid; decide)
     (Or.inr (by decide))).2.2⟩

/-! ## The claims C11 to C20 -/

/-- C12, the defect. The engine ran inside the window on 2025-04-28, updates
were stopped and started again on 2025-05-01, three date boundaries later;
this state is reached from the constructor by calls of public methods. The run
of `Periodic_GetUpdates` on 2025-05-01 at 08:00 takes the branch "Get final
update for yesterday" and requests the data of 20250428, the remembered date,
and not those of 20250430, the day before the current date. -/
theorem backfill_not_preceding_day :
    Reachable sampleEngineRestarted ∧
    sampleEngineRestarted.m_IsRunning = true ∧
    sampleEngineRestarted.old_date = some "20250428" ∧
    QDate.toString_yyyyMMdd ⟨2460797⟩ = "20250501" ∧
    QDate.toString_yyyyMMdd ((QDate.mk 2460797).addDays (-1)) = "20250430" ∧
    getDateCalls (Periodic_GetUpdates sampleEngineRestarted ⟨8, 0⟩ ⟨2460797⟩).2 =
      ["20250428"] ∧
    getRequests (Periodic_GetUpdates sampleEngineRestarted ⟨8, 0⟩ ⟨2460797⟩).2 =
      [historyUrl "XY123" "20250428" "a0a0a0a0a0a0a0a0a0a0a0a0a0a0a0a0"] := by
  refine ⟨?_, by decide, by decide, by decide, by decide, by decide, by decide⟩
  exact Reachable.startUpdates _ _ (Reachable.stopUpdates _
    (Reachable.tick _ _ sampleEngine_reachable))

/-- Claim C13. `GetDate` reads neither the clock nor `m_IsRunning`: for every
state and every date it calls `m_NetworkAccessManager -> get` exactly once, for
the URL of that date, if the PWS name is not empty, the token is not empty and
the database is connected, and not at all otherwise; the events are the same
for both values of `m_IsRunning`. -/
theorem manual_GetDate_is_not_gated (s : WundergroundComms) (mcrDate : String) :
    getRequests (GetDate s mcrDate) =
      (if s.m_PWSName ≠ "" ∧ s.m_Token ≠ "" ∧ s.m_DatabaseConnected = true then
        [historyUrl s.m_PWSName mcrDate s.m_Token]
       else []) ∧
    (∀ running : Bool, GetDate { s with m_IsRunning := running } mcrDate = GetDate s mcrDate) :=
  ⟨getRequests_GetDate s mcrDate, fun _ => rfl⟩

/-- Claim C14 (configuration is write-once). `SetPWSName` when a station name
is set, `SetToken` when a token is set and `OpenDatabase` when the database is
connected each return false and leave the whole state unchanged. -/
theorem configuration_is_write_once (sql : QtSql) (s : WundergroundComms)
    (mcrPWSName mcrToken : String) (env : OpenEnv) :
    (s.m_PWSName ≠ "" →
      (SetPWSName s mcrPWSName).ret = false ∧ (SetPWSName s mcrPWSName).state = s) ∧
    (s.m_Token ≠ "" →
      (SetToken s mcrToken).ret = false ∧ (SetToken s mcrToken).state = s) ∧
    (s.m_DatabaseConnected = true →
      (OpenDatabase sql s env).map (fun r => (r.ret, r.state)) = some (false, s)) := by
  refine ⟨fun h => ?_, fun h => ?_, fun h => ?_⟩
  · unfold SetPWSName
    split
    · exact ⟨rfl, rfl⟩
    · exact ⟨rfl, rfl⟩
  · unfold SetToken
    split
    · exact ⟨rfl, rfl⟩
    · exact ⟨rfl, rfl⟩
  · unfold OpenDatabase
    rw [if_pos h]
    rfl

/-- Claim C14 at the configured sample engine. -/
theorem configuration_is_write_once_witness :
    sampleEngine.m_PWSName ≠ "" ∧ sampleEngine.m_Token ≠ "" ∧
    sampleEngine.m_DatabaseConnected = true ∧
    (SetPWSName sampleEngine "ZZ999").state = sampleEngine ∧
    (SetToken sampleEngine "b1b1b1b1b1b1b1b1b1b1b1b1b1b1b1b1").state = sampleEngine ∧
    (OpenDatabase sampleSql sampleEngine ⟨true, true, false, false⟩).map
      (fun r => (r.ret, r.state)) = some (false, sampleEngine) :=
  ⟨by decide, by decide, rfl,
   ((configuration_is_write_once sampleSql sampleEngine "ZZ999"
      "b1b1b1b1b1b1b1b1b1b1b1b1b1b1b1b1" ⟨true, true, false, false⟩).1 (by decide)).2,
   ((configuration_is_write_once sampleSql sampleEngine "ZZ999"
      "b1b1b1b1b1b1b1b1b1b1b1b1b1b1b1b1" ⟨true, true, false, false⟩).2.1 (by decide)).2,
   (configuration_is_write_once sampleSql sampleEngine "ZZ999"
      "b1b1b1b1b1b1b1b1b1b1b1b1b1b1b1b1" ⟨true, true, false, false⟩).2.2 rfl⟩

/-- Claim C15, the code at the failing input. No token is set. The text of 32
characters "a0" followed by a line feed has 33 characters, yet `SetToken`
returns true and stores it; the texts of 32 admissible characters are accepted
as the claim says. -/
theorem token_with_line_feed_is_accepted :
    sampleConstructed.m_Token = "" ∧
    sampleTokenLineFeed.data.length = 33 ∧
    isToken32 sampleTokenLineFeed = false ∧
    (SetToken sampleConstructed sampleTokenLineFeed).ret = true ∧
    (SetToken sampleConstructed sampleTokenLineFeed).state.m_Token = sampleTokenLineFeed ∧
    (SetToken sampleConstructed "a0a0a0a0a0a0a0a0a0a0a0a0a0a0a0a0").ret = true := by
  refine ⟨by decide, by decide, by decide, by decide, by decide, by decide⟩

/-- Claim C16, the code at the failing input. After the constructor,
`SetPWSName`, `SetToken` with the text that ends in a line feed,
`SetDatabaseFile`, `OpenDatabase` and `StartUpdates`, the state is reachable
and `m_IsRunning` is true, but the token is not a text of 32 digits and
lowercase letters. -/
theorem running_with_ill_formed_token :
    OpenDatabase sampleSql sampleConfiguredLineFeed ⟨false, true, false, false⟩ =
      some ⟨true, { sampleConfiguredLineFeed with m_DatabaseConnected := true },
        [Event.StatusUpdate (Status.databaseRead 0 0)]⟩ ∧
    Reachable sampleStartedLineFeed ∧
    sampleStartedLineFeed.m_IsRunning = true ∧
    sampleStartedLineFeed.m_PWSName = "XY123" ∧
    sampleStartedLineFeed.m_DatabaseConnected = true ∧
    sampleStartedLineFeed.m_Token = sampleTokenLineFeed ∧
    isToken32 sampleStartedLineFeed.m_Token = false := by
  have ho : OpenDatabase sampleSql sampleConfiguredLineFeed ⟨false, true, false, false⟩ =
      some ⟨true, { sampleConfiguredLineFeed with m_DatabaseConnected := true },
        [Event.StatusUpdate (Status.databaseRead 0 0)]⟩ := by rfl
  refine ⟨ho, ?_, by decide, by decide, by decide, by decide, by decide⟩
  exact Reachable.startUpdates 1746079200 "01 May 2025, 08:00:00"
    (Reachable.openDatabase sampleSql ⟨false, true, false, false⟩ _
      (Reachable.setDatabaseFile "Wunderground.sql"
        (Reachable.setToken sampleTokenLineFeed
          (Reachable.setPWSName "XY123"
            (Reachable.constructed 1746079200 ⟨8, 0⟩ ⟨2460797⟩ [] [])))) ho)

/-- The scan of `OpenDatabase` on a store whose first and last date are
readable (the part of claim C17 that holds). Let the records have at least
one date, let `min_date` and `max_date` be the first and the last of their
sorted dates, both texts of dates `a` and `b`. Then the scan of `OpenDatabase`
ends, and for every calendar date `d` from `a` to `b`: `d` is listed under
"No data" iff no record has the date `d`; `d` is listed under "Incomplete data"
iff at least 1 and fewer than 288 records have the date `d` and `d` is neither
`min_date` nor `max_date`. The dates `min_date` and `max_date` are listed under
neither. -/
theorem completeness_scan (records : List (QHash String)) (min_date max_date : String)
    (rest : List String) (a b : QDate)
    (hs : sortedDates records = min_date :: rest) (hmax : max_date = rest.getLastD min_date)
    (ha : QDate.fromString_yyyy_MM_dd min_date = some a)
    (hb : QDate.fromString_yyyy_MM_dd max_date = some b) :
    (completenessScan records).isSome = true ∧
    (∀ d : QDate, a.jd ≤ d.jd → d.jd ≤ b.jd →
      (d.toString_yyyy_MM_dd ∈ noDataDates ((completenessScan records).getD []) ↔
        recordsOn records d.toString_yyyy_MM_dd = 0) ∧
      (d.toString_yyyy_MM_dd ∈ incompleteDates ((completenessScan records).getD []) ↔
        1 ≤ recordsOn records d.toString_yyyy_MM_dd ∧
        recordsOn records d.toString_yyyy_MM_dd < 288 ∧
        d.toString_yyyy_MM_dd ≠ min_date ∧ d.toString_yyyy_MM_dd ≠ max_date)) ∧
    min_date ∉ noDataDates ((completenessScan records).getD []) ∧
    min_date ∉ incompleteDates ((completenessScan records).getD []) ∧
    max_date ∉ noDataDates ((completenessScan records).getD []) ∧
    max_date ∉ incompleteDates ((completenessScan records).getD []) := by
  have he := completenessScan_eq records min_date max_date rest a b hs hmax ha hb
  have hv := fun t => countDates_value records [] t
  have hc := fun t => countDates_contains records [] t
  have hcf : ∀ t, QHash.contains (countDates records []) t = false ↔ recordsOn records t = 0 := by
    intro t
    constructor
    · intro h
      by_contra h0
      have : QHash.contains (countDates records []) t = true :=
        (hc t).mpr (Or.inr (Nat.pos_of_ne_zero h0))
      rw [h] at this; cases this
    · intro h
      by_contra h0
      have h1 : QHash.contains (countDates records []) t = true := by simpa using h0
      rcases (hc t).mp h1 with h2 | h2
      · cases h2
      · omega
  have hmin : 0 < recordsOn records min_date :=
    sortedDates_mem records min_date (by rw [hs]; exact List.mem_cons_self _ _)
  have hmaxm : 0 < recordsOn records max_date := by
    apply sortedDates_mem
    rw [hs, hmax]
    exact getLastD_mem_cons rest min_date
  rw [he]
  simp only [Option.isSome_some, Option.getD_some, noDataDates, incompleteDates,
    List.append_nil, true_and]
  refine ⟨?_, ?_, ?_, ?_, ?_⟩
  · intro d h1 h2
    obtain ⟨i, hi, hd⟩ := date_in_range a b d h1 h2
    constructor
    · rw [scanLoop_no_data]
      constructor
      · rintro ⟨_, _, _, h⟩
        exact (hcf _).mp h
      · intro h
        exact ⟨i, hi, by rw [hd], (hcf _).mpr h⟩
    · rw [scanLoop_incomplete]
      constructor
      · rintro ⟨_, _, _, h3, h4, h5, h6⟩
        rw [hv] at h4
        have h7 : QHash.value ([] : QHash Nat) d.toString_yyyy_MM_dd 0 = 0 := rfl
        rcases (hc _).mp h3 with h8 | h8
        · cases h8
        · exact ⟨h8, by omega, h5, h6⟩
      · rintro ⟨h3, h4, h5, h6⟩
        refine ⟨i, hi, by rw [hd], (hc _).mpr (Or.inr h3), ?_, h5, h6⟩
        rw [hv]
        have h7 : QHash.value ([] : QHash Nat) d.toString_yyyy_MM_dd 0 = 0 := rfl
        omega
  · rw [scanLoop_no_data]
    rintro ⟨_, _, _, h⟩
    have := (hcf _).mp h
    omega
  · rw [scanLoop_incomplete]
    rintro ⟨_, _, _, _, _, h, _⟩
    exact h rfl
  · rw [scanLoop_no_data]
    rintro ⟨_, _, _, h⟩
    have := (hcf _).mp h
    omega
  · rw [scanLoop_incomplete]
    rintro ⟨_, _, _, _, _, _, h⟩
    exact h rfl

set_option maxRecDepth 100000 in
/-- The scan at the counts 288, 150, 0, 288 of four consecutive days: the
second day is listed as incomplete, the third as without data, and the first
and the last day are not listed. -/
theorem completeness_scan_witness :
    sortedDates sampleFourDays = ["2025-05-01", "2025-05-02", "2025-05-04"] ∧
    recordsOn sampleFourDays "2025-05-01" = 288 ∧
    recordsOn sampleFourDays "2025-05-02" = 150 ∧
    recordsOn sampleFourDays "2025-05-03" = 0 ∧
    recordsOn sampleFourDays "2025-05-04" = 288 ∧
    "2025-05-02" ∈ incompleteDates ((completenessScan sampleFourDays).getD []) ∧
    "2025-05-03" ∈ noDataDates ((completenessScan sampleFourDays).getD []) ∧
    "2025-05-03" ∉ incompleteDates ((completenessScan sampleFourDays).getD []) ∧
    "2025-05-01" ∉ incompleteDates ((completenessScan sampleFourDays).getD []) ∧
    "2025-05-04" ∉ incompleteDates ((completenessScan sampleFourDays).getD []) :=
  have h := completeness_scan sampleFourDays "2025-05-01" "2025-05-04"
    ["2025-05-02", "2025-05-04"] ⟨2460797⟩ ⟨2460800⟩ (by decide) (by decide) (by decide)
    (by decide)
  ⟨by decide, by decide, by decide, by decide, by decide,
   ((h.2.1 ⟨2460798⟩ (by decide) (by decide)).2).mpr
     ⟨by decide, by decide, by decide, by decide⟩,
   ((h.2.1 ⟨2460799⟩ (by decide) (by decide)).1).mpr (by decide),
   fun hin => absurd (((h.2.1 ⟨2460799⟩ (by decide) (by decide)).2).mp hin).1 (by decide),
   h.2.2.2.1, h.2.2.2.2.2⟩

/-- C17, the defect. `OpenDatabase` opens an existing database file; the first
of the sorted dates of the records that `ReadDatabase` leaves is not the text
of a date (it is the empty text for a row whose date_time is no date and
time). Then the loop `while (this_date <= end_date)` of the scan does not end:
the call does not return, and no date is listed. -/
theorem scan_never_ends_on_unreadable_date (sql : QtSql) (s : WundergroundComms)
    (env : OpenEnv) (min_date : String) (rest : List String)
    (h1 : s.m_DatabaseConnected = false) (h2 : s.m_DatabaseFilename ≠ "")
    (h3 : env.opened = true) (h4 : env.fileExists = true)
    (hs : sortedDates (ReadDatabase sql { s with m_DatabaseConnected := true }
      env.selectError).state.m_WeatherData = min_date :: rest)
    (hmin : QDate.fromString_yyyy_MM_dd min_date = none) :
    OpenDatabase sql s env = none := by
  unfold OpenDatabase
  simp only [h1, h2, h3, h4, Bool.false_eq_true, if_false, Bool.not_true,
    completenessScan_unreadable _ min_date rest hs hmin]

/-- C17, witness: the sample engine stores `sampleObservation` and the
observation whose "obsTimeLocal" is the empty text; the next process reads the
two rows, the sorted dates are the empty text and 2025-05-01, and
`OpenDatabase` does not return. -/
theorem scan_never_ends_on_unreadable_date_witness :
    (Parse_Observations sampleQt sampleEngine
      (payloadOf [QJsonValue.object sampleObservation,
        QJsonValue.object sampleObservationNoTime])).ret = true ∧
    sampleEngineUnreadable.wu_data.length = 2 ∧
    sortedDates (ReadDatabase sampleDriver { sampleEngineUnreadable with
      m_DatabaseConnected := true } false).state.m_WeatherData = ["", "2025-05-01"] ∧
    QDate.fromString_yyyy_MM_dd "" = none ∧
    OpenDatabase sampleDriver sampleEngineUnreadable ⟨true, true, false, false⟩ = none :=
  ⟨rfl, rfl, by decide, by decide,
    scan_never_ends_on_unreadable_date sampleDriver sampleEngineUnreadable
      ⟨true, true, false, false⟩ "" ["2025-05-01"] rfl (by decide) rfl rfl (by decide)
      (by decide)⟩

/-- Claim C18, the code at the failing input. For the numeric field
"winddirAvg" with the value 112, and every behaviour of the Qt conversions that
prints 112 as `QString::number` does (format g with 6 significant digits:
"112"), the value that `Parse_SingleObservation` puts into the column
wind_direction_avg_degree of the record it stores is "112", which has no digit
after a decimal point; it is not "112.0". -/
theorem number_without_decimal (qt : QtText) (s : WundergroundComms)
    (hq : qt.number 112 = "112") :
    QHash.value (recordOf qt sampleObservationWind) "wind_direction_avg_degree" "" = "112" ∧
    hasOneDecimal
      (QHash.value (recordOf qt sampleObservationWind) "wind_direction_avg_degree" "") = false ∧
    hasOneDecimal "112.0" = true ∧
    (knows s (recordOf qt sampleObservationWind) = false →
      (Parse_SingleObservation qt s sampleObservationWind).state.m_WeatherData =
        s.m_WeatherData ++ [recordOf qt sampleObservationWind]) := by
  have h1 : QHash.value (recordOf qt sampleObservationWind) "wind_direction_avg_degree" "" =
      qt.number 112 := rfl
  refine ⟨by rw [h1, hq], by rw [h1, hq]; decide, by decide, fun hk => ?_⟩
  have hid : hasIdentity qt sampleObservationWind = true :=
    hasIdentity_of_present qt _ (by decide) (by decide)
  rcases PSO_cases qt s sampleObservationWind with c | c | c
  · rw [hid] at c; cases c.1
  · rw [hk] at c; cases c.2.1
  · exact c.2.2.1

/-- Claim C18 at the sample conversions and the empty engine. -/
theorem number_without_decimal_witness :
    sampleQtWhole.number 112 = "112" ∧
    (Parse_SingleObservation sampleQtWhole sampleEngine
      sampleObservationWind).state.m_WeatherData =
      [[("wind_direction_avg_degree", "112"), ("station_id", "XY123"),
        ("date_time", "2025-05-01 18:39:49")]] ∧
    hasOneDecimal (QHash.value (recordOf sampleQtWhole sampleObservationWind)
      "wind_direction_avg_degree" "") = false :=
  ⟨by decide, by decide,
   (number_without_decimal sampleQtWhole sampleEngine (by decide)).2.1⟩

/-- C19, counterexample: the numeric field "winddirAvg" is present and holds
`null`. The canonical record has the column wind_direction_avg_degree, filled
with the text of the number 0, and `Parse_SingleObservation` stores this record. -/
theorem null_field_is_stored_as_zero :
    (QJsonObject.value sampleObservationNull "winddirAvg").toDouble = 0 ∧
    sampleQtWhole.number 0 = "0" ∧
    QHash.contains (recordOf sampleQtWhole sampleObservationNull)
      "wind_direction_avg_degree" = true ∧
    QHash.value (recordOf sampleQtWhole sampleObservationNull)
      "wind_direction_avg_degree" "" = "0" ∧
    (Parse_SingleObservation sampleQtWhole sampleEngine sampleObservationNull).ret = true ∧
    (Parse_SingleObservation sampleQtWhole sampleEngine
      sampleObservationNull).state.m_WeatherData =
      [[("wind_direction_avg_degree", "0"), ("station_id", "XY123"),
        ("date_time", "2025-05-01 18:39:49")]] := by
  refine ⟨rfl, by decide, by decide, by decide, by decide, by decide⟩

/-- C19, as the code has it. The canonical record contains a column `c` if and
only if `c` is not the empty name of an ignored field and the observation has,
at top level or inside its "metric" object, a key that `m_WUToDB` maps to `c`:
a field that is absent is omitted. A column that the record contains is filled
from a member that is present: with its text for "stationID", "tz" and
"obsTimeLocal", with `QString::number` of its `toDouble()` otherwise, and
`toDouble()` is 0 for `null` and for every member that is not a number. -/
theorem fields_omitted_or_filled (qt : QtText) (o : QJsonObject) (c : String) :
    (QHash.contains (recordOf qt o) c = true ↔
      c ≠ "" ∧
      ((∃ k ∈ QJsonObject.keys o, m_WUToDB.lookup k = some c) ∨
       ("metric" ∈ QJsonObject.keys o ∧
        ∃ mk ∈ QJsonObject.keys (QJsonObject.value o "metric").toObject,
          m_WUToDB.lookup mk = some c))) ∧
    (QHash.contains (recordOf qt o) c = true →
      filledFrom qt o c (QHash.value (recordOf qt o) c "")) ∧
    (∀ v : QJsonValue, (∀ d, v ≠ QJsonValue.double d) → v.toDouble = 0) := by
  refine ⟨record_contains qt o c, record_filled qt o c, ?_⟩
  intro v hv
  cases v with
  | double d => exact absurd rfl (hv d)
  | _ => rfl

/-- C19 at the observation whose "winddirAvg" is `null`: the column
wind_direction_avg_degree is filled from the member that is present, and the
column humidity_avg_percent, whose field is absent, is omitted. -/
theorem fields_omitted_or_filled_witness :
    QHash.contains (recordOf sampleQtWhole sampleObservationNull)
      "wind_direction_avg_degree" = true ∧
    filledFrom sampleQtWhole sampleObservationNull "wind_direction_avg_degree" "0" ∧
    QHash.contains (recordOf sampleQtWhole sampleObservationNull)
      "humidity_avg_percent" = false :=
  ⟨by decide,
    (fields_omitted_or_filled sampleQtWhole sampleObservationNull
      "wind_direction_avg_degree").2.1 (by decide),
    by decide⟩

/-- Claim C20 fails as stated: the observation whose "stationID" is the empty
text is not rejected. On the empty engine `Parse_SingleObservation` returns
success, stores the record with the empty station_id in `m_WeatherData` and in
the table, and puts the key with the empty station into the index. -/
theorem empty_station_is_stored :
    QJsonObject.value sampleObservationNoName "stationID" = QJsonValue.string "" ∧
    (Parse_SingleObservation sampleQt sampleEngine sampleObservationNoName).ret = true ∧
    (Parse_SingleObservation sampleQt sampleEngine sampleObservationNoName).state.m_WeatherData
      = [[("station_id", ""), ("date_time", "2025-05-01 18:39:49")]] ∧
    (Parse_SingleObservation sampleQt sampleEngine
      sampleObservationNoName).state.wu_data.length = 1 ∧
    (Parse_SingleObservation sampleQt sampleEngine
      sampleObservationNoName).state.m_StationToDateTimes =
      [("", ["2025-05-01 18:39:49"])] := by
  refine ⟨rfl, by decide, by decide, by decide, by decide⟩

/-- Claim C20, amended. Identity fields must be present: an observation without
"stationID" or without "obsTimeLocal" is rejected, `Parse_SingleObservation`
returns failure and leaves the state unchanged. An observation, a JSON object,
that has both members is not rejected, whatever their texts, the empty text
included: its record carries the two texts as station_id and date_time, it is
skipped when that key is known, and otherwise it is appended to `m_WeatherData`
and handed to `SaveToDatabase`. -/
theorem identity_fields_must_be_present (qt : QtText) (s : WundergroundComms)
    (o : QJsonObject) :
    (lacksKey o "stationID" ∨ lacksKey o "obsTimeLocal" →
      (Parse_SingleObservation qt s o).ret = false ∧
      (Parse_SingleObservation qt s o).state = s) ∧
    (o.isSorted → "stationID" ∈ QJsonObject.keys o → "obsTimeLocal" ∈ QJsonObject.keys o →
      keyOf (recordOf qt o) = ((QJsonObject.value o "stationID").toString,
        (QJsonObject.value o "obsTimeLocal").toString) ∧
      (knows s (recordOf qt o) = true →
        (Parse_SingleObservation qt s o).ret = true ∧
        (Parse_SingleObservation qt s o).state = s) ∧
      (knows s (recordOf qt o) = false →
        (Parse_SingleObservation qt s o).state.m_WeatherData =
          s.m_WeatherData ++ [recordOf qt o] ∧
        saveCalls (Parse_SingleObservation qt s o).events = [recordOf qt o])) := by
  constructor
  · intro h
    rw [PSO_missing qt s o (hasIdentity_of_lacksKey qt o h)]
    exact ⟨rfl, rfl⟩
  · intro hs h1 h2
    have hid := hasIdentity_of_present qt o h1 h2
    refine ⟨Prod.ext (record_station_id qt o hs h1) (record_date_time qt o hs h2), ?_, ?_⟩
    · intro hk
      rw [PSO_known qt s o hid hk]
      exact ⟨rfl, rfl⟩
    · intro hk
      rcases PSO_cases qt s o with c | c | c
      · rw [hid] at c; cases c.1
      · rw [hk] at c; cases c.2.1
      · exact ⟨c.2.2.1, c.2.2.2.2.1⟩

/-- Claim C20, amended, at the observation without "stationID" and at the
observation whose "stationID" is the empty text. -/
theorem identity_fields_must_be_present_witness :
    lacksKey sampleDefective "stationID" ∧
    (Parse_SingleObservation sampleQt sampleEngine sampleDefective).ret = false ∧
    sampleObservationNoName.isSorted ∧
    keyOf (recordOf sampleQt sampleObservationNoName) = ("", "2025-05-01 18:39:49") ∧
    saveCalls (Parse_SingleObservation sampleQt sampleEngine sampleObservationNoName).events =
      [recordOf sampleQt sampleObservationNoName] :=
  ⟨by unfold lacksKey; decide,
   ((identity_fields_must_be_present sampleQt sampleEngine sampleDefective).1
     (Or.inl (by unfold lacksKey; decide))).1,
   by unfold QJsonObject.isSorted; decide,
   ((identity_fields_must_be_present sampleQt sampleEngine sampleObservationNoName).2
     (by unfold QJsonObject.isSorted; decide) (by decide) (by decide)).1,
   (((identity_fields_must_be_present sampleQt sampleEngine sampleObservationNoName).2
     (by unfold QJsonObject.isSorted; decide) (by decide) (by decide)).2.2 (by decide)).2⟩

/-! ## The claims C21 to C30 -/

/-- C21. Zero observations is success: on a response that holds no observation
`Parse_Observations` returns `true`, leaves the object and the table as they
are, calls `SaveToDatabase` not at all and reports 0 observations. -/
theorem zero_observations_is_success (qt : QtText) (s : WundergroundComms) (resp : QJsonObject)
    (h : observationsOf resp = []) :
    (Parse_Observations qt s resp).ret = true ∧
    (Parse_Observations qt s resp).state = s ∧
    saveCalls (Parse_Observations qt s resp).events = [] ∧
    reportedCounts (Parse_Observations qt s resp).events = [0] := by
  have hr : (Parse_Observations qt s resp).ret = true := by
    rw [PO_ret, h]; rfl
  refine ⟨hr, ?_, ?_, ?_⟩
  · rw [PO_state, h]; rfl
  · rw [PO_saveCalls, h]; rfl
  · rw [PO_reportedCounts qt s resp hr, h]; rfl

/-- C21, witness: the engine that holds one observation handles the response
with an empty array "observations". -/
theorem zero_observations_is_success_witness :
    observationsOf [("observations", QJsonValue.array [])] = [] ∧
    (Parse_Observations sampleQt sampleEngineLoaded
      [("observations", QJsonValue.array [])]).ret = true ∧
    (Parse_Observations sampleQt sampleEngineLoaded
      [("observations", QJsonValue.array [])]).state = sampleEngineLoaded ∧
    saveCalls (Parse_Observations sampleQt sampleEngineLoaded
      [("observations", QJsonValue.array [])]).events = [] ∧
    reportedCounts (Parse_Observations sampleQt sampleEngineLoaded
      [("observations", QJsonValue.array [])]).events = [0] :=
  ⟨rfl, zero_observations_is_success sampleQt sampleEngineLoaded _ rfl⟩

/-- C22. Index rebuild: when `ReadDatabase` succeeds on an engine whose index
is empty (its `m_WeatherData` is empty then, or the method fails),
`m_WeatherData` holds one record per row of the table, in the order of the
rows, and the index holds the time stamp `date_time` for the station
`station_id` exactly if some loaded record has these two values. -/
theorem index_rebuild (sql : QtSql) (s : WundergroundComms) (selectError : Bool)
    (h0 : s.m_StationToDateTimes = [])
    (hr : (ReadDatabase sql s selectError).ret = true) :
    (ReadDatabase sql s selectError).state.m_WeatherData = s.wu_data.map (readLine sql) ∧
    (ReadDatabase sql s selectError).state.m_WeatherData.length = s.wu_data.length ∧
    ∀ station_id date_time,
      isKnown (ReadDatabase sql s selectError).state.m_StationToDateTimes station_id date_time
        = true ↔
      ∃ r ∈ (ReadDatabase sql s selectError).state.m_WeatherData,
        QHash.value r "station_id" "" = station_id ∧ QHash.value r "date_time" "" = date_time := by
  obtain ⟨hw, hst⟩ := ReadDatabase_success sql s selectError hr
  have hspec := readRows_spec sql s.wu_data s
  rw [hst]
  have hwd : (readRows sql s s.wu_data).m_WeatherData = s.wu_data.map (readLine sql) := by
    rw [hspec.1, hw]; rfl
  refine ⟨hwd, by rw [hwd, List.length_map], ?_⟩
  intro a b
  rw [hspec.2.2.2.2 a b, h0, isKnown_nil, Bool.false_or, decide_eq_true_iff, hwd]
  simp only [List.mem_map, keyOf, Prod.mk.injEq]
  constructor
  · rintro ⟨row, hrow, h1, h2⟩
    exact ⟨readLine sql row, ⟨row, hrow, rfl⟩, h1, h2⟩
  · rintro ⟨r, ⟨row, hrow, rfl⟩, h1, h2⟩
    exact ⟨row, hrow, h1, h2⟩

/-- C22, witness: a fresh engine on the table with the three rows of
`sampleThree` loads three records and knows the key of the second row. -/
theorem index_rebuild_witness :
    sampleEngineFresh.m_StationToDateTimes = [] ∧
    (ReadDatabase sampleSql sampleEngineFresh false).ret = true ∧
    (ReadDatabase sampleSql sampleEngineFresh false).state.m_WeatherData.length = 3 ∧
    isKnown (ReadDatabase sampleSql sampleEngineFresh false).state.m_StationToDateTimes
      "XY123" "2025-05-01 18:44:49" = true :=
  ⟨rfl, rfl, (index_rebuild sampleSql sampleEngineFresh false rfl rfl).2.1,
    ((index_rebuild sampleSql sampleEngineFresh false rfl rfl).2.2
        "XY123" "2025-05-01 18:44:49").mpr
      ⟨readLine sampleSql (rowOf (recordOf sampleQt sampleObservationLater)),
        by decide, rfl, rfl⟩⟩

/-- C24. The storage schema and the field map agree: the names in `m_WUToDB`
that are not empty are pairwise distinct and are exactly the columns of the
statement `CREATE TABLE wu_data`, no column is declared twice, and the column
list of `SaveToDatabase` and `ReadDatabase` names every column of the table
once and no other name. -/
theorem schema_matches_field_map :
    ((QHash.values m_WUToDB).filter (fun c => !(c == ""))).Nodup ∧
    (∀ c, c ∈ (QHash.values m_WUToDB).filter (fun c => !(c == "")) ↔
      c ∈ CreateDatabase_columns.map Prod.fst) ∧
    (CreateDatabase_columns.map Prod.fst).Nodup ∧
    columns.Nodup ∧
    (∀ c, c ∈ columns ↔ c ∈ CreateDatabase_columns.map Prod.fst) ∧
    columns.length = CreateDatabase_columns.length := by
  have h1 : ∀ c ∈ (QHash.values m_WUToDB).filter (fun c => !(c == "")),
      c ∈ CreateDatabase_columns.map Prod.fst := by decide
  have h2 : ∀ c ∈ CreateDatabase_columns.map Prod.fst,
      c ∈ (QHash.values m_WUToDB).filter (fun c => !(c == "")) := by decide
  have h3 : ∀ c ∈ columns, c ∈ CreateDatabase_columns.map Prod.fst := by decide
  have h4 : ∀ c ∈ CreateDatabase_columns.map Prod.fst, c ∈ columns := by decide
  exact ⟨by decide, fun c => ⟨h1 c, h2 c⟩, by decide, by decide, fun c => ⟨h3 c, h4 c⟩,
    by decide⟩

/-- C25. A payload of observations that each carry "stationID" and
"obsTimeLocal", whose keys are pairwise distinct and not in the index, handled
while every insert succeeds: `Parse_Observations` returns `true`, appends the
canonical records of the observations to `m_WeatherData` in the order of the
payload, calls `SaveToDatabase` once for each of them in that order, appends
one row per record to the table, adds exactly their keys to the index and
reports the number of observations. -/
theorem fresh_payload_is_stored (qt : QtText) (s : WundergroundComms) (resp : QJsonObject)
    (hs : insertsSucceed s)
    (hc : ∀ v ∈ observationsOf resp, "stationID" ∈ QJsonObject.keys v.toObject ∧
      "obsTimeLocal" ∈ QJsonObject.keys v.toObject)
    (hd : ((observationsOf resp).map (fun v => keyOf (recordOf qt v.toObject))).Nodup)
    (hn : ∀ v ∈ observationsOf resp, knows s (recordOf qt v.toObject) = false) :
    (Parse_Observations qt s resp).ret = true ∧
    (Parse_Observations qt s resp).state.m_WeatherData =
      s.m_WeatherData ++ (observationsOf resp).map (fun v => recordOf qt v.toObject) ∧
    saveCalls (Parse_Observations qt s resp).events =
      (observationsOf resp).map (fun v => recordOf qt v.toObject) ∧
    (Parse_Observations qt s resp).state.wu_data =
      s.wu_data ++ (observationsOf resp).map (fun v => rowOf (recordOf qt v.toObject)) ∧
    (∀ station_id date_time,
      isKnown (Parse_Observations qt s resp).state.m_StationToDateTimes station_id date_time
        = true ↔
      (isKnown s.m_StationToDateTimes station_id date_time = true ∨
        (station_id, date_time) ∈
          (observationsOf resp).map (fun v => keyOf (recordOf qt v.toObject)))) ∧
    reportedCounts (Parse_Observations qt s resp).events = [(observationsOf resp).length] := by
  have h := observationLoop_fresh qt (observationsOf resp) s Summary.init hs
    (fun v hv => hasIdentity_of_present qt _ (hc v hv).1 (hc v hv).2) hd hn
  have hr : (Parse_Observations qt s resp).ret = true := by rw [PO_ret]; exact h.1
  refine ⟨hr, ?_, ?_, ?_, ?_, PO_reportedCounts qt s resp hr⟩
  · rw [PO_state, observationLoop_weather, h.2.1]
  · rw [PO_saveCalls, h.2.1]
  · rw [PO_state, h.2.2.1]
  · intro a b
    rw [PO_state, h.2.2.2 a b, Bool.or_eq_true, decide_eq_true_iff]

/-- C25, witness: the three observations of `sampleThree` on the empty sample
engine give three rows, three calls in the order of the payload and a count
of 3. -/
theorem fresh_payload_is_stored_witness :
    insertsSucceed sampleEngine ∧
    (Parse_Observations sampleQt sampleEngine sampleThree).ret = true ∧
    (Parse_Observations sampleQt sampleEngine sampleThree).state.wu_data.length = 3 ∧
    saveCalls (Parse_Observations sampleQt sampleEngine sampleThree).events =
      [recordOf sampleQt sampleObservationLatest, recordOf sampleQt sampleObservation,
        recordOf sampleQt sampleObservationLater] ∧
    reportedCounts (Parse_Observations sampleQt sampleEngine sampleThree).events = [3] :=
  have h := fresh_payload_is_stored sampleQt sampleEngine sampleThree
    ⟨rfl, fun e he => by cases he⟩ (by decide) (by decide) (by decide)
  ⟨⟨rfl, fun e he => by cases he⟩, h.1, by rw [h.2.2.2.1]; rfl, h.2.2.1, h.2.2.2.2.2⟩

/-- C26, counterexample: "firmware" is not in the field map; the two
observations `sampleObservationLater` and `sampleObservationLatest` both carry
it, and the two calls of `Parse_SingleObservation` report it twice. -/
theorem unknown_field_reported_twice :
    QHash.contains m_WUToDB "firmware" = false ∧
    unknownKeyReports "firmware"
      (parseEach sampleQt sampleEngine [sampleObservationLater, sampleObservationLatest]) = 2 := by
  decide

/-- C26, as the code has it: over a sequence of calls of
`Parse_SingleObservation`, a key that the field map does not know (and that is
not "metric") is reported once by every call whose observation carries it: the
number of reports is the number of those observations. -/
theorem unknown_field_reported_per_observation (qt : QtText) (s : WundergroundComms)
    (L : List QJsonObject) (k : String)
    (hk : QHash.contains m_WUToDB k = false) (hm : k ≠ "metric")
    (hsorted : ∀ o ∈ L, o.isSorted) :
    unknownKeyReports k (parseEach qt s L) =
      (L.filter (fun o => decide (k ∈ QJsonObject.keys o))).length := by
  rw [parseEach_reports qt k hk hm, sum_count_sorted k L hsorted]

/-- C26, witness: of the three sample observations two carry "firmware", and
it is reported twice. -/
theorem unknown_field_reported_per_observation_witness :
    QHash.contains m_WUToDB "firmware" = false ∧
    unknownKeyReports "firmware" (parseEach sampleQt sampleEngine
      [sampleObservationLatest, sampleObservation, sampleObservationLater]) = 2 :=
  ⟨by decide,
    unknown_field_reported_per_observation sampleQt sampleEngine
      [sampleObservationLatest, sampleObservation, sampleObservationLater] "firmware"
      (by decide) (by decide) (by unfold QJsonObject.isSorted; decide)⟩

/-- C27. The time range of the status summary: when a payload with at least
one observation is handled with success and `toString("hh:mm:ss")` gives a
text that is not empty for every "obsTimeLocal" (as it does for a time stamp
that is well formed), `Parse_Observations` emits one "Obtained update" message;
its two bounds are times of observations of the payload, and in the order of
`QString` (by `clock_order` the order of the clock on texts hh:mm:ss) the lower
bound is at most, and the upper bound at least, the time of every observation. -/
theorem status_time_range (qt : QtText) (s : WundergroundComms) (resp : QJsonObject)
    (hr : (Parse_Observations qt s resp).ret = true)
    (hne : observationsOf resp ≠ [])
    (ht : ∀ v ∈ observationsOf resp, timeOf qt v ≠ "") :
    ∃ min_time max_time,
      reportedRanges (Parse_Observations qt s resp).events = [(min_time, max_time)] ∧
      min_time ∈ (observationsOf resp).map (timeOf qt) ∧
      max_time ∈ (observationsOf resp).map (timeOf qt) ∧
      ∀ v ∈ observationsOf resp,
        QString.le min_time (timeOf qt v) = true ∧ QString.le (timeOf qt v) max_time = true := by
  have h := fold_range qt (observationsOf resp) hne ht
  exact ⟨_, _, PO_reportedRanges qt s resp hr, h.1, h.2.1, h.2.2⟩

/-- C27, witness: the three observations of `sampleThree`, the latest one
first, are reported with the range 18:39:49 to 18:49:49. -/
theorem status_time_range_witness :
    (Parse_Observations sampleQt sampleEngine sampleThree).ret = true ∧
    reportedRanges (Parse_Observations sampleQt sampleEngine sampleThree).events
      = [("18:39:49", "18:49:49")] ∧
    ∃ min_time max_time,
      reportedRanges (Parse_Observations sampleQt sampleEngine sampleThree).events
        = [(min_time, max_time)] ∧
      min_time ∈ (observationsOf sampleThree).map (timeOf sampleQt) ∧
      max_time ∈ (observationsOf sampleThree).map (timeOf sampleQt) ∧
      ∀ v ∈ observationsOf sampleThree,
        QString.le min_time (timeOf sampleQt v) = true ∧
        QString.le (timeOf sampleQt v) max_time = true :=
  ⟨rfl, rfl,
    status_time_range sampleQt sampleEngine sampleThree rfl
      (fun h => List.noConfusion h) (by decide)⟩

/-- C28. The uptime: when the start time is not in the future, `GetUptime`
returns the hours (the seconds divided by 3600) in decimal without padding, a
colon, the minutes (the seconds divided by 60, modulo 60) in two digits, a
colon, and the seconds modulo 60 in two digits; the two are below 60 and the
three numbers give back the seconds. -/
theorem uptime_text (s : WundergroundComms) (now : Int) (h : 0 ≤ now - s.m_StartDateTime) :
    GetUptime s now =
      toString ((now - s.m_StartDateTime).toNat / 3600) ++ ":" ++
        QString.twoDigits ((now - s.m_StartDateTime).toNat / 60 % 60) ++ ":" ++
        QString.twoDigits ((now - s.m_StartDateTime).toNat % 60) ∧
    (QString.twoDigits ((now - s.m_StartDateTime).toNat / 60 % 60)).length = 2 ∧
    (QString.twoDigits ((now - s.m_StartDateTime).toNat % 60)).length = 2 ∧
    (now - s.m_StartDateTime).toNat / 60 % 60 < 60 ∧
    (now - s.m_StartDateTime).toNat % 60 < 60 ∧
    (now - s.m_StartDateTime).toNat / 3600 * 3600 +
      (now - s.m_StartDateTime).toNat / 60 % 60 * 60 +
      (now - s.m_StartDateTime).toNat % 60 = (now - s.m_StartDateTime).toNat := by
  have e : now = s.m_StartDateTime + ((now - s.m_StartDateTime).toNat : Int) := by
    rw [Int.toNat_of_nonneg h]; omega
  refine ⟨?_, rfl, rfl, Nat.mod_lt _ (by decide), Nat.mod_lt _ (by decide), by omega⟩
  conv_lhs => rw [e]
  exact GetUptime_eq s _

/-- C28, witness: 3725 seconds after the start the uptime is "1:02:05". -/
theorem uptime_text_witness :
    0 ≤ (3725 : Int) - sampleEngine.m_StartDateTime ∧
    GetUptime sampleEngine 3725 = "1:02:05" :=
  ⟨by decide, (uptime_text sampleEngine 3725 (by decide)).1⟩

/-- C29. The round trip of the percent encoding: `PercentDecode` gives back
every text that `PercentEncode` has encoded, and the encoded text holds no
line feed, no carriage return and none of the characters less-than,
greater-than, double quote and ampersand. -/
theorem percent_round_trip (s : String) :
    StringHelper.PercentDecode (StringHelper.PercentEncode s) = s ∧
    ∀ c ∈ (StringHelper.PercentEncode s).data,
      c ≠ '\n' ∧ c ≠ '\r' ∧ c ≠ '<' ∧ c ≠ '>' ∧ c ≠ '"' ∧ c ≠ '&' := by
  constructor
  · have h := PercentDecode_blocks s.data
    rw [← PercentEncode_data s] at h
    exact String.ext h
  · intro c hc
    rw [PercentEncode_data] at hc
    obtain ⟨d, hd⟩ := mem_blocks _ _ _ hc
    exact percentCode_clean d c hd

/-- C30, the defect: for 13 `ToNth` returns "13rd", and likewise "111st",
"112nd" and "113rd": above twelve the suffix is chosen by the last digit alone. -/
theorem ToNth_thirteen :
    StringHelper.ToNth 13 = "13rd" ∧ StringHelper.ToNth 111 = "111st" ∧
    StringHelper.ToNth 112 = "112nd" ∧ StringHelper.ToNth 113 = "113rd" := by
  decide
